import Mathlib

/-!
# geo-data-api: grouping, batching and filename pipeline

A shallow embedding of the generators of the static geo-data API
(`src/generators/*.js`, `src/utils/data-utils.js`) together with the
properties of the batching engine, the filename sanitizers and the grouping
engine.

Conventions of the embedding

* A JavaScript string is the list of its UTF-16 code units (`JSString`);
  regular expressions without the `u` flag and `length` work on code units.
* Record ids are integers (`Int`), as the data model states.
* An optional textual field of a record is a `Field`: `undefined` (absent),
  `null`, or a string.
* A generator method returns the list of `writeJSON` calls it performs, in
  order, each a path and the document handed to the writer. The generators
  write with the default options, under which the writer changes no key and
  no value of a record other than the coordinates it rounds.
* The field `generated_at` of a `meta` object holds the time of the run and
  is left out of the embedding, as are the summary lists named at the
  structures that omit them.
* Functions of the JavaScript library and of lodash are modelled by what they
  compute: `_.sortBy` as a stable ascending sort, `_.groupBy` as the object of
  the groups in creation order, `Object.entries` with the property order of
  the language, `Map.get` as the last entry with the key.
-/

namespace GeoData

/-! ## JavaScript strings -/

/-- A JavaScript string: the list of its UTF-16 code units. -/
abbrev JSString := List Nat

/-- The code units of a literal whose characters all lie in the Basic
Multilingual Plane (every literal of the sources does). -/
def lit (s : String) : JSString := s.toList.map Char.toNat

/-- Decimal digits of a natural number, most significant first, as code units;
`fuel` bounds the number of digits. -/
def digitsAux : Nat → Nat → List Nat → List Nat
  | 0, _, acc => acc
  | fuel + 1, n, acc =>
    let acc1 := (48 + n % 10) :: acc
    if n / 10 = 0 then acc1 else digitsAux fuel (n / 10) acc1

/-- Decimal rendering of a natural number. -/
def natToString (n : Nat) : JSString := digitsAux (n + 1) n []

/-- The digits of a rendering without its trailing zeros (code unit 48). -/
def significantDigits (ds : List Nat) : List Nat :=
  (ds.reverse.dropWhile (fun d => d == 48)).reverse

/-- The digits before the exponent: the first digit, followed by `.` (code
unit 46) and the further digits when there are any. -/
def mantissa : List Nat → JSString
  | [] => []
  | [d] => [d]
  | d :: rest => d :: 46 :: rest

/-- Exponent notation of a natural number: its digits without the trailing
zeros, `e+` (code units 101 and 43) and the decimal exponent, as in `1e+21`
and `1.5e+21`. -/
def exponentForm (n : Nat) : JSString :=
  mantissa (significantDigits (natToString n)) ++ [101, 43]
    ++ natToString ((natToString n).length - 1)

/-- The string of a non-negative integer Number: decimal digits below 10^21,
exponent notation from 10^21 on. -/
def renderNat (n : Nat) : JSString :=
  if n < 1000000000000000000000 then natToString n else exponentForm n

/-- The string that a template literal, `toString()`, `String(n)` or a
property key gives for an integer: `-` (code unit 45) when negative, then
decimal digits below 10^21 and exponent notation from 10^21 on. The digits are
the exact digits of the integer. `Number::toString` prints the shortest digits
that read back as the same Number; they are the exact digits for every integer
of absolute value below 2^53 and for every integer of at most 15 significant
digits, and the search for the other Numbers, which is floating point, is not
embedded. -/
def numberToString (i : Int) : JSString :=
  if i < 0 then 45 :: renderNat i.natAbs else renderNat i.natAbs

/-- The relation `a <= b` of JavaScript on strings: lexicographic comparison
of code units. -/
def strLe : JSString → JSString → Bool
  | [], _ => true
  | _ :: _, [] => false
  | a :: as, b :: bs => if a < b then true else if b < a then false else strLe as bs

/-- The relation `a <= b` on integer ids. -/
def numLe (a b : Int) : Bool := decide (a ≤ b)

/-- The number a string of decimal digits denotes (used to show that distinct
integers have distinct renderings). -/
def decimalValue (ds : JSString) : Nat := ds.foldl (fun v d => 10 * v + (d - 48)) 0

/-! ## Records -/

/-- A value a caller may hand to a method that expects a string. -/
inductive JSValue where
  | undefined : JSValue
  | null : JSValue
  | str (s : JSString) : JSValue
  | num (n : Int) : JSValue
  | bool (b : Bool) : JSValue
  deriving DecidableEq, Repr

/-- An optional textual field of a record. -/
inductive Field where
  | undefined : Field
  | null : Field
  | str (s : JSString) : Field
  deriving DecidableEq, Repr

/-- JavaScript truthiness of an optional textual field: a non-empty string. -/
def Field.truthy : Field → Bool
  | .str (_ :: _) => true
  | _ => false

/-- The expression `a || b` on optional textual fields. -/
def Field.or (a b : Field) : Field := if a.truthy then a else b

structure Country where
  id : Int
  name : Field
  iso2 : Field
  iso3 : Field
  region : Field
  subregion : Field
  capital : Field := Field.undefined
  currency : Field := Field.undefined
  currency_symbol : Field := Field.undefined
  emoji : Field := Field.undefined
  emojiU : Field := Field.undefined
  region_id : JSValue := JSValue.undefined
  subregion_id : JSValue := JSValue.undefined
  deriving DecidableEq, Repr

structure State where
  id : Int
  name : JSString
  country_id : Int
  country_code : Field
  country_name : Field
  iso2 : Field
  iso3166_2 : Field
  type : Field
  timezone : Field
  latitude : Field
  longitude : Field
  deriving DecidableEq, Repr

structure City where
  id : Int
  name : JSString
  state_id : Int
  country_id : Int
  state_name : Field
  country_name : Field
  state_code : Field
  country_code : Field
  latitude : Field
  longitude : Field
  wikiDataId : Field
  timezone : Field
  deriving DecidableEq, Repr

/-! ## `Map` and plain objects keyed by id -/

/-- The method `get` of `new Map(entries)`: the value of the last entry
carrying the key, `none` (undefined) when no entry carries it. -/
def mapGet {α : Type} (entries : List (Int × α)) (k : Int) : Option α :=
  ((entries.filter (fun e => e.1 == k)).getLast?).map (fun e => e.2)

/-- The assignment `obj[k] = v` on an object represented by its entries: an
existing key keeps its place and takes the new value, a new key is added. -/
def objSet {α : Type} : List (Int × α) → Int → α → List (Int × α)
  | [], k, v => [(k, v)]
  | (k1, v1) :: rest, k, v =>
    if k1 = k then (k, v) :: rest else (k1, v1) :: objSet rest k v

/-- The property read `obj[k]`. -/
def objGet {α : Type} : List (Int × α) → Int → Option α
  | [], _ => none
  | (k1, v1) :: rest, k => if k1 = k then some v1 else objGet rest k

/-- The output tree after a sequence of `writeJSON` calls: the document at a
path is the one of the last call that wrote the path. -/
def readFile {δ : Type} (writes : List (JSString × δ)) (path : JSString) : Option δ :=
  ((writes.filter (fun w => decide (w.1 = path))).getLast?).map (fun w => w.2)

/-! ## DataUtils -/

namespace DataUtils

/-- The function `DataUtils.sortBy(data, key)`, that is lodash `_.sortBy`: a
stable sort, ascending in the key. `le` is the comparison of the key type. -/
def sortBy {α κ : Type} (le : κ → κ → Bool) (key : α → κ) (data : List α) : List α :=
  data.insertionSort (fun a b => le (key a) (key b) = true)

/-- The step of `_.groupBy` for one record: it is pushed to the array under
its key, which is created at the end of the object when new. -/
def pushGroup {α : Type} : List (JSString × List α) → JSString → α → List (JSString × List α)
  | [], k, x => [(k, [x])]
  | (k1, g) :: rest, k, x =>
    if k1 = k then (k1, g ++ [x]) :: rest else (k1, g) :: pushGroup rest k x

/-- The function `DataUtils.groupBy(data, key)`, that is lodash `_.groupBy`:
the object whose property `k` holds the records with key string `k`, in input
order; the properties are listed in creation order. -/
def groupBy {α : Type} (key : α → JSString) (data : List α) : List (JSString × List α) :=
  data.foldl (fun obj x => pushGroup obj (key x) x) []

end DataUtils

/-- The property key an optional textual field is converted to. -/
def Field.key : Field → JSString
  | .undefined => lit "undefined"
  | .null => lit "null"
  | .str s => s

/-- Whether a property key is an array index: the canonical decimal rendering
of an integer from 0 to 2^32 - 2. -/
def isArrayIndex (k : JSString) : Bool :=
  k == natToString (decimalValue k) && decide (decimalValue k < 4294967295)

/-- The order in which `Object.entries` and `Object.keys` list the properties
of an object: array indices in ascending numeric order, then the other keys in
creation order. -/
def objectEntries {β : Type} (obj : List (JSString × β)) : List (JSString × β) :=
  (obj.filter (fun e => isArrayIndex e.1)).insertionSort
      (fun a b => decimalValue a.1 ≤ decimalValue b.1)
    ++ obj.filter (fun e => !isArrayIndex e.1)

/-- The property read `obj[key]` on an object with string keys. -/
def getProperty {β : Type} : List (JSString × β) → JSString → Option β
  | [], _ => none
  | (k1, v1) :: rest, k => if k1 = k then some v1 else getProperty rest k

/-- The class `[0-9]`. -/
def isDigit (c : Nat) : Bool := 48 ≤ c && c ≤ 57

/-- The function `parseInt` on the rendering of an integer, the only strings
it is applied to: the integer that the optional `-` and the decimal digits at
the start denote, up to the first other code unit (so `1e+21` gives 1), `none`
(NaN) without a digit. -/
def parseInt (s : JSString) : Option Int :=
  match s with
  | 45 :: ds =>
    if ds.takeWhile isDigit = [] then none
    else some (-(Int.ofNat (decimalValue (ds.takeWhile isDigit))))
  | ds =>
    if ds.takeWhile isDigit = [] then none
    else some (Int.ofNat (decimalValue (ds.takeWhile isDigit)))

/-- The method `Array.prototype.slice(start, end)` for `0 <= start <= end`. -/
def slice {α : Type} (xs : List α) (start stop : Nat) : List α :=
  (xs.drop start).take (stop - start)

/-! ## CitiesGenerator.generateCityBatches -/

namespace CitiesGenerator

/-- A record of the lookup object of a batch file: the city spread, with
`state_name` and `country_name` resolved and the enhanced fields added. -/
structure BatchCity where
  id : Int
  name : JSString
  state_id : Int
  country_id : Int
  state_name : Field
  country_name : Field
  state_code : Field
  country_code : Field
  latitude : Field
  longitude : Field
  wikiDataId : Field
  timezone : Field
  state_type : Field
  country_iso2 : Field
  country_iso3 : Field
  has_coordinates : Bool
  has_wikidata : Bool
  has_timezone : Bool
  deriving DecidableEq, Repr

/-- An entry of the batch index `cities/batches.json`. -/
structure BatchEntry where
  filename : JSString
  start_id : Int
  end_id : Int
  count : Nat
  deriving DecidableEq, Repr

/-- The `meta` object of a batch file. -/
structure BatchMeta where
  type : JSString
  batch_range : JSString
  cities_count : Nat
  usage : JSString
  api_version : JSString
  deriving DecidableEq, Repr

/-- The `meta` object of the batch index. -/
structure IndexMeta where
  type : JSString
  total_batches : Nat
  cities_per_batch : Nat
  total_cities : Nat
  usage : JSString
  api_version : JSString
  deriving DecidableEq, Repr

/-- A document handed to `FileUtils.writeJSON` by `generateCityBatches`. -/
inductive Document where
  | batchFile (data : List (Int × BatchCity)) (meta : BatchMeta) : Document
  | batchIndex (data : List BatchEntry) (meta : IndexMeta) : Document
  deriving DecidableEq, Repr

/-- The constant `config.API_VERSION`. -/
def API_VERSION : JSString := lit "v1"

def CITIES_PER_BATCH : Nat := 100

/-- The record stored under `cityLookup[city.id]`. -/
def enhance (statesMap : List (Int × State)) (countriesMap : List (Int × Country))
    (city : City) : BatchCity :=
  let state := mapGet statesMap city.state_id
  let country := mapGet countriesMap city.country_id
  { id := city.id
    name := city.name
    state_id := city.state_id
    country_id := city.country_id
    state_name :=
      match state with
      | some s => (Field.str s.name).or city.state_name
      | none => city.state_name
    country_name :=
      match country with
      | some c => c.name.or city.country_name
      | none => city.country_name
    state_code := city.state_code
    country_code := city.country_code
    latitude := city.latitude
    longitude := city.longitude
    wikiDataId := city.wikiDataId
    timezone := city.timezone
    state_type := match state with | some s => s.type | none => Field.undefined
    country_iso2 := match country with | some c => c.iso2 | none => Field.undefined
    country_iso3 := match country with | some c => c.iso3 | none => Field.undefined
    has_coordinates := city.latitude.truthy && city.longitude.truthy
    has_wikidata := city.wikiDataId.truthy
    has_timezone := city.timezone.truthy }

/-- The lookup object built by `batch.forEach`, as its entries in the order
in which they are created (the order in which the object lists its keys, array
indices first, is not embedded). -/
def cityLookup (statesMap : List (Int × State)) (countriesMap : List (Int × Country))
    (batch : List City) : List (Int × BatchCity) :=
  batch.foldl (fun obj city => objSet obj city.id (enhance statesMap countriesMap city)) []

/-- What one iteration of the batch loop produces: the slice, its first and
last id, the file written and the index entry pushed. -/
structure Iteration where
  batch : List City
  startId : Int
  endId : Int
  filePath : JSString
  file : Document
  entry : BatchEntry
  deriving DecidableEq, Repr

/-- The body of the loop for a non-empty slice. -/
def iteration (statesMap : List (Int × State)) (countriesMap : List (Int × Country))
    (batch : List City) (hne : batch ≠ []) : Iteration :=
  let startId := (batch.head hne).id
  let endId := (batch.getLast hne).id
  let range := numberToString startId ++ lit "-" ++ numberToString endId
  let filename := lit "batch-" ++ range ++ lit ".json"
  let filePath := lit "cities/batch/" ++ filename
  { batch := batch
    startId := startId
    endId := endId
    filePath := filePath
    file := Document.batchFile (cityLookup statesMap countriesMap batch)
      { type := lit "cities_batch"
        batch_range := range
        cities_count := batch.length
        usage := lit "Access city by ID: data[city_id]"
        api_version := API_VERSION }
    entry :=
      { filename := filePath
        start_id := startId
        end_id := endId
        count := batch.length } }

/-- The loop `for (let i = 0; i < sortedCities.length; i += CITIES_PER_BATCH)`,
started at index `i`. -/
def batchLoop (statesMap : List (Int × State)) (countriesMap : List (Int × Country))
    (sortedCities : List City) (i : Nat) : List Iteration :=
  if h : i < sortedCities.length then
    iteration statesMap countriesMap (slice sortedCities i (i + CITIES_PER_BATCH))
        (by
          intro h0
          have hl := congrArg List.length h0
          simp [slice, CITIES_PER_BATCH] at hl
          omega)
      :: batchLoop statesMap countriesMap sortedCities (i + CITIES_PER_BATCH)
  else []
termination_by sortedCities.length - i
decreasing_by simp [CITIES_PER_BATCH]; omega

/-- The iterations of `generateCityBatches` on the generator's cities. -/
def iterations (cities : List City) (states : List State) (countries : List Country) :
    List Iteration :=
  batchLoop (states.map (fun s => (s.id, s))) (countries.map (fun c => (c.id, c)))
    (DataUtils.sortBy numLe City.id cities) 0

/-- The method `generateCityBatches`: the `writeJSON` calls it performs, in
order: one batch file per iteration, then the batch index. -/
def generateCityBatches (cities : List City) (states : List State)
    (countries : List Country) : List (JSString × Document) :=
  let its := iterations cities states countries
  its.map (fun it => (it.filePath, it.file)) ++
    [(lit "cities/batches.json",
      Document.batchIndex (its.map (fun it => it.entry))
        { type := lit "batch_index"
          total_batches := its.length
          cities_per_batch := CITIES_PER_BATCH
          total_cities := (DataUtils.sortBy numLe City.id cities).length
          usage := lit "Use start_id/end_id to find which batch contains a specific city ID"
          api_version := API_VERSION })]

/-- The batch index written to `cities/batches.json`. -/
def batchIndex (cities : List City) (states : List State) (countries : List Country) :
    List BatchEntry :=
  (iterations cities states countries).map (fun it => it.entry)

end CitiesGenerator

/-! ## BaseGenerator.generateSafeFilename -/

/-- The value of an optional textual field. -/
def Field.toValue : Field → JSValue
  | .undefined => JSValue.undefined
  | .null => JSValue.null
  | .str s => JSValue.str s

/-- The class `[a-z0-9]`. -/
def isLowerAlnum (c : Nat) : Bool := (97 ≤ c && c ≤ 122) || (48 ≤ c && c ≤ 57)

/-- The class `[a-zA-Z0-9]`. -/
def isAsciiAlnum (c : Nat) : Bool := (65 ≤ c && c ≤ 90) || isLowerAlnum c

/-- The class `[a-z0-9-]`. -/
def isSafeUnit (c : Nat) : Bool := isLowerAlnum c || c == 45

/-- Lower-casing of a code unit below 128: `A`..`Z` go to `a`..`z`. -/
def asciiLower (c : Nat) : Nat := if 65 ≤ c ∧ c ≤ 90 then c + 32 else c

/-- The method `String.prototype.toLowerCase` on the units after `before`.
A code unit below 128 is replaced by its ASCII lower case. The Unicode case
tables that govern the other code units are not part of the sources; they are
the parameter `u`, which gives the code units that replace a unit of 128 or
more between the units before and after it. -/
def toLowerCaseFrom (u : List Nat → Nat → List Nat → List Nat) :
    List Nat → JSString → JSString
  | _, [] => []
  | before, c :: rest =>
    (if c < 128 then [asciiLower c] else u before c rest)
      ++ toLowerCaseFrom u (before ++ [c]) rest

/-- The method `String.prototype.toLowerCase`. -/
def toLowerCase (u : List Nat → Nat → List Nat → List Nat) (s : JSString) : JSString :=
  toLowerCaseFrom u [] s

namespace BaseGenerator

/-- The step `.replace(/[^a-z0-9-]/g, "-")`. -/
def replaceUnsafe (s : JSString) : JSString :=
  s.map (fun c => if isSafeUnit c then c else 45)

/-- The step `.replace(re, "-")` with the global pattern `-+`: every run of
`-` becomes one `-`. -/
def collapseDashes : JSString → JSString
  | [] => []
  | [c] => [c]
  | c :: d :: rest =>
    if c = 45 ∧ d = 45 then collapseDashes (d :: rest) else c :: collapseDashes (d :: rest)

/-- The alternative `-$` of the last step: a `-` at the end is removed. -/
def dropTrailingDash (s : JSString) : JSString :=
  if s.getLast? = some 45 then s.dropLast else s

/-- The step `.replace(/^-|-$/g, "")`: a `-` at the start is removed, and a
`-` at the end of what follows. -/
def stripDashEnds : JSString → JSString
  | 45 :: rest => dropTrailingDash rest
  | s => dropTrailingDash s

/-- The method `generateSafeFilename(name, fallback = "unknown")`; the fallback
is `none` when the caller gives none. -/
def generateSafeFilename (u : List Nat → Nat → List Nat → List Nat) (name : JSValue)
    (fallback : Option JSString) : JSString :=
  match name with
  | .str (c :: cs) =>
    stripDashEnds (collapseDashes (replaceUnsafe (toLowerCase u (c :: cs))))
  | _ => fallback.getD (lit "unknown")

/-- No two neighbouring code units of the string are both `-`. -/
def NoDoubleDash (s : JSString) : Prop := s.Chain' (fun a b => ¬ (a = 45 ∧ b = 45))

end BaseGenerator

/-! ## The contract of a group list -/

/-- The contract of an emitted group list: `data` holds the projections of
exactly the records of `group` (as a permutation), it is ascending in the name
in code-unit order, and the records with one name stand in the order they
have in `group`. -/
def SortedGroup {α β : Type} (proj : α → β) (nameOf : β → JSString) (group : List α)
    (data : List β) : Prop :=
  data.Perm (group.map proj)
    ∧ data.Sorted (fun a b => strLe (nameOf a) (nameOf b) = true)
    ∧ ∀ n : JSString, data.filter (fun r => decide (nameOf r = n))
        = (group.filter (fun s => decide (nameOf (proj s) = n))).map proj

/-! ## The timezone path segment -/

/-- The expression `timezone.replace(/[^a-zA-Z0-9]/g, "-")` of
`processStatesByTimezone`, `generateStateTimezonesIndex` and
`generateCitiesByTimezone`. -/
def sanitizeTimezone (timezone : JSString) : JSString :=
  timezone.map (fun c => if isAsciiAlnum c then c else 45)

/-- The test `!key || key === "undefined" || key === "null"` that makes the
by-type and by-timezone loops and indices skip a group. -/
def skippedKey (k : JSString) : Bool :=
  k == [] || k == lit "undefined" || k == lit "null"

/-! ## StatesGenerator -/

namespace StatesGenerator

/-- A record of `createOptimizedListData(states, config.STATE_FIELDS.list)`:
the fields `id`, `name`, `iso2`, `iso3166_2`, a field being left out when
undefined. -/
structure StateListItem where
  id : Int
  name : JSString
  iso2 : Field
  iso3166_2 : Field
  deriving DecidableEq, Repr

/-- A record of a by-type document. -/
structure StateOfType where
  id : Int
  name : JSString
  country_id : Int
  country_code : Field
  country_name : Field
  iso2 : Field
  latitude : Field
  longitude : Field
  timezone : Field
  deriving DecidableEq, Repr

/-- A record of a by-timezone document. -/
structure StateOfTimezone where
  id : Int
  name : JSString
  country_id : Int
  country_code : Field
  country_name : Field
  type : Field
  latitude : Field
  longitude : Field
  deriving DecidableEq, Repr

/-- The `meta` object of a by-country document (the summary lists `types` and
`timezones` and the timestamp are left out of the embedding). -/
structure CountryMeta where
  type : JSString
  count : Nat
  api_version : JSString
  country_id : Int
  country_name : Field
  country_iso2 : Field
  country_iso3 : Field
  country_code : Field
  total_states : Nat
  deriving DecidableEq, Repr

/-- The `meta` object of a by-type or by-timezone document: `key` is its field
`type`, respectively `timezone` (the summary lists and the timestamp are left
out of the embedding). In a by-type document the caller's field `type`
replaces the document type `"states_by_type"`, so `type` and `key` coincide. -/
structure GroupMeta where
  type : JSString
  count : Nat
  api_version : JSString
  key : JSString
  total_states : Nat
  deriving DecidableEq, Repr

/-- An entry of `states/types.json` (`key` is its field `type`) or of
`states/timezones.json` (`key` is its field `timezone`). -/
structure IndexEntry where
  key : JSString
  state_count : Nat
  country_count : Nat
  endpoint : JSString
  deriving DecidableEq, Repr

/-- The `meta` object `addMetadata` gives an index. -/
structure IndexMeta where
  type : JSString
  count : Nat
  api_version : JSString
  deriving DecidableEq, Repr

/-- A document handed to the writer by the grouping methods of
`StatesGenerator`. -/
inductive Document where
  | byCountry (data : List StateListItem) (meta : CountryMeta) : Document
  | byType (data : List StateOfType) (meta : GroupMeta) : Document
  | byTimezone (data : List StateOfTimezone) (meta : GroupMeta) : Document
  | index (data : List IndexEntry) (meta : IndexMeta) : Document
  deriving DecidableEq, Repr

/-- The constant `config.API_VERSION`. -/
def API_VERSION : JSString := lit "v1"

/-- The field `meta.type` of a by-type document, which names its group. -/
def Document.typeKey : Document → Option JSString
  | .byType _ m => some m.key
  | _ => none

/-- The field `meta.country_id` of a by-country document. -/
def Document.countryId : Document → Option Int
  | .byCountry _ m => some m.country_id
  | _ => none

/-- One record of `createOptimizedListData`. -/
def listItem (s : State) : StateListItem :=
  { id := s.id, name := s.name, iso2 := s.iso2, iso3166_2 := s.iso3166_2 }

/-- One record of a by-type document. -/
def ofType (s : State) : StateOfType :=
  { id := s.id, name := s.name, country_id := s.country_id, country_code := s.country_code,
    country_name := s.country_name, iso2 := s.iso2, latitude := s.latitude,
    longitude := s.longitude, timezone := s.timezone }

/-- One record of a by-timezone document. -/
def ofTimezone (s : State) : StateOfTimezone :=
  { id := s.id, name := s.name, country_id := s.country_id, country_code := s.country_code,
    country_name := s.country_name, type := s.type, latitude := s.latitude,
    longitude := s.longitude }

/-- The method `processCountryStates(country, states)`: the write it performs;
`none` when `states[0]` does not exist, which raises an error that the caller
catches. -/
def processCountryStates (u : List Nat → Nat → List Nat → List Nat) (country : Country)
    (states : List State) : Option (JSString × Document) :=
  match states with
  | [] => none
  | first :: _ =>
    let sortedStates := DataUtils.sortBy strLe State.name states
    let optimizedStates := sortedStates.map listItem
    some
      (lit "states/country/"
          ++ BaseGenerator.generateSafeFilename u country.iso2.toValue
              (some (numberToString country.id))
          ++ lit ".json",
        Document.byCountry optimizedStates
          { type := lit "states"
            count := optimizedStates.length
            api_version := API_VERSION
            country_id := country.id
            country_name := country.name
            country_iso2 := country.iso2
            country_iso3 := country.iso3
            country_code := first.country_code
            total_states := optimizedStates.length })

/-- The method `generateStatesByCountry`: a group is processed when its key
names a country of the map whose `iso2` is truthy, and skipped otherwise. -/
def generateStatesByCountry (u : List Nat → Nat → List Nat → List Nat)
    (states : List State) (countries : List Country) : List (JSString × Document) :=
  (objectEntries (DataUtils.groupBy (fun s => numberToString s.country_id) states)).filterMap
    (fun entry =>
      match (parseInt entry.1).bind (mapGet (countries.map (fun c => (c.id, c)))) with
      | some country =>
        if country.iso2.truthy then processCountryStates u country entry.2 else none
      | none => none)

/-- The method `processStatesByType(type, states)`. -/
def processStatesByType (u : List Nat → Nat → List Nat → List Nat) (type : JSString)
    (states : List State) : JSString × Document :=
  let sortedStates := DataUtils.sortBy strLe State.name states
  let optimizedStates := sortedStates.map ofType
  (lit "states/type/" ++ BaseGenerator.generateSafeFilename u (.str type) none ++ lit ".json",
    Document.byType optimizedStates
      { type := type
        count := optimizedStates.length
        api_version := API_VERSION
        key := type
        total_states := sortedStates.length })

/-- The number of distinct country ids of a group,
`[...new Set(states.map((s) => s.country_id))].length`. -/
def countryCount (states : List State) : Nat := ((states.map State.country_id).dedup).length

/-- The method `generateStateTypesIndex(statesByType)`: the entries are sorted
by descending `state_count` (a stable sort). -/
def generateStateTypesIndex (u : List Nat → Nat → List Nat → List Nat)
    (statesByType : List (JSString × List State)) : JSString × Document :=
  let typesIndex :=
    ((((objectEntries statesByType).map (fun e => e.1)).filter (fun k => !skippedKey k)).map
      (fun type =>
        let states := (getProperty statesByType type).getD []
        ({ key := type
           state_count := states.length
           country_count := countryCount states
           endpoint := lit "states/type/"
             ++ BaseGenerator.generateSafeFilename u (.str type) none ++ lit ".json" }
          : IndexEntry))).insertionSort (fun a b => b.state_count ≤ a.state_count)
  (lit "states/types.json",
    Document.index typesIndex
      { type := lit "state_types_index", count := typesIndex.length,
        api_version := API_VERSION })

/-- The method `generateStatesByType`. -/
def generateStatesByType (u : List Nat → Nat → List Nat → List Nat) (states : List State) :
    List (JSString × Document) :=
  let statesByType := DataUtils.groupBy (fun s => s.type.key) states
  ((objectEntries statesByType).filter (fun e => !skippedKey e.1)).map
      (fun e => processStatesByType u e.1 e.2)
    ++ [generateStateTypesIndex u statesByType]

/-- The method `processStatesByTimezone(timezone, states)`. -/
def processStatesByTimezone (timezone : JSString) (states : List State) :
    JSString × Document :=
  let sortedStates := DataUtils.sortBy strLe State.name states
  let optimizedStates := sortedStates.map ofTimezone
  (lit "states/timezone/" ++ sanitizeTimezone timezone ++ lit ".json",
    Document.byTimezone optimizedStates
      { type := lit "states_by_timezone"
        count := optimizedStates.length
        api_version := API_VERSION
        key := timezone
        total_states := sortedStates.length })

/-- The method `generateStateTimezonesIndex(statesByTimezone)`. The entries are
sorted with `localeCompare` on the timezone; the collation is not part of the
sources and is the parameter `localeLe` (`a.localeCompare(b) <= 0`). -/
def generateStateTimezonesIndex (localeLe : JSString → JSString → Bool)
    (statesByTimezone : List (JSString × List State)) : JSString × Document :=
  let timezonesIndex :=
    ((((objectEntries statesByTimezone).map (fun e => e.1)).filter
        (fun k => !skippedKey k)).map
      (fun timezone =>
        let states := (getProperty statesByTimezone timezone).getD []
        ({ key := timezone
           state_count := states.length
           country_count := countryCount states
           endpoint := lit "states/timezone/" ++ sanitizeTimezone timezone ++ lit ".json" }
          : IndexEntry))).insertionSort (fun a b => localeLe a.key b.key = true)
  (lit "states/timezones.json",
    Document.index timezonesIndex
      { type := lit "state_timezones_index", count := timezonesIndex.length,
        api_version := API_VERSION })

/-- The method `generateStatesByTimezone`. -/
def generateStatesByTimezone (localeLe : JSString → JSString → Bool) (states : List State) :
    List (JSString × Document) :=
  let statesByTimezone :=
    DataUtils.groupBy (fun s => s.timezone.key) (states.filter (fun s => s.timezone.truthy))
  ((objectEntries statesByTimezone).filter (fun e => !skippedKey e.1)).map
      (fun e => processStatesByTimezone e.1 e.2)
    ++ [generateStateTimezonesIndex localeLe statesByTimezone]

end StatesGenerator

namespace CitiesGenerator

/-- A record of a `cities/timezone` document. -/
structure CityOfTimezone where
  id : Int
  name : JSString
  state_name : Field
  country_name : Field
  latitude : Field
  longitude : Field
  wikiDataId : Field
  deriving DecidableEq, Repr

/-- The `meta` object of a `cities/timezone` document (the summary fields
`countries` and `states` and the timestamp are left out of the embedding). -/
structure TimezoneMeta where
  type : JSString
  count : Nat
  api_version : JSString
  timezone : JSString
  total_cities : Nat
  deriving DecidableEq, Repr

/-- One record of a `cities/timezone` document. -/
def ofTimezone (c : City) : CityOfTimezone :=
  { id := c.id, name := c.name, state_name := c.state_name, country_name := c.country_name,
    latitude := c.latitude, longitude := c.longitude, wikiDataId := c.wikiDataId }

/-- The method `generateCitiesByTimezone`: the path and the document of each
write. -/
def generateCitiesByTimezone (cities : List City) :
    List (JSString × List CityOfTimezone × TimezoneMeta) :=
  let citiesWithTimezone := cities.filter (fun c => c.timezone.truthy)
  if citiesWithTimezone.length > 0 then
    (objectEntries (DataUtils.groupBy (fun c => c.timezone.key) citiesWithTimezone)).map
      (fun e =>
        let sortedCities := DataUtils.sortBy strLe City.name e.2
        let optimizedCities := sortedCities.map ofTimezone
        (lit "cities/timezone/" ++ sanitizeTimezone e.1 ++ lit ".json",
          optimizedCities,
          { type := lit "cities_by_timezone"
            count := optimizedCities.length
            api_version := API_VERSION
            timezone := e.1
            total_cities := sortedCities.length }))
  else []

end CitiesGenerator

/-! ## CountriesGenerator -/

/-- The comparison of lodash `_.sortBy` on optional textual keys: strings in
code-unit order, then `null`, then `undefined`. -/
def fieldLe : Field → Field → Bool
  | .str a, .str b => strLe a b
  | .str _, _ => true
  | .null, .str _ => false
  | .null, _ => true
  | .undefined, .undefined => true
  | .undefined, _ => false

/-- The expression `region.toLowerCase().replace(/[^a-z0-9]/g, "-")` of
`generateCountriesByRegion` and `generateCountriesBySubregion`. -/
def regionSegment (u : List Nat → Nat → List Nat → List Nat) (region : JSString) :
    JSString :=
  (toLowerCase u region).map (fun c => if isLowerAlnum c then c else 45)

/-- The test `!region || region === "undefined"` that makes the region and
subregion loops and the regions index skip a group. -/
def skippedRegion (k : JSString) : Bool := k == [] || k == lit "undefined"

namespace CountriesGenerator

/-- A record of a by-region document. -/
structure RegionCountry where
  id : Int
  name : Field
  iso2 : Field
  iso3 : Field
  capital : Field
  currency : Field
  currency_symbol : Field
  subregion : Field
  emoji : Field
  emojiU : Field
  deriving DecidableEq, Repr

/-- A record of a by-subregion document. -/
structure SubregionCountry where
  id : Int
  name : Field
  iso2 : Field
  iso3 : Field
  capital : Field
  currency : Field
  region : Field
  emoji : Field
  emojiU : Field
  deriving DecidableEq, Repr

/-- The `meta` object of a by-region document (without the timestamp). -/
structure RegionMeta where
  type : JSString
  count : Nat
  api_version : JSString
  region : JSString
  region_id : JSValue
  total_countries : Nat
  deriving DecidableEq, Repr

/-- The `meta` object of a by-subregion document (without the timestamp). -/
structure SubregionMeta where
  type : JSString
  count : Nat
  api_version : JSString
  subregion : JSString
  subregion_id : JSValue
  region : Field
  total_countries : Nat
  deriving DecidableEq, Repr

/-- An entry of `countries/regions.json`. -/
structure RegionEntry where
  region : JSString
  region_id : JSValue
  country_count : Nat
  endpoint : JSString
  deriving DecidableEq, Repr

/-- The `meta` object `addMetadata` gives the regions index. -/
structure IndexMeta where
  type : JSString
  count : Nat
  api_version : JSString
  deriving DecidableEq, Repr

/-- A document handed to the writer by the grouping methods of
`CountriesGenerator`. -/
inductive Document where
  | byRegion (data : List RegionCountry) (meta : RegionMeta) : Document
  | bySubregion (data : List SubregionCountry) (meta : SubregionMeta) : Document
  | regionsIndex (data : List RegionEntry) (meta : IndexMeta) : Document
  deriving DecidableEq, Repr

/-- The constant `config.API_VERSION`. -/
def API_VERSION : JSString := lit "v1"

/-- One record of a by-region document. -/
def ofRegion (c : Country) : RegionCountry :=
  { id := c.id, name := c.name, iso2 := c.iso2, iso3 := c.iso3, capital := c.capital,
    currency := c.currency, currency_symbol := c.currency_symbol, subregion := c.subregion,
    emoji := c.emoji, emojiU := c.emojiU }

/-- One record of a by-subregion document. -/
def ofSubregion (c : Country) : SubregionCountry :=
  { id := c.id, name := c.name, iso2 := c.iso2, iso3 := c.iso3, capital := c.capital,
    currency := c.currency, region := c.region, emoji := c.emoji, emojiU := c.emojiU }

/-- The read `countries[0].region_id` on a group; a group of `groupBy` is never
empty, so `countries[0]` exists. -/
def firstRegionId : List Country → JSValue
  | first :: _ => first.region_id
  | [] => JSValue.undefined

/-- The read `countries[0].subregion_id` on a group. -/
def firstSubregionId : List Country → JSValue
  | first :: _ => first.subregion_id
  | [] => JSValue.undefined

/-- The read `countries[0].region` on a group. -/
def firstRegion : List Country → Field
  | first :: _ => first.region
  | [] => Field.undefined

/-- The body of the loop of `generateCountriesByRegion` for a group that is
not skipped. -/
def processRegion (u : List Nat → Nat → List Nat → List Nat) (region : JSString)
    (countries : List Country) : JSString × Document :=
  let regionCountries := countries.map ofRegion
  let sortedCountries := DataUtils.sortBy fieldLe RegionCountry.name regionCountries
  (lit "countries/region/" ++ regionSegment u region ++ lit ".json",
    Document.byRegion sortedCountries
      { type := lit "countries_by_region"
        count := sortedCountries.length
        api_version := API_VERSION
        region := region
        region_id := firstRegionId countries
        total_countries := sortedCountries.length })

/-- The regions index written to `countries/regions.json`. -/
def regionsIndex (u : List Nat → Nat → List Nat → List Nat)
    (countriesByRegion : List (JSString × List Country)) : List RegionEntry :=
  (((objectEntries countriesByRegion).map (fun e => e.1)).filter
      (fun k => !skippedRegion k)).map
    (fun region =>
      let countries := (getProperty countriesByRegion region).getD []
      { region := region
        region_id := firstRegionId countries
        country_count := countries.length
        endpoint := lit "countries/region/" ++ regionSegment u region ++ lit ".json" })

/-- The method `generateCountriesByRegion`. -/
def generateCountriesByRegion (u : List Nat → Nat → List Nat → List Nat)
    (countries : List Country) : List (JSString × Document) :=
  let countriesByRegion := DataUtils.groupBy (fun c => c.region.key) countries
  ((objectEntries countriesByRegion).filter (fun e => !skippedRegion e.1)).map
      (fun e => processRegion u e.1 e.2)
    ++ [(lit "countries/regions.json",
        Document.regionsIndex (regionsIndex u countriesByRegion)
          { type := lit "regions_index"
            count := (regionsIndex u countriesByRegion).length
            api_version := API_VERSION })]

/-- The body of the loop of `generateCountriesBySubregion` for a group that is
not skipped. -/
def processSubregion (u : List Nat → Nat → List Nat → List Nat) (subregion : JSString)
    (countries : List Country) : JSString × Document :=
  let subregionCountries := countries.map ofSubregion
  let sortedCountries := DataUtils.sortBy fieldLe SubregionCountry.name subregionCountries
  (lit "countries/subregion/" ++ regionSegment u subregion ++ lit ".json",
    Document.bySubregion sortedCountries
      { type := lit "countries_by_subregion"
        count := sortedCountries.length
        api_version := API_VERSION
        subregion := subregion
        subregion_id := firstSubregionId countries
        region := firstRegion countries
        total_countries := sortedCountries.length })

/-- The method `generateCountriesBySubregion`. -/
def generateCountriesBySubregion (u : List Nat → Nat → List Nat → List Nat)
    (countries : List Country) : List (JSString × Document) :=
  ((objectEntries (DataUtils.groupBy (fun c => c.subregion.key) countries)).filter
      (fun e => !skippedRegion e.1)).map
    (fun e => processSubregion u e.1 e.2)

end CountriesGenerator

/-! ## Documents as JavaScript values -/

/-- A JavaScript value of a document: `undefined`, `null`, a boolean, an
integer, another finite number, a string, an array, or an object given by its
properties in order. -/
inductive Json where
  | undefined : Json
  | null : Json
  | bool (b : Bool) : Json
  | num (n : Int) : Json
  | real (q : ℚ) : Json
  | str (s : JSString) : Json
  | arr (items : List Json) : Json
  | obj (fields : List (JSString × Json)) : Json

/-- The assignment `obj[key] = value` on an object with string keys: an
existing key keeps its place and takes the new value, a new key is added at
the end. An object spread `{...a, ...b}` is the properties of `b` assigned in
order to a copy of `a`. -/
def setProperty {β : Type} : List (JSString × β) → JSString → β → List (JSString × β)
  | [], k, v => [(k, v)]
  | (k1, v1) :: rest, k, v =>
    if k1 = k then (k, v) :: rest else (k1, v1) :: setProperty rest k v

/-- The property read `value[key]`: `none` when the value is no object or has
no such property. -/
def Json.get : Json → JSString → Option Json
  | .obj fields, k => getProperty fields k
  | _, _ => none

/-- The value of an optional textual field. -/
def Field.toJson : Field → Json
  | .undefined => Json.undefined
  | .null => Json.null
  | .str s => Json.str s

/-- Whether a value is `undefined`. -/
def Json.isUndefined : Json → Bool
  | .undefined => true
  | _ => false

/-- The constants of `config.js` that the writer and the envelope read. -/
def Config.API_VERSION : JSString := lit "v1"

def Config.PRETTY_JSON : Bool := false

def Config.OPTIMIZE_JSON : Bool := true

/-- The expression `Array.isArray(data) ? data.length : 1`. -/
def DataUtils.countOf : Json → Int
  | .arr items => Int.ofNat items.length
  | _ => 1

/-- The function `DataUtils.addMetadata(data, type, additionalMeta = {})`; `now`
is the value of `new Date().toISOString()`. The properties of `additionalMeta`
are spread last, over the four standard fields. -/
def DataUtils.addMetadata (now : JSString) (data : Json) (type : JSString)
    (additionalMeta : List (JSString × Json)) : Json :=
  Json.obj
    [(lit "data", data),
     (lit "meta", Json.obj
        (additionalMeta.foldl (fun m e => setProperty m e.1 e.2)
          [(lit "type", Json.str type),
           (lit "count", Json.num (DataUtils.countOf data)),
           (lit "generated_at", Json.str now),
           (lit "api_version", Json.str Config.API_VERSION)]))]

/-- The read `document.meta[key]`. -/
def Json.metaGet (document : Json) (k : JSString) : Option Json :=
  (document.get (lit "meta")).bind (fun m => m.get k)

/-- The calls of `DataUtils.addMetadata` in the countries, states, cities and
search generators. -/
inductive CallSite where
  | countriesList
  | country
  | countriesByRegion
  | regionsIndex
  | countriesBySubregion
  | statesByCountry
  | state
  | statesByType
  | stateTypesIndex
  | statesByTimezone
  | stateTimezonesIndex
  | allStates
  | citiesByCountry
  | citiesByState
  | citiesByTimezone
  | countriesSearch
  | statesSearch
  | citiesSearch
  | combinedSearch
  deriving DecidableEq, Repr

/-- The document type passed at a call of `addMetadata`. -/
def CallSite.type : CallSite → JSString
  | .countriesList => lit "countries"
  | .country => lit "country"
  | .countriesByRegion => lit "countries_by_region"
  | .regionsIndex => lit "regions_index"
  | .countriesBySubregion => lit "countries_by_subregion"
  | .statesByCountry => lit "states"
  | .state => lit "state"
  | .statesByType => lit "states_by_type"
  | .stateTypesIndex => lit "state_types_index"
  | .statesByTimezone => lit "states_by_timezone"
  | .stateTimezonesIndex => lit "state_timezones_index"
  | .allStates => lit "all_states"
  | .citiesByCountry => lit "cities"
  | .citiesByState => lit "cities"
  | .citiesByTimezone => lit "cities_by_timezone"
  | .countriesSearch => lit "countries_search"
  | .statesSearch => lit "states_search"
  | .citiesSearch => lit "cities_search"
  | .combinedSearch => lit "combined_search"

/-- The keys of the object literal passed as `additionalMeta` at a call of
`addMetadata`, in order. -/
def CallSite.extraKeys : CallSite → List JSString
  | .countriesList => [lit "total_countries", lit "fields_included"]
  | .country =>
    [lit "country_id", lit "country_name", lit "has_timezones", lit "has_translations"]
  | .countriesByRegion => [lit "region", lit "region_id", lit "total_countries"]
  | .regionsIndex => []
  | .countriesBySubregion =>
    [lit "subregion", lit "subregion_id", lit "region", lit "total_countries"]
  | .statesByCountry =>
    [lit "country_id", lit "country_name", lit "country_iso2", lit "country_iso3",
      lit "country_code", lit "total_states", lit "types", lit "timezones"]
  | .state =>
    [lit "country_name", lit "country_iso2", lit "country_iso3", lit "has_coordinates",
      lit "has_timezone"]
  | .statesByType => [lit "type", lit "total_states", lit "countries", lit "timezones"]
  | .stateTypesIndex => []
  | .statesByTimezone => [lit "timezone", lit "total_states", lit "countries", lit "types"]
  | .stateTimezonesIndex => []
  | .allStates => [lit "total_states", lit "countries", lit "types", lit "timezones"]
  | .citiesByCountry =>
    [lit "country_id", lit "country_name", lit "country_iso2", lit "country_code",
      lit "total_cities", lit "generated_at", lit "api_version", lit "summary"]
  | .citiesByState =>
    [lit "state_id", lit "state_name", lit "state_code", lit "country_id", lit "country_name",
      lit "country_code", lit "total_cities", lit "cities_with_wikidata",
      lit "cities_with_coordinates"]
  | .citiesByTimezone => [lit "timezone", lit "total_cities", lit "countries", lit "states"]
  | .countriesSearch => [lit "searchable_fields", lit "usage", lit "total_countries"]
  | .statesSearch => [lit "searchable_fields", lit "usage", lit "total_states"]
  | .citiesSearch => [lit "searchable_fields", lit "usage", lit "note", lit "total_cities"]
  | .combinedSearch => [lit "usage", lit "limitations", lit "note"]

/-- The value of a key of the literal: what the generator computed for it,
`v key`, except that the literal of `generateCitiesByCountry` gives
`api_version` the configured version. -/
def CallSite.value (site : CallSite) (v : JSString → Json) (k : JSString) : Json :=
  match site with
  | .citiesByCountry => if k = lit "api_version" then Json.str Config.API_VERSION else v k
  | _ => v k

/-- The object literal passed as `additionalMeta` at a call of `addMetadata`. -/
def CallSite.additionalMeta (site : CallSite) (v : JSString → Json) :
    List (JSString × Json) :=
  site.extraKeys.map (fun k => (k, site.value v k))

/-- The document built at a call of `addMetadata` for the payload `data`. -/
def CallSite.document (now : JSString) (site : CallSite) (data : Json)
    (v : JSString → Json) : Json :=
  DataUtils.addMetadata now data site.type (site.additionalMeta v)

/-! ## FileUtils -/

namespace FileUtils

/-- The options of `writeJSON` that decide what is written: `pretty` (`none`
when not given) and the truthiness of `optimize`. -/
structure WriteOptions where
  pretty : Option Bool := none
  optimize : Bool := false

/-- The method `shouldPrettyPrint(data, options)`; `prettyFlag` tells whether
the command line carries `--pretty`. -/
def shouldPrettyPrint (prettyFlag : Bool) (options : WriteOptions) : Bool :=
  match options.pretty with
  | some true => true
  | some false => false
  | none => if prettyFlag then true else Config.PRETTY_JSON

mutual

/-- The value that the text of `JSON.stringify(value, replacer)` parses to,
for the replacer of `minifyJSON`. The rounding of a coordinate is done in
floating point and is not embedded: `coordinate s` is `none` when
`parseFloat(s)` is NaN and otherwise the JSON value printed for
`Math.round(num * multiplier) / multiplier`. -/
def emitValue (coordinate : JSString → Option Json) : Json → Json
  | .arr items => Json.arr (emitItems coordinate items)
  | .obj fields => Json.obj (emitFields coordinate fields)
  | v => v

/-- The elements of an array: `undefined` is printed as `null`. -/
def emitItems (coordinate : JSString → Option Json) : List Json → List Json
  | [] => []
  | x :: rest =>
    (match x with
      | .undefined => Json.null
      | v => emitValue coordinate v) :: emitItems coordinate rest

/-- The properties of an object: a property whose value is `undefined` is left
out; a string under the key `latitude` or `longitude` that parses to a number
is replaced by the rounded number. -/
def emitFields (coordinate : JSString → Option Json) :
    List (JSString × Json) → List (JSString × Json)
  | [] => []
  | (k, v) :: rest =>
    match v with
    | .undefined => emitFields coordinate rest
    | .str s =>
      (k, if k = lit "latitude" ∨ k = lit "longitude" then (coordinate s).getD (Json.str s)
          else Json.str s) :: emitFields coordinate rest
    | w => (k, emitValue coordinate w) :: emitFields coordinate rest

end

mutual

/-- The method `optimizeObject(obj)`. -/
def optimizeObject : Json → Json
  | .arr items => Json.arr (optimizeItems items)
  | .obj fields => Json.obj (optimizeFields fields)
  | v => v

def optimizeItems : List Json → List Json
  | [] => []
  | x :: rest => optimizeObject x :: optimizeItems rest

/-- The loop over `Object.entries(obj)`: for a value that is neither `null`
nor the empty string the assignment `optimized[key] = this.optimizeObject(value)`
runs. On the fresh object `optimized` the assignment creates the property,
except under the key `__proto__`: that key is the accessor inherited from
`Object.prototype`, whose setter changes the prototype (or does nothing) and
creates no property. -/
def optimizeFields : List (JSString × Json) → List (JSString × Json)
  | [] => []
  | (k, v) :: rest =>
    match v with
    | .null => optimizeFields rest
    | .str [] => optimizeFields rest
    | w =>
      if k = lit "__proto__" then optimizeFields rest
      else (k, optimizeObject w) :: optimizeFields rest

end

/-- The method `optimizeDataForMinification(data, options)`: the data is
returned as it is unless `options.optimize` is truthy; the deep clone is
`JSON.parse(JSON.stringify(data))`. -/
def optimizeDataForMinification (data : Json) (options : WriteOptions) : Json :=
  if !options.optimize then data
  else optimizeObject (emitValue (fun _ => none) data)

/-- The method `minifyJSON(data, options)`, as the value its text parses to. -/
def minifyJSON (coordinate : JSString → Option Json) (data : Json)
    (options : WriteOptions) : Json :=
  let shouldOptimize := Config.OPTIMIZE_JSON || options.optimize
  let optimizedData := if shouldOptimize then optimizeDataForMinification data options else data
  emitValue coordinate optimizedData

/-- The method `writeJSON(filePath, data, options = {})`: the path and the
value that the written text parses to. -/
def writeJSON (coordinate : JSString → Option Json) (prettyFlag : Bool) (filePath : JSString)
    (data : Json) (options : WriteOptions) : JSString × Json :=
  (filePath,
    if shouldPrettyPrint prettyFlag options then emitValue (fun _ => none) data
    else minifyJSON coordinate data options)

mutual

/-- Whether some object of the value, at any depth, has a property whose value
is `null` or the empty string. -/
def hasNullOrEmpty : Json → Bool
  | .arr items => anyItemHasNullOrEmpty items
  | .obj fields => anyFieldHasNullOrEmpty fields
  | _ => false

def anyItemHasNullOrEmpty : List Json → Bool
  | [] => false
  | x :: rest => hasNullOrEmpty x || anyItemHasNullOrEmpty rest

def anyFieldHasNullOrEmpty : List (JSString × Json) → Bool
  | [] => false
  | (_, v) :: rest =>
    (match v with
      | .null => true
      | .str [] => true
      | w => hasNullOrEmpty w) || anyFieldHasNullOrEmpty rest

end

/-- Whether the loop of `optimizeObject` passes over a value: it is `null` or
the empty string. -/
def isNullOrEmpty : Json → Bool
  | .null => true
  | .str [] => true
  | _ => false

end FileUtils

/-! ## The batch documents as JavaScript values -/

namespace CitiesGenerator

/-- The own properties of a city record: an optional field that is absent is
no property. -/
def cityFields (city : City) : List (JSString × Json) :=
  [(lit "id", Json.num city.id), (lit "name", Json.str city.name),
    (lit "state_id", Json.num city.state_id)]
  ++ ([(lit "state_code", city.state_code.toJson), (lit "state_name", city.state_name.toJson)]
      ).filter (fun e => !e.2.isUndefined)
  ++ [(lit "country_id", Json.num city.country_id)]
  ++ ([(lit "country_code", city.country_code.toJson),
        (lit "country_name", city.country_name.toJson),
        (lit "latitude", city.latitude.toJson), (lit "longitude", city.longitude.toJson),
        (lit "wikiDataId", city.wikiDataId.toJson), (lit "timezone", city.timezone.toJson)]
      ).filter (fun e => !e.2.isUndefined)

/-- The properties the object literal of the loop assigns after the spread of
the city. -/
def assignedFields (statesMap : List (Int × State)) (countriesMap : List (Int × Country))
    (city : City) : List (JSString × Json) :=
  [(lit "state_name", (enhance statesMap countriesMap city).state_name.toJson),
   (lit "state_type", (enhance statesMap countriesMap city).state_type.toJson),
   (lit "country_name", (enhance statesMap countriesMap city).country_name.toJson),
   (lit "country_iso2", (enhance statesMap countriesMap city).country_iso2.toJson),
   (lit "country_iso3", (enhance statesMap countriesMap city).country_iso3.toJson),
   (lit "has_coordinates", Json.bool (enhance statesMap countriesMap city).has_coordinates),
   (lit "has_wikidata", Json.bool (enhance statesMap countriesMap city).has_wikidata),
   (lit "has_timezone", Json.bool (enhance statesMap countriesMap city).has_timezone)]

/-- The object `{ ...city, state_name: ..., ..., has_timezone: ... }` stored
under `cityLookup[city.id]`. -/
def recordJson (statesMap : List (Int × State)) (countriesMap : List (Int × Country))
    (city : City) : Json :=
  Json.obj ((assignedFields statesMap countriesMap city).foldl
    (fun o e => setProperty o e.1 e.2) (cityFields city))

/-- The lookup object of a batch, with its keys as strings. -/
def lookupJson (statesMap : List (Int × State)) (countriesMap : List (Int × Country))
    (batch : List City) : Json :=
  Json.obj (batch.foldl
    (fun o city => setProperty o (numberToString city.id) (recordJson statesMap countriesMap city))
    [])

/-- The document `{ data: cityLookup, meta: { ... } }` an iteration hands to
the writer; `now` is the value of `new Date().toISOString()`. -/
def Iteration.json (now : JSString) (statesMap : List (Int × State))
    (countriesMap : List (Int × Country)) (it : Iteration) : Json :=
  Json.obj
    [(lit "data", lookupJson statesMap countriesMap it.batch),
     (lit "meta", Json.obj
        [(lit "type", Json.str (lit "cities_batch")),
         (lit "batch_range",
            Json.str (numberToString it.startId ++ lit "-" ++ numberToString it.endId)),
         (lit "cities_count", Json.num (Int.ofNat it.batch.length)),
         (lit "usage", Json.str (lit "Access city by ID: data[city_id]")),
         (lit "api_version", Json.str Config.API_VERSION),
         (lit "generated_at", Json.str now)])]

/-- An entry of the batch index as an object. -/
def BatchEntry.json (e : BatchEntry) : Json :=
  Json.obj
    [(lit "filename", Json.str e.filename), (lit "start_id", Json.num e.start_id),
     (lit "end_id", Json.num e.end_id), (lit "count", Json.num (Int.ofNat e.count))]

/-- The document `{ data: batches, meta: { ... } }` written to
`cities/batches.json`. -/
def batchIndexJson (now : JSString) (batches : List BatchEntry) (totalCities : Nat) : Json :=
  Json.obj
    [(lit "data", Json.arr (batches.map BatchEntry.json)),
     (lit "meta", Json.obj
        [(lit "type", Json.str (lit "batch_index")),
         (lit "total_batches", Json.num (Int.ofNat batches.length)),
         (lit "cities_per_batch", Json.num (Int.ofNat CITIES_PER_BATCH)),
         (lit "total_cities", Json.num (Int.ofNat totalCities)),
         (lit "usage", Json.str
            (lit "Use start_id/end_id to find which batch contains a specific city ID")),
         (lit "api_version", Json.str Config.API_VERSION),
         (lit "generated_at", Json.str now)])]

/-- The writes of `generateCityBatches` with the documents as JavaScript
values. -/
def generateCityBatchesJson (now : JSString) (cities : List City) (states : List State)
    (countries : List Country) : List (JSString × Json) :=
  (iterations cities states countries).map
      (fun it => (it.filePath,
        it.json now (states.map (fun s => (s.id, s))) (countries.map (fun c => (c.id, c)))))
    ++ [(lit "cities/batches.json",
        batchIndexJson now (batchIndex cities states countries)
          (DataUtils.sortBy numLe City.id cities).length)]

end CitiesGenerator

/-! ## SearchGenerator.generateStatesSearch -/

namespace SearchGenerator

/-- The field `SEARCH_FIELDS.states` of the configuration. -/
def searchFieldsStates : Json :=
  Json.arr [Json.str (lit "name"), Json.str (lit "iso2"), Json.str (lit "country_name"),
    Json.str (lit "country_code"), Json.str (lit "type"), Json.str (lit "timezone")]

/-- One record of `search/states.json`; a state record of the data model has
no field `country_iso2`, so that property is `undefined`. -/
def stateRecord (state : State) : Json :=
  Json.obj
    [(lit "id", Json.num state.id),
     (lit "name", Json.str state.name),
     (lit "iso2", if state.iso2.truthy then state.iso2.toJson else Json.null),
     (lit "country_id", Json.num state.country_id),
     (lit "country_name", state.country_name.toJson),
     (lit "country_iso2", Json.undefined)]

/-- The method `generateStatesSearch`: the path and the document handed to the
writer. -/
def generateStatesSearch (now : JSString) (states : List State) : JSString × Json :=
  (lit "search/states.json",
    DataUtils.addMetadata now (Json.arr (states.map stateRecord)) (lit "states_search")
      [(lit "searchable_fields", searchFieldsStates),
       (lit "usage", Json.str (lit "Filter client-side using name, iso2, or country_name fields")),
       (lit "total_states", Json.num (Int.ofNat (states.map stateRecord).length))])

end SearchGenerator

/-! ## Validation of the input records -/

/-- The code units that `String.prototype.trim` removes at both ends: the
white space and line terminator characters of ECMAScript. -/
def isWhiteSpace (c : Nat) : Bool :=
  c == 9 || c == 10 || c == 11 || c == 12 || c == 13 || c == 32 || c == 160 || c == 5760
    || (8192 ≤ c && c ≤ 8202) || c == 8232 || c == 8233 || c == 8239 || c == 8287
    || c == 12288 || c == 65279

/-- The method `String.prototype.trim`. -/
def trim (s : JSString) : JSString :=
  ((s.dropWhile isWhiteSpace).reverse.dropWhile isWhiteSpace).reverse

/-- The own property `key` of a value parsed from JSON: a property of an
object, the length or an element of an array or of a string; `none` when the
value has no own property of that name. -/
def Json.own : Json → JSString → Option Json
  | .obj fields, k => getProperty fields k
  | .arr items, k =>
    if k = lit "length" then some (Json.num (Int.ofNat items.length))
    else if isArrayIndex k then items.get? (decimalValue k)
    else none
  | .str s, k =>
    if k = lit "length" then some (Json.num (Int.ofNat s.length))
    else if isArrayIndex k then (s.get? (decimalValue k)).map (fun c => Json.str [c])
    else none
  | _, _ => none

/-- What a property read gives: a value of the data, or a member that the
value inherits from its prototype chain (a function such as `constructor` or
`toString`, or the prototype itself under `__proto__`), which is neither
`undefined`, nor `null`, nor a string. -/
inductive PropertyValue where
  | value (v : Json) : PropertyValue
  | member : PropertyValue

/-- The property read `item[field]` on a value that is neither `undefined` nor
`null`: an own property when there is one, else the inherited member of that
name, else `undefined`. `inherited item field` tells whether the prototype
chain of `item` has a member `field`. -/
def Json.read (inherited : Json → JSString → Bool) (item : Json) (field : JSString) :
    PropertyValue :=
  match item.own field with
  | some v => .value v
  | none => if inherited item field then .member else .value Json.undefined

/-- The names of the members of `Object.prototype`. -/
def objectPrototypeMembers : List JSString :=
  [lit "constructor", lit "__defineGetter__", lit "__defineSetter__", lit "hasOwnProperty",
    lit "__lookupGetter__", lit "__lookupSetter__", lit "isPrototypeOf",
    lit "propertyIsEnumerable", lit "toString", lit "valueOf", lit "__proto__",
    lit "toLocaleString"]

/-- The inherited members of a record that is a plain object, as `JSON.parse`
gives it: those of `Object.prototype`. -/
def plainObjectMember : Json → JSString → Bool :=
  fun _ field => decide (field ∈ objectPrototypeMembers)

/-- The options `validationMode` and `errorHandlingMode` of
`config.GENERATION_OPTIONS`, and its `batchSize`. -/
def Config.validationMode : JSString := lit "warn"

def Config.errorHandlingMode : JSString := lit "warn"

def Config.batchSize : Nat := 100

namespace DataUtils

/-- The options of `validateData(data, requiredFields, options = {})` with
their defaults. -/
structure ValidateOptions where
  context : JSString := []
  strict : Bool := false
  returnInvalidRecords : Bool := false
  maxErrorLogs : Nat := 5

/-- An error raised by `validateData`, named after the `throw` that raises it
(the text of the message is not embedded). -/
inductive ValidationError where
  | notAnArray : ValidationError
  | invalidObject (index : Nat) : ValidationError
  | missingFields (index : Nat) (missing : List JSString) : ValidationError
  | strictSummary (invalid total : Nat) : ValidationError
  | allInvalid : ValidationError
  deriving DecidableEq, Repr

/-- An entry of `invalidRecords`. -/
inductive InvalidRecord where
  | invalidObject (index : Nat) (item : Json) : InvalidRecord
  | missingFields (index : Nat) (id : PropertyValue) (missingFields : List JSString)
      (item : Json) : InvalidRecord

/-- What `validateData` returns: the array of records, or the object
`{ valid, invalid }` when `returnInvalidRecords` is set. -/
inductive Validated where
  | records (valid : List Json) : Validated
  | split (valid : List Json) (invalid : List InvalidRecord) : Validated

/-- The negation of the test `!item || typeof item !== "object"`: the item is
an object or an array. -/
def isRecord : Json → Bool
  | .arr _ => true
  | .obj _ => true
  | _ => false

/-- The predicate of `requiredFields.filter`: the value is `undefined`, `null`
or a string that `trim` empties. -/
def isMissing : PropertyValue → Bool
  | .value .undefined => true
  | .value .null => true
  | .value (.str s) => trim s == []
  | _ => false

/-- The array `missingFields` of an item. -/
def missingFields (inherited : Json → JSString → Bool) (item : Json)
    (requiredFields : List JSString) : List JSString :=
  requiredFields.filter (fun field => isMissing (item.read inherited field))

/-- The callback of `data.forEach` for one item: an error in strict mode, the
entry pushed to `invalidRecords`, or `none` when the item is pushed to
`validRecords`. The warnings it logs are not embedded. -/
def checkItem (inherited : Json → JSString → Bool) (strict : Bool)
    (requiredFields : List JSString) (index : Nat) (item : Json) :
    Except ValidationError (Option InvalidRecord) :=
  if !isRecord item then
    if strict then .error (.invalidObject index)
    else .ok (some (.invalidObject index item))
  else
    let missing := missingFields inherited item requiredFields
    if missing.length > 0 then
      if strict then .error (.missingFields index missing)
      else .ok (some (.missingFields index (item.read inherited (lit "id")) missing item))
    else .ok none

/-- The loop `data.forEach` from the item of index `index` on, with the arrays
`invalidRecords` and `validRecords` built so far. -/
def forEachItem (inherited : Json → JSString → Bool) (strict : Bool)
    (requiredFields : List JSString) :
    List Json → Nat → List InvalidRecord → List Json →
      Except ValidationError (List InvalidRecord × List Json)
  | [], _, invalidRecords, validRecords => .ok (invalidRecords, validRecords)
  | item :: rest, index, invalidRecords, validRecords =>
    match checkItem inherited strict requiredFields index item with
    | .error e => .error e
    | .ok (some r) =>
      forEachItem inherited strict requiredFields rest (index + 1) (invalidRecords ++ [r])
        validRecords
    | .ok none =>
      forEachItem inherited strict requiredFields rest (index + 1) invalidRecords
        (validRecords ++ [item])

/-- The function `DataUtils.validateData(data, requiredFields, options = {})`;
`inherited` gives the inherited members of the items (see `Json.read`). -/
def validateData (inherited : Json → JSString → Bool) (data : Json)
    (requiredFields : List JSString) (options : ValidateOptions) :
    Except ValidationError Validated :=
  match data with
  | .arr items =>
    if items.length = 0 then
      .ok (if options.returnInvalidRecords then .split [] [] else .records [])
    else
      match forEachItem inherited options.strict requiredFields items 0 [] [] with
      | .error e => .error e
      | .ok (invalidRecords, validRecords) =>
        if invalidRecords.length > 0 ∧ options.strict then
          .error (.strictSummary invalidRecords.length items.length)
        else if invalidRecords.length > 0 ∧ invalidRecords.length = items.length then
          .error .allInvalid
        else if options.returnInvalidRecords then .ok (.split validRecords invalidRecords)
        else .ok (.records (if validRecords.length > 0 then validRecords else items))
  | _ => .error .notAnArray

/-- A valid record in the words of the contract: an object whose required
fields are all defined, non-null and not a string of white space only. -/
def validRecord (inherited : Json → JSString → Bool) (requiredFields : List JSString)
    (item : Json) : Bool :=
  isRecord item && requiredFields.all (fun field =>
    match item.read inherited field with
    | .value .undefined => false
    | .value .null => false
    | .value (.str s) => !s.all isWhiteSpace
    | _ => true)

end DataUtils

namespace BaseGenerator

/-- An entry of `this.errors` pushed by `safeWriteJSON`. -/
structure ErrorInfo where
  filePath : JSString
  error : JSString
  timestamp : JSString
  deriving DecidableEq, Repr

/-- An entry of `this.warnings` pushed by `validateData` (the text of the
message is not embedded). -/
structure Warning where
  invalidRecords : Nat
  timestamp : JSString
  deriving DecidableEq, Repr

/-- The mutable fields of a generator: `errors`, `warnings` and the counters of
`stats`. -/
structure Generator where
  errors : List ErrorInfo := []
  warnings : List Warning := []
  filesGenerated : Nat := 0
  recordsProcessed : Nat := 0
  deriving DecidableEq, Repr

/-- The method `safeWriteJSON(filePath, data, options = {})` on the generator
`self`. `write` is the outcome of `FileUtils.writeJSON`: `.ok ()` when the file
is written, `.error message` when it throws. The result is the generator
afterwards and either the value returned or the error thrown. -/
def safeWriteJSON (errorHandlingMode : JSString)
    (write : JSString → Json → FileUtils.WriteOptions → Except JSString Unit) (now : JSString)
    (self : Generator) (filePath : JSString) (data : Json) (options : FileUtils.WriteOptions) :
    Generator × Except JSString Bool :=
  match write filePath data options with
  | .ok _ => ({ self with filesGenerated := self.filesGenerated + 1 }, .ok true)
  | .error message =>
    let self1 :=
      { self with
        errors := self.errors ++ [{ filePath := filePath, error := message, timestamp := now }] }
    if errorHandlingMode = lit "strict" then (self1, .error message)
    else (self1, .ok false)

/-- An error raised by the method `validateData` in strict mode. -/
structure ValidationFailure where
  invalidRecords : Nat
  deriving DecidableEq, Repr

/-- The predicate of `requiredFields.filter` in the method `validateData`:
the value is `undefined`, `null` or the empty string. -/
def isMissing : PropertyValue → Bool
  | .value .undefined => true
  | .value .null => true
  | .value (.str []) => true
  | _ => false

/-- The method `validateData(data, requiredFields, context)` on an array of
records, `read item field` being the property read `item[field]`: the valid
records it returns and the warning it pushes when some record is invalid, or
the error it throws when `validationMode` is `"strict"`. -/
def validateData {α : Type} (read : α → JSString → PropertyValue) (validationMode : JSString)
    (now : JSString) (data : List α) (requiredFields : List JSString) :
    Except ValidationFailure (List α × Option Warning) :=
  let invalidRecords :=
    data.filter (fun item => (requiredFields.filter (fun field => isMissing (read item field))
      ).length > 0)
  let validRecords :=
    data.filter (fun item => !((requiredFields.filter (fun field => isMissing (read item field))
      ).length > 0))
  if invalidRecords.length > 0 then
    if validationMode = lit "strict" then .error { invalidRecords := invalidRecords.length }
    else .ok (validRecords, some { invalidRecords := invalidRecords.length, timestamp := now })
  else .ok (validRecords, none)

/-- The slices that the loop `for (let i = 0; i < items.length; i += batchSize)`
of `processInBatches` passes to `processFn`, from index `i` on. -/
def batchesFrom {α : Type} (items : List α) (i : Nat) : List (List α) :=
  if i < items.length then
    slice items i (i + Config.batchSize) :: batchesFrom items (i + Config.batchSize)
  else []
termination_by items.length - i
decreasing_by simp [Config.batchSize]; omega

/-- The method `processInBatches(items, processFn)` with the configured batch
size, as the effects of the calls of `processFn` in order. -/
def processInBatches {α β : Type} (items : List α) (processFn : List α → List β) : List β :=
  ((batchesFrom items 0).map processFn).flatten

end BaseGenerator

/-! ## The method `generate` of the states generator -/

namespace StatesGenerator

/-- The own properties of a state record: an optional field that is absent is
no property. -/
def stateFields (s : State) : List (JSString × Json) :=
  [(lit "id", Json.num s.id), (lit "name", Json.str s.name),
    (lit "country_id", Json.num s.country_id)]
  ++ ([(lit "country_code", s.country_code.toJson), (lit "country_name", s.country_name.toJson),
        (lit "iso2", s.iso2.toJson), (lit "iso3166_2", s.iso3166_2.toJson),
        (lit "type", s.type.toJson), (lit "latitude", s.latitude.toJson),
        (lit "longitude", s.longitude.toJson), (lit "timezone", s.timezone.toJson)]
      ).filter (fun e => !e.2.isUndefined)

/-- The property read `state[field]` on a state record, a plain object. -/
def readState (s : State) (field : JSString) : PropertyValue :=
  (Json.obj (stateFields s)).read plainObjectMember field

/-- The required fields that `generate` passes to `validateData`. -/
def requiredFields : List JSString :=
  [lit "id", lit "name", lit "country_id", lit "country_code", lit "country_name", lit "iso2",
    lit "iso3166_2"]

/-- Whether a state has the required fields: `name` is not empty and
`country_code`, `country_name`, `iso2` and `iso3166_2` are non-empty strings
(`id`, `name` and `country_id` are present in every state record). -/
def hasRequiredFields (s : State) : Bool :=
  s.name != [] && s.country_code.truthy && s.country_name.truthy && s.iso2.truthy
    && s.iso3166_2.truthy

/-- The `meta` object of an individual state document (the timestamp is left
out of the embedding). -/
structure StateMeta where
  type : JSString
  count : Nat
  api_version : JSString
  country_name : Field
  country_iso2 : Field
  country_iso3 : Field
  has_coordinates : Bool
  has_timezone : Bool
  deriving DecidableEq, Repr

/-- The method `generateSingleState(state)`: the path, the payload and the
`meta` of the document it hands to the writer. -/
def generateSingleState (u : List Nat → Nat → List Nat → List Nat)
    (countriesMap : List (Int × Country)) (state : State) : JSString × State × StateMeta :=
  let country := mapGet countriesMap state.country_id
  (lit "states/"
      ++ BaseGenerator.generateSafeFilename u state.iso3166_2.toValue
          (some (numberToString state.id))
      ++ lit ".json",
    state,
    { type := lit "state"
      count := 1
      api_version := API_VERSION
      country_name := (country.map Country.name).getD Field.undefined
      country_iso2 := (country.map Country.iso2).getD Field.undefined
      country_iso3 := (country.map Country.iso3).getD Field.undefined
      has_coordinates := state.latitude.truthy && state.longitude.truthy
      has_timezone := state.timezone.truthy })

/-- The method `generateIndividualStates`: every batch of `processInBatches`
runs `generateSingleState` on each of its states. -/
def generateIndividualStates (u : List Nat → Nat → List Nat → List Nat)
    (states : List State) (countries : List Country) : List (JSString × State × StateMeta) :=
  BaseGenerator.processInBatches states
    (fun batch => batch.map (generateSingleState u (countries.map (fun c => (c.id, c)))))

/-- The `meta` object of `states/all.json`: `countries` and `timezones` are the
numbers of distinct country names and of distinct truthy timezones (the list
`types` and the timestamp are left out of the embedding). -/
structure AllMeta where
  type : JSString
  count : Nat
  api_version : JSString
  total_states : Nat
  countries : Nat
  timezones : Nat
  deriving DecidableEq, Repr

/-- The method `generateAllStatesList`. -/
def generateAllStatesList (states : List State) : JSString × List StateListItem × AllMeta :=
  let allStates := states.map listItem
  let sortedStates := DataUtils.sortBy strLe StateListItem.name allStates
  (lit "states/all.json",
    sortedStates,
    { type := lit "all_states"
      count := sortedStates.length
      api_version := API_VERSION
      total_states := sortedStates.length
      countries := ((states.map State.country_name).dedup).length
      timezones := (((states.map State.timezone).dedup).filter Field.truthy).length })

/-- The writes of `generate`, step by step and in order. -/
structure Writes where
  byCountry : List (JSString × Document)
  individual : List (JSString × State × StateMeta)
  byType : List (JSString × Document)
  byTimezone : List (JSString × Document)
  all : JSString × List StateListItem × AllMeta
  deriving DecidableEq, Repr

/-- The paths written by `generate`, in order. -/
def Writes.paths (w : Writes) : List JSString :=
  w.byCountry.map Prod.fst ++ w.individual.map Prod.fst ++ w.byType.map Prod.fst
    ++ w.byTimezone.map Prod.fst ++ [w.all.1]

/-- The method `generate` of a generator constructed with `states` and
`countries`: the states are replaced by the valid records that `validateData`
returns, then the five steps run on them. The file system is not embedded:
every write is taken to succeed, so `errors` stays empty and `finalize` throws
nothing. -/
def generate (u : List Nat → Nat → List Nat → List Nat) (localeLe : JSString → JSString → Bool)
    (validationMode : JSString) (now : JSString) (states : List State)
    (countries : List Country) : Except BaseGenerator.ValidationFailure Writes :=
  match BaseGenerator.validateData readState validationMode now states requiredFields with
  | .error e => .error e
  | .ok (validStates, _) =>
    .ok
      { byCountry := generateStatesByCountry u validStates countries
        individual := generateIndividualStates u validStates countries
        byType := generateStatesByType u validStates
        byTimezone := generateStatesByTimezone localeLe validStates
        all := generateAllStatesList validStates }

end StatesGenerator

/-! ## The method `generate` of the cities generator -/

/-- The expression `(record && record.code && String(record.code).toLowerCase()
.replace(/[^a-z0-9-]/g, "-")) || fallback` that names the file of a country
(`code` is `iso2`) or of a state (`code` is `iso3166_2`): `code` is the code of
the record, `Field.undefined` when there is no record. -/
def codeFileName (u : List Nat → Nat → List Nat → List Nat) (code : Field)
    (fallback : JSString) : JSString :=
  match code with
  | .str (c :: cs) =>
    if BaseGenerator.replaceUnsafe (toLowerCase u (c :: cs)) = [] then fallback
    else BaseGenerator.replaceUnsafe (toLowerCase u (c :: cs))
  | _ => fallback

namespace CitiesGenerator

/-- The required fields that `generate` passes to `DataUtils.validateData`. -/
def requiredFields : List JSString :=
  [lit "id", lit "name", lit "state_id", lit "state_name", lit "country_id",
    lit "country_name"]

/-- A record of a by-country or by-state list: the fields of
`config.CITY_FIELDS.list` that a city record has. -/
structure CityListItem where
  id : Int
  name : JSString
  latitude : Field
  longitude : Field
  wikiDataId : Field
  deriving DecidableEq, Repr

/-- The `meta` object of a `cities/country` document (the object `summary`
and the timestamp are left out of the embedding). -/
structure CountryGroupMeta where
  type : JSString
  count : Nat
  api_version : JSString
  country_id : Option Int
  country_name : Field
  country_iso2 : Field
  country_code : Field
  total_cities : Nat
  deriving DecidableEq, Repr

/-- The `meta` object of a `cities/state` document (the timestamp is left out
of the embedding). -/
structure StateGroupMeta where
  type : JSString
  count : Nat
  api_version : JSString
  state_id : Option Int
  state_name : Field
  state_code : Field
  country_id : Int
  country_name : Field
  country_code : Field
  total_cities : Nat
  cities_with_wikidata : Nat
  cities_with_coordinates : Nat
  deriving DecidableEq, Repr

/-- One record of a by-country or by-state list. -/
def listItem (c : City) : CityListItem :=
  { id := c.id, name := c.name, latitude := c.latitude, longitude := c.longitude,
    wikiDataId := c.wikiDataId }

/-- The path of the write of `generateCitiesByCountry` for the group of key
`countryId`, `country` being the country the map gives for the key. -/
def countryPath (u : List Nat → Nat → List Nat → List Nat) (country : Option Country)
    (countryId : JSString) : JSString :=
  lit "cities/country/"
    ++ codeFileName u ((country.map Country.iso2).getD Field.undefined) countryId
    ++ lit ".json"

/-- The method `generateCitiesByCountry`: the path, payload and `meta` of each
write. A group of `_.groupBy` has a first city; without one the read
`cities[0].country_code` would throw. -/
def generateCitiesByCountry (u : List Nat → Nat → List Nat → List Nat) (cities : List City)
    (countries : List Country) : List (JSString × List CityListItem × CountryGroupMeta) :=
  (objectEntries (DataUtils.groupBy (fun c => numberToString c.country_id) cities)).filterMap
    (fun entry =>
      match entry.2 with
      | [] => none
      | first :: _ =>
        let country := (parseInt entry.1).bind (mapGet (countries.map (fun c => (c.id, c))))
        let sortedCities := DataUtils.sortBy strLe City.name entry.2
        let optimizedCities := sortedCities.map listItem
        some
          (countryPath u country entry.1,
            optimizedCities,
            { type := lit "cities"
              count := optimizedCities.length
              api_version := API_VERSION
              country_id := parseInt entry.1
              country_name := (country.map Country.name).getD Field.undefined
              country_iso2 := (country.map Country.iso2).getD Field.undefined
              country_code := first.country_code
              total_cities := optimizedCities.length }))

/-- The method `generateCitiesByState`. -/
def generateCitiesByState (u : List Nat → Nat → List Nat → List Nat) (cities : List City)
    (states : List State) : List (JSString × List CityListItem × StateGroupMeta) :=
  (objectEntries (DataUtils.groupBy (fun c => numberToString c.state_id) cities)).filterMap
    (fun entry =>
      match entry.2 with
      | [] => none
      | first :: _ =>
        let state := (parseInt entry.1).bind (mapGet (states.map (fun s => (s.id, s))))
        let sortedCities := DataUtils.sortBy strLe City.name entry.2
        let optimizedCities := sortedCities.map listItem
        some
          (lit "cities/state/"
              ++ codeFileName u ((state.map State.iso3166_2).getD Field.undefined) entry.1
              ++ lit ".json",
            optimizedCities,
            { type := lit "cities"
              count := optimizedCities.length
              api_version := API_VERSION
              state_id := parseInt entry.1
              state_name := (state.map (fun s => Field.str s.name)).getD Field.undefined
              state_code := first.state_code
              country_id := first.country_id
              country_name := first.country_name
              country_code := first.country_code
              total_cities := optimizedCities.length
              cities_with_wikidata := (entry.2.filter (fun c => c.wikiDataId.truthy)).length
              cities_with_coordinates :=
                (entry.2.filter (fun c => c.latitude.truthy && c.longitude.truthy)).length }))

/-- The writes of `generate`, step by step and in order
(`generateCitiesWithWikiData` writes nothing). -/
structure Writes where
  byCountry : List (JSString × List CityListItem × CountryGroupMeta)
  byState : List (JSString × List CityListItem × StateGroupMeta)
  byTimezone : List (JSString × List CityOfTimezone × TimezoneMeta)
  batches : List (JSString × Document)
  deriving DecidableEq, Repr

/-- The paths written by `generate`, in order. -/
def Writes.paths (w : Writes) : List JSString :=
  w.byCountry.map Prod.fst ++ w.byState.map Prod.fst ++ w.byTimezone.map Prod.fst
    ++ w.batches.map Prod.fst

/-- The method `generate` of a generator constructed with `cities`, `states`
and `countries`. `DataUtils.validateData` is called with the default options
and its result is not used: when it throws, so does `generate`, and otherwise
every step runs on `this.cities` as constructed. The file system is not
embedded: every write is taken to succeed. -/
def generate (u : List Nat → Nat → List Nat → List Nat) (cities : List City)
    (states : List State) (countries : List Country) :
    Except DataUtils.ValidationError Writes :=
  match DataUtils.validateData plainObjectMember
      (Json.arr (cities.map (fun c => Json.obj (cityFields c)))) requiredFields {} with
  | .error e => .error e
  | .ok _ =>
    .ok
      { byCountry := generateCitiesByCountry u cities countries
        byState := generateCitiesByState u cities states
        byTimezone := generateCitiesByTimezone cities
        batches := generateCityBatches cities states countries }

end CitiesGenerator

namespace CountriesGenerator

/-- The path of the write of `generateIndividualCountries` for a country: the
file is named after `iso2`, lower-cased and with the unsafe code units
replaced, or after the id when that is falsy. -/
def individualPath (u : List Nat → Nat → List Nat → List Nat) (country : Country) : JSString :=
  lit "countries/" ++ codeFileName u country.iso2 (numberToString country.id) ++ lit ".json"

end CountriesGenerator

/-! ## Two runs at different times -/

/-- The object `meta` with the value of its property `generated_at` blanked. -/
def maskMeta : Json → Json
  | .obj fields =>
    Json.obj (fields.map (fun e => (e.1, if e.1 = lit "generated_at" then Json.null else e.2)))
  | v => v

/-- A document with the value of `meta.generated_at` blanked: two documents
have the same image when they are identical except for that value. -/
def maskGeneratedAt : Json → Json
  | .obj fields =>
    Json.obj (fields.map (fun e => (e.1, if e.1 = lit "meta" then maskMeta e.2 else e.2)))
  | v => v

/-! ## The end-to-end example of the specification -/

/-- The timestamp of the example run, an ISO 8601 string as `toISOString` gives it. -/
def exampleNow : JSString := lit "2024-01-01T00:00:00.000Z"

/-- The country `{id: 1, name: "Afneq", iso2: "AF"}`. -/
def exampleCountry : Country :=
  { id := 1, name := .str (lit "Afneq"), iso2 := .str (lit "AF"), iso3 := .undefined,
    region := .undefined, subregion := .undefined }

/-- The state `{id: 10, name: "Prov", country_id: 1, type: "province"}`. -/
def exampleState : State :=
  { id := 10, name := lit "Prov", country_id := 1, country_code := .undefined,
    country_name := .undefined, iso2 := .undefined, iso3166_2 := .undefined,
    type := .str (lit "province"), timezone := .undefined, latitude := .undefined,
    longitude := .undefined }

/-- The city `{id: 100, name: "Town", state_id: 10, country_id: 1}`. -/
def exampleCity : City :=
  { id := 100, name := lit "Town", state_id := 10, country_id := 1,
    state_name := .undefined, country_name := .undefined, state_code := .undefined,
    country_code := .undefined, latitude := .undefined, longitude := .undefined,
    wikiDataId := .undefined, timezone := .undefined }

/-- The single iteration of the batch loop on the example. -/
def exampleIteration : CitiesGenerator.Iteration :=
  CitiesGenerator.iteration [(10, exampleState)] [(1, exampleCountry)] [exampleCity]
    (List.cons_ne_nil _ _)

/-- A second state of the example country, `{id: 11, name: "Area", country_id: 1,
type: "province", timezone: "Asia/Kabul"}`. -/
def exampleArea : State :=
  { exampleState with id := 11, name := lit "Area", timezone := .str (lit "Asia/Kabul") }

/-- The state of the example with the timezone `"Asia/Kabul"`. -/
def exampleProv : State :=
  { exampleState with timezone := .str (lit "Asia/Kabul") }

/-- The case mapping that leaves every code unit of 128 or more unchanged. -/
def noCaseTables : List Nat → Nat → List Nat → List Nat := fun _ c _ => [c]

/-- A country whose region is `null`. -/
def nullRegionCountry : Country := { exampleCountry with region := Field.null }

/-- A country of the region `"Asia & Pacific"`. -/
def pacificCountry : Country :=
  { exampleCountry with region := Field.str (lit "Asia & Pacific") }

/-- One hundred and one cities with the ids 0, 1, ..., 100. -/
def distinctCities : List City :=
  (List.range 101).map (fun (n : Nat) => { exampleCity with id := Int.ofNat n })

/-- One hundred and one cities that all carry the id 100. -/
def duplicateCities : List City := List.replicate 101 exampleCity

/-- The state of the example with the fields that validation requires:
`{id: 10, name: "Prov", country_id: 1, country_code: "AF", country_name: "Afneq",
iso2: "PR", iso3166_2: "AF-PR", type: "province"}`. -/
def completeState : State :=
  { exampleState with
    country_code := .str (lit "AF"), country_name := .str (lit "Afneq"),
    iso2 := .str (lit "PR"), iso3166_2 := .str (lit "AF-PR") }

/-- The city of the example with the fields that validation requires:
`{id: 100, name: "Town", state_id: 10, state_name: "Prov", country_id: 1,
country_name: "Afneq"}`. -/
def completeCity : City :=
  { exampleCity with state_name := .str (lit "Prov"), country_name := .str (lit "Afneq") }

/-- A city without `state_name` and `country_name`:
`{id: 101, name: "Lost", state_id: 10, country_id: 1}`. -/
def lostCity : City := { exampleCity with id := 101, name := lit "Lost" }

/-- A state with the required fields whose country has the id 10^21:
`{id: 10, name: "Prov", country_id: 1e21, country_code: "AF", country_name:
"Afneq", iso2: "PR", iso3166_2: "AF-PR", type: "province"}`. -/
def farState : State := { completeState with country_id := 1000000000000000000000 }

/-- A file system on which every write fails with the message `"EACCES"`. -/
def failingWrite : JSString → Json → FileUtils.WriteOptions → Except JSString Unit :=
  fun _ _ _ => .error (lit "EACCES")

/-- A file system on which every write succeeds. -/
def succeedingWrite : JSString → Json → FileUtils.WriteOptions → Except JSString Unit :=
  fun _ _ _ => .ok ()

/-! ## Sorting lemmas -/

theorem numLe_total (a b : Int) : numLe a b = true ∨ numLe b a = true := by
  simp only [numLe, decide_eq_true_eq]
  omega

theorem numLe_trans (a b c : Int) (h1 : numLe a b = true) (h2 : numLe b c = true) :
    numLe a c = true := by
  simp only [numLe, decide_eq_true_eq] at *
  omega

theorem sortBy_perm {α κ : Type} (le : κ → κ → Bool) (key : α → κ) (data : List α) :
    (DataUtils.sortBy le key data).Perm data :=
  List.perm_insertionSort _ data

theorem sortBy_length {α κ : Type} (le : κ → κ → Bool) (key : α → κ) (data : List α) :
    (DataUtils.sortBy le key data).length = data.length :=
  (sortBy_perm le key data).length_eq

theorem sortBy_sorted {α κ : Type} (le : κ → κ → Bool) (key : α → κ)
    (htot : ∀ a b, le a b = true ∨ le b a = true)
    (htr : ∀ a b c, le a b = true → le b c = true → le a c = true) (data : List α) :
    (DataUtils.sortBy le key data).Sorted (fun a b => le (key a) (key b) = true) := by
  haveI : IsTotal α (fun a b => le (key a) (key b) = true) := ⟨fun a b => htot _ _⟩
  haveI : IsTrans α (fun a b => le (key a) (key b) = true) :=
    ⟨fun a b c hab hbc => htr _ _ _ hab hbc⟩
  exact List.sorted_insertionSort _ data

/-- Stability: the records carrying one key keep their input order. -/
theorem sortBy_stable {α κ : Type} [DecidableEq κ] (le : κ → κ → Bool) (key : α → κ)
    (hrefl : ∀ a, le a a = true) (data : List α) (k : κ) :
    (DataUtils.sortBy le key data).filter (fun a => decide (key a = k)) =
      data.filter (fun a => decide (key a = k)) := by
  have hsub : List.Sublist (data.filter (fun a => decide (key a = k)))
      (DataUtils.sortBy le key data) := by
    apply List.sublist_insertionSort
    · rw [List.pairwise_filter]
      refine List.pairwise_of_forall ?_
      intro a b ha hb
      have ha1 : key a = k := by simpa using ha
      have hb1 : key b = k := by simpa using hb
      rw [ha1, hb1]
      exact hrefl k
    · exact List.filter_sublist data
  have hsub2 := hsub.filter (fun a => decide (key a = k))
  rw [List.filter_filter] at hsub2
  simp only [Bool.and_self] at hsub2
  have hlen : ((DataUtils.sortBy le key data).filter (fun a => decide (key a = k))).length =
      (data.filter (fun a => decide (key a = k))).length :=
    ((sortBy_perm le key data).filter _).length_eq
  exact (hsub2.eq_of_length hlen.symm).symm

/-! ## Comparison of strings -/

theorem strLe_refl : ∀ a : JSString, strLe a a = true
  | [] => rfl
  | x :: t => by simp [strLe, strLe_refl t]

theorem strLe_total : ∀ a b : JSString, strLe a b = true ∨ strLe b a = true
  | [], _ => Or.inl rfl
  | _ :: _, [] => Or.inr rfl
  | x :: s, y :: t => by
    rcases Nat.lt_trichotomy x y with h | h | h
    · left
      simp [strLe, h]
    · subst h
      simpa [strLe] using strLe_total s t
    · right
      simp [strLe, h]

theorem strLe_trans : ∀ a b c : JSString, strLe a b = true → strLe b c = true →
    strLe a c = true
  | [], _, _, _, _ => rfl
  | _ :: _, [], _, h, _ => by simp [strLe] at h
  | _ :: _, _ :: _, [], _, h => by simp [strLe] at h
  | x :: s, y :: t, z :: r, h1, h2 => by
    simp only [strLe] at h1 h2 ⊢
    by_cases hxy : x < y
    · by_cases hyz : y < z
      · simp [show x < z by omega]
      · by_cases hzy : z < y
        · simp [hyz, hzy] at h2
        · have : y = z := by omega
          subst this
          simp [hxy]
    · by_cases hyx : y < x
      · simp [hxy, hyx] at h1
      · have hxy2 : x = y := by omega
        subst hxy2
        simp only [hxy, if_false] at h1
        by_cases hxz : x < z
        · simp [hxz]
        · by_cases hzx : z < x
          · simp [hxz, hzx] at h2
          · simp only [hxz, hzx, if_false] at h2 ⊢
            exact strLe_trans s t r h1 h2

/-! ## Rendering of integers -/

theorem digitsAux_spec : ∀ (fuel n : Nat) (acc : List Nat), n < fuel →
    ∃ ds : List Nat, digitsAux fuel n acc = ds ++ acc ∧ ds ≠ []
      ∧ (∀ d ∈ ds, 48 ≤ d ∧ d ≤ 57) ∧ decimalValue ds = n := by
  intro fuel
  induction fuel with
  | zero => intro n acc h; omega
  | succ fuel ih =>
    intro n acc h
    by_cases h0 : n / 10 = 0
    · refine ⟨[48 + n % 10], ?_, List.cons_ne_nil _ _, ?_, ?_⟩
      · simp [digitsAux, h0]
      · intro d hd
        rw [List.mem_singleton] at hd
        omega
      · simp only [decimalValue, List.foldl_cons, List.foldl_nil]
        omega
    · obtain ⟨ds, hds, _, hdig, hval⟩ := ih (n / 10) ((48 + n % 10) :: acc) (by omega)
      refine ⟨ds ++ [48 + n % 10], ?_, ?_, ?_, ?_⟩
      · simp only [digitsAux, h0, if_false, hds, List.append_assoc, List.singleton_append]
      · simp
      · intro d hd
        rcases List.mem_append.mp hd with h1 | h1
        · exact hdig d h1
        · rw [List.mem_singleton] at h1
          omega
      · simp only [decimalValue, List.foldl_append, List.foldl_cons, List.foldl_nil] at hval ⊢
        rw [hval]
        omega

theorem natToString_spec (n : Nat) :
    natToString n ≠ [] ∧ (∀ d ∈ natToString n, 48 ≤ d ∧ d ≤ 57)
      ∧ decimalValue (natToString n) = n := by
  obtain ⟨ds, hds, hne, hdig, hval⟩ := digitsAux_spec (n + 1) n [] (Nat.lt_succ_self n)
  rw [List.append_nil] at hds
  rw [natToString, hds]
  exact ⟨hne, hdig, hval⟩

theorem natToString_injective (a b : Nat) (h : natToString a = natToString b) : a = b := by
  rw [← (natToString_spec a).2.2, ← (natToString_spec b).2.2, h]

theorem natToString_head (n : Nat) : ∃ d t, natToString n = d :: t ∧ d ≠ 45 := by
  obtain ⟨hne, hdig, _⟩ := natToString_spec n
  cases hs : natToString n with
  | nil => exact absurd hs hne
  | cons d t =>
    refine ⟨d, t, rfl, ?_⟩
    have := hdig d (by rw [hs]; exact List.mem_cons_self _ _)
    omega

/-- A run free of the separator, followed by the separator, is determined by
the whole string. -/
theorem separator_unique (sep : Nat) : ∀ (xs ys r1 r2 : List Nat),
    (∀ d ∈ xs, d ≠ sep) → (∀ d ∈ ys, d ≠ sep) →
    xs ++ sep :: r1 = ys ++ sep :: r2 → xs = ys := by
  intro xs
  induction xs with
  | nil =>
    intro ys r1 r2 _ hy h
    cases ys with
    | nil => rfl
    | cons y t =>
      simp only [List.nil_append, List.cons_append, List.cons.injEq] at h
      exact absurd h.1.symm (hy y (List.mem_cons_self _ _))
  | cons x t ih =>
    intro ys r1 r2 hx hy h
    cases ys with
    | nil =>
      simp only [List.nil_append, List.cons_append, List.cons.injEq] at h
      exact absurd h.1 (hx x (List.mem_cons_self _ _))
    | cons y t2 =>
      simp only [List.cons_append, List.cons.injEq] at h
      rw [h.1, ih t2 r1 r2 (fun d hd => hx d (List.mem_cons_of_mem _ hd))
        (fun d hd => hy d (List.mem_cons_of_mem _ hd)) h.2]

/-- A list is its significant digits followed by zeros. -/
theorem significantDigits_append (ds : List Nat) :
    ds = significantDigits ds ++ List.replicate (ds.length - (significantDigits ds).length) 48 := by
  have h1 := List.takeWhile_append_dropWhile (fun d => d == 48) ds.reverse
  have h2 : ds = (ds.reverse.dropWhile (fun d => d == 48)).reverse
      ++ (ds.reverse.takeWhile (fun d => d == 48)).reverse := by
    rw [← List.reverse_append, h1, List.reverse_reverse]
  have h3 : ds.reverse.takeWhile (fun d => d == 48)
      = List.replicate (ds.reverse.takeWhile (fun d => d == 48)).length 48 := by
    rw [List.eq_replicate_iff]
    refine ⟨rfl, ?_⟩
    intro b hb
    have := List.mem_takeWhile_imp hb
    simpa using this
  have hlen := congrArg List.length h2
  simp only [List.length_append, List.length_reverse] at hlen
  unfold significantDigits
  have h4 : ds.length - (ds.reverse.dropWhile (fun d => d == 48)).reverse.length
      = (ds.reverse.takeWhile (fun d => d == 48)).length := by
    simp only [List.length_reverse]
    omega
  rw [h4]
  conv_lhs => rw [h2, h3, List.reverse_replicate]

theorem mantissa_injective : ∀ (a b : List Nat), mantissa a = mantissa b → a = b
  | [], [], _ => rfl
  | [], [_], h => by simp [mantissa] at h
  | [], _ :: _ :: _, h => by simp [mantissa] at h
  | [_], [], h => by simp [mantissa] at h
  | [a], [b], h => by simpa [mantissa] using h
  | [_], _ :: _ :: _, h => by simp [mantissa] at h
  | _ :: _ :: _, [], h => by simp [mantissa] at h
  | _ :: _ :: _, [_], h => by simp [mantissa] at h
  | a :: c :: r, b :: d :: t, h => by simpa [mantissa] using h

theorem mem_significantDigits (ds : List Nat) (d : Nat) (h : d ∈ significantDigits ds) :
    d ∈ ds := by
  unfold significantDigits at h
  rw [List.mem_reverse] at h
  exact List.mem_reverse.mp ((List.dropWhile_sublist _).subset h)

theorem mem_mantissa (ds : List Nat) (d : Nat) (h : d ∈ mantissa ds) : d ∈ ds ∨ d = 46 := by
  match ds, h with
  | [], h => simp [mantissa] at h
  | [x], h => left; simpa [mantissa] using h
  | x :: y :: r, h =>
    simp only [mantissa, List.mem_cons] at h
    rcases h with h | h | h | h
    · left; simp [h]
    · right; exact h
    · left; simp [h]
    · left; simp [h]

/-- The code units before the exponent are digits or the point. -/
theorem mem_mantissa_digits (n d : Nat)
    (h : d ∈ mantissa (significantDigits (natToString n))) : (48 ≤ d ∧ d ≤ 57) ∨ d = 46 := by
  rcases mem_mantissa _ d h with h1 | h1
  · exact Or.inl ((natToString_spec n).2.1 d (mem_significantDigits _ d h1))
  · exact Or.inr h1

theorem exponentForm_injective (a b : Nat) (h : exponentForm a = exponentForm b) : a = b := by
  unfold exponentForm at h
  simp only [List.append_assoc, List.cons_append, List.nil_append] at h
  have hm : mantissa (significantDigits (natToString a))
      = mantissa (significantDigits (natToString b)) := by
    refine separator_unique 101 _ _ _ _ ?_ ?_ h
    · intro d hd
      rcases mem_mantissa_digits a d hd with h1 | h1 <;> omega
    · intro d hd
      rcases mem_mantissa_digits b d hd with h1 | h1 <;> omega
  rw [hm] at h
  have he := List.append_cancel_left h
  simp only [List.cons.injEq, true_and] at he
  have hlen := natToString_injective _ _ he
  have hsig := mantissa_injective _ _ hm
  have ha := (natToString_spec a).1
  have hb := (natToString_spec b).1
  have hla : 0 < (natToString a).length := List.length_pos.mpr ha
  have hlb : 0 < (natToString b).length := List.length_pos.mpr hb
  have hl : (natToString a).length = (natToString b).length := by omega
  apply natToString_injective
  rw [significantDigits_append (natToString a), significantDigits_append (natToString b), hsig, hl]

/-- The exponent notation has the code unit `e`, a decimal rendering has not. -/
theorem natToString_ne_exponentForm (a b : Nat) : natToString a ≠ exponentForm b := by
  intro h
  have hmem : 101 ∈ exponentForm b := by
    unfold exponentForm
    simp
  rw [← h] at hmem
  have := (natToString_spec a).2.1 101 hmem
  omega

theorem renderNat_injective (a b : Nat) (h : renderNat a = renderNat b) : a = b := by
  unfold renderNat at h
  by_cases ha : a < 1000000000000000000000 <;> by_cases hb : b < 1000000000000000000000
  · rw [if_pos ha, if_pos hb] at h
    exact natToString_injective _ _ h
  · rw [if_pos ha, if_neg hb] at h
    exact absurd h (natToString_ne_exponentForm _ _)
  · rw [if_neg ha, if_pos hb] at h
    exact absurd h.symm (natToString_ne_exponentForm _ _)
  · rw [if_neg ha, if_neg hb] at h
    exact exponentForm_injective _ _ h

/-- No code unit of the rendering of a non-negative integer is `-`. -/
theorem renderNat_ne_dash (n : Nat) : ∀ d ∈ renderNat n, d ≠ 45 := by
  intro d hd
  unfold renderNat at hd
  split at hd
  · have := (natToString_spec n).2.1 d hd
    omega
  · unfold exponentForm at hd
    simp only [List.append_assoc, List.mem_append, List.mem_cons, List.not_mem_nil,
      or_false] at hd
    rcases hd with h1 | (h1 | h1) | h1
    · rcases mem_mantissa_digits n d h1 with h2 | h2 <;> omega
    · omega
    · omega
    · have := (natToString_spec _).2.1 d h1
      omega

theorem renderNat_head (n : Nat) : ∃ d t, renderNat n = d :: t ∧ d ≠ 45 := by
  cases hs : renderNat n with
  | nil =>
    exfalso
    unfold renderNat at hs
    split at hs
    · exact (natToString_spec n).1 hs
    · unfold exponentForm at hs
      simp at hs
  | cons d t =>
    exact ⟨d, t, rfl, renderNat_ne_dash n d (by rw [hs]; exact List.mem_cons_self _ _)⟩

/-- Below 10^21 in absolute value the rendering is the decimal one. -/
theorem renderNat_of_lt (n : Nat) (h : n < 1000000000000000000000) :
    renderNat n = natToString n := by
  rw [renderNat, if_pos h]

theorem numberToString_injective (a b : Int) (h : numberToString a = numberToString b) :
    a = b := by
  unfold numberToString at h
  by_cases ha : a < 0 <;> by_cases hb : b < 0
  · simp only [ha, hb, if_true, List.cons.injEq, true_and] at h
    have := renderNat_injective _ _ h
    omega
  · simp only [ha, hb, if_true, if_false] at h
    obtain ⟨d, t, hd, hne⟩ := renderNat_head b.natAbs
    rw [hd, List.cons.injEq] at h
    exact absurd h.1.symm hne
  · simp only [ha, hb, if_true, if_false] at h
    obtain ⟨d, t, hd, hne⟩ := renderNat_head a.natAbs
    rw [hd, List.cons.injEq] at h
    exact absurd h.1 hne
  · simp only [ha, hb, if_false] at h
    have := renderNat_injective _ _ h
    omega

/-- An integer rendering followed by `-` is determined by the whole string. -/
theorem numberToString_prefix_unique (a b : Int) (r1 r2 : List Nat)
    (h : numberToString a ++ 45 :: r1 = numberToString b ++ 45 :: r2) : a = b := by
  apply numberToString_injective
  unfold numberToString at h ⊢
  by_cases ha : a < 0 <;> by_cases hb : b < 0
  · simp only [ha, hb, if_true, List.cons_append, List.cons.injEq, true_and] at h ⊢
    exact separator_unique 45 _ _ r1 r2 (renderNat_ne_dash _) (renderNat_ne_dash _) h
  · simp only [ha, hb, if_true, if_false, List.cons_append] at h
    obtain ⟨d, t, hd, hne⟩ := renderNat_head b.natAbs
    rw [hd, List.cons_append, List.cons.injEq] at h
    exact absurd h.1.symm hne
  · simp only [ha, hb, if_true, if_false, List.cons_append] at h
    obtain ⟨d, t, hd, hne⟩ := renderNat_head a.natAbs
    rw [hd, List.cons_append, List.cons.injEq] at h
    exact absurd h.1 hne
  · simp only [ha, hb, if_false] at h ⊢
    exact separator_unique 45 _ _ r1 r2 (renderNat_ne_dash _) (renderNat_ne_dash _) h

/-! ## Objects and the output tree -/

theorem objGet_objSet_same {α : Type} (obj : List (Int × α)) (k : Int) (v : α) :
    objGet (objSet obj k v) k = some v := by
  induction obj with
  | nil => simp [objSet, objGet]
  | cons e rest ih =>
    obtain ⟨k1, v1⟩ := e
    by_cases h : k1 = k
    · simp [objSet, objGet, h]
    · simp [objSet, objGet, h, ih]

theorem objGet_objSet_ne {α : Type} (obj : List (Int × α)) (k k2 : Int) (v : α)
    (hne : k2 ≠ k) : objGet (objSet obj k v) k2 = objGet obj k2 := by
  induction obj with
  | nil => simp [objSet, objGet, hne.symm]
  | cons e rest ih =>
    obtain ⟨k1, v1⟩ := e
    by_cases h : k1 = k
    · subst h
      simp [objSet, objGet, hne.symm]
    · by_cases h2 : k1 = k2
      · subst h2
        simp [objSet, objGet, h]
      · simp [objSet, objGet, h, h2, ih]

/-- A path written with one document only holds that document. -/
theorem readFile_of_unique {δ : Type} (writes : List (JSString × δ)) (path : JSString)
    (d : δ) (hmem : (path, d) ∈ writes)
    (huniq : ∀ d2, (path, d2) ∈ writes → d2 = d) : readFile writes path = some d := by
  unfold readFile
  have hne : writes.filter (fun w => decide (w.1 = path)) ≠ [] := by
    intro h0
    have : (path, d) ∈ writes.filter (fun w => decide (w.1 = path)) :=
      List.mem_filter.mpr ⟨hmem, by simp⟩
    rw [h0] at this
    cases this
  rw [List.getLast?_eq_getLast _ hne, Option.map_some']
  have hl := List.getLast_mem hne
  obtain ⟨h1, h2⟩ := List.mem_filter.mp hl
  have h3 : ((writes.filter (fun w => decide (w.1 = path))).getLast hne).1 = path := by
    simpa using h2
  congr 1
  apply huniq
  generalize (writes.filter (fun w => decide (w.1 = path))).getLast hne = w at h1 h3
  obtain ⟨w1, w2⟩ := w
  simp only at h3
  subst h3
  exact h1

/-- The first element satisfying a test is the one at position `j` when no
earlier element satisfies it. -/
theorem find?_of_getElem? {α : Type} (p : α → Bool) : ∀ (l : List α) (j : Nat) (b : α),
    l[j]? = some b → p b = true →
    (∀ (i : Nat) (a : α), i < j → l[i]? = some a → p a = false) → l.find? p = some b := by
  intro l
  induction l with
  | nil => intro j b h; simp at h
  | cons x t ih =>
    intro j b h hp hbefore
    cases j with
    | zero =>
      simp only [List.getElem?_cons_zero, Option.some.injEq] at h
      subst h
      simp [List.find?, hp]
    | succ j =>
      have hx : p x = false := hbefore 0 x (Nat.succ_pos j) (List.getElem?_cons_zero ..)
      simp only [List.find?, hx]
      exact ih j b (by simpa using h) hp
        (fun i a hi ha => hbefore (i + 1) a (Nat.succ_lt_succ hi) (by simpa using ha))

/-! ## Grouping -/

theorem pushGroup_keys {α : Type} (k : JSString) (x : α) :
    ∀ obj : List (JSString × List α),
      (DataUtils.pushGroup obj k x).map Prod.fst =
        if k ∈ obj.map Prod.fst then obj.map Prod.fst else obj.map Prod.fst ++ [k] := by
  intro obj
  induction obj with
  | nil => simp [DataUtils.pushGroup]
  | cons e rest ih =>
    obtain ⟨k1, g1⟩ := e
    by_cases h : k1 = k
    · subst h
      simp [DataUtils.pushGroup]
    · have h2 : ¬ k = k1 := fun h3 => h h3.symm
      by_cases hm : k ∈ rest.map Prod.fst
      · simp only [DataUtils.pushGroup, h, if_false, List.map_cons, ih, hm, if_true,
          List.mem_cons, or_true]
      · simp only [DataUtils.pushGroup, h, if_false, List.map_cons, ih, hm, List.mem_cons,
          h2, or_self, List.cons_append]

theorem pushGroup_mem {α : Type} (k : JSString) (x : α) :
    ∀ obj : List (JSString × List α), (obj.map Prod.fst).Nodup →
      ∀ e ∈ DataUtils.pushGroup obj k x,
        (e ∈ obj ∧ e.1 ≠ k) ∨
          (e.1 = k ∧ ∃ g, e.2 = g ++ [x] ∧ ((k, g) ∈ obj ∨ (g = [] ∧ k ∉ obj.map Prod.fst))) := by
  intro obj
  induction obj with
  | nil =>
    intro _ e he
    simp only [DataUtils.pushGroup, List.mem_singleton] at he
    subst he
    exact Or.inr ⟨rfl, [], rfl, Or.inr ⟨rfl, by simp⟩⟩
  | cons e0 rest ih =>
    obtain ⟨k1, g1⟩ := e0
    intro hnd e he
    rw [List.map_cons, List.nodup_cons] at hnd
    by_cases h : k1 = k
    · subst h
      simp only [DataUtils.pushGroup, if_true, List.mem_cons] at he
      rcases he with he | he
      · subst he
        exact Or.inr ⟨rfl, g1, rfl, Or.inl (List.mem_cons_self _ _)⟩
      · refine Or.inl ⟨List.mem_cons_of_mem _ he, ?_⟩
        intro h2
        have h3 : e.1 ∈ rest.map Prod.fst := List.mem_map_of_mem Prod.fst he
        rw [h2] at h3
        exact hnd.1 h3
    · simp only [DataUtils.pushGroup, h, if_false, List.mem_cons] at he
      rcases he with he | he
      · subst he
        exact Or.inl ⟨List.mem_cons_self _ _, h⟩
      · rcases ih hnd.2 e he with ⟨h1, h2⟩ | ⟨h1, g, hg, h3⟩
        · exact Or.inl ⟨List.mem_cons_of_mem _ h1, h2⟩
        · refine Or.inr ⟨h1, g, hg, ?_⟩
          rcases h3 with h3 | ⟨h3, h4⟩
          · exact Or.inl (List.mem_cons_of_mem _ h3)
          · refine Or.inr ⟨h3, ?_⟩
            simp only [List.map_cons, List.mem_cons, not_or]
            exact ⟨fun h5 => h h5.symm, h4⟩

theorem groupBy_concat {α : Type} (key : α → JSString) (l : List α) (x : α) :
    DataUtils.groupBy key (l ++ [x]) = DataUtils.pushGroup (DataUtils.groupBy key l) (key x) x := by
  simp [DataUtils.groupBy, List.foldl_append]

/-- The object built by `groupBy`: the keys are pairwise distinct, every
property holds exactly the records with its key, in input order, none is
empty, and the key of every record is present. -/
theorem groupBy_spec {α : Type} (key : α → JSString) (data : List α) :
    ((DataUtils.groupBy key data).map Prod.fst).Nodup
      ∧ (∀ e ∈ DataUtils.groupBy key data,
          e.2 = data.filter (fun y => decide (key y = e.1)) ∧ e.2 ≠ [])
      ∧ (∀ y ∈ data, key y ∈ (DataUtils.groupBy key data).map Prod.fst) := by
  induction data using List.reverseRecOn with
  | nil => simp [DataUtils.groupBy]
  | append_singleton l x ih =>
    obtain ⟨h1, h2, h3⟩ := ih
    rw [groupBy_concat]
    have hkeys := pushGroup_keys (key x) x (DataUtils.groupBy key l)
    refine ⟨?_, ?_, ?_⟩
    · rw [hkeys]
      split
      · exact h1
      · rename_i hk
        exact List.Nodup.append h1 (List.nodup_singleton _)
          (by
            intro a ha hb
            rw [List.mem_singleton] at hb
            exact hk (hb ▸ ha))
    · intro e he
      rcases pushGroup_mem (key x) x _ h1 e he with ⟨hm, hne⟩ | ⟨hk, g, hg, hcase⟩
      · obtain ⟨h4, h5⟩ := h2 e hm
        refine ⟨?_, h5⟩
        rw [h4, List.filter_append]
        have : decide (key x = e.1) = false := by
          simp only [decide_eq_false_iff_not]
          exact fun h6 => hne h6.symm
        simp [List.filter_cons, this]
      · rw [hg]
        refine ⟨?_, by simp⟩
        rw [List.filter_append, hk]
        have hx : List.filter (fun y => decide (key y = key x)) [x] = [x] := by simp
        rw [hx]
        congr 1
        rcases hcase with hm | ⟨hnil, hnot⟩
        · exact (h2 _ hm).1
        · rw [hnil]
          symm
          rw [List.filter_eq_nil_iff]
          intro y hy hyk
          simp only [decide_eq_true_eq] at hyk
          exact hnot (hyk ▸ h3 y hy)
    · intro y hy
      rw [hkeys]
      rcases List.mem_append.mp hy with hy | hy
      · have := h3 y hy
        split
        · exact this
        · exact List.mem_append_left _ this
      · rw [List.mem_singleton] at hy
        subst hy
        split
        · assumption
        · exact List.mem_append_right _ (List.mem_singleton_self _)

theorem mem_objectEntries {β : Type} (obj : List (JSString × β)) (e : JSString × β) :
    e ∈ objectEntries obj ↔ e ∈ obj := by
  simp only [objectEntries, List.mem_append, List.mem_insertionSort, List.mem_filter]
  constructor
  · rintro (h | h) <;> exact h.1
  · intro h
    by_cases hi : isArrayIndex e.1 = true
    · exact Or.inl ⟨h, hi⟩
    · exact Or.inr ⟨h, by simpa using hi⟩

theorem sortedGroup_sortBy {α β : Type} (proj : α → β) (nameOf : β → JSString)
    (name : α → JSString) (hname : ∀ s, nameOf (proj s) = name s) (group : List α) :
    SortedGroup proj nameOf group ((DataUtils.sortBy strLe name group).map proj) := by
  refine ⟨(sortBy_perm strLe name group).map proj, ?_, ?_⟩
  · have h := sortBy_sorted strLe name strLe_total strLe_trans group
    refine List.pairwise_map.mpr (List.Pairwise.imp ?_ h)
    intro a b hab
    rw [hname, hname]
    exact hab
  · intro n
    rw [List.filter_map]
    have hfun : ((fun r => decide (nameOf r = n)) ∘ proj) = (fun s => decide (name s = n)) := by
      funext s
      simp only [Function.comp_apply, hname]
    have hfun2 : (fun s => decide (nameOf (proj s) = n)) = (fun s => decide (name s = n)) := by
      funext s
      rw [hname]
    rw [hfun, hfun2, sortBy_stable strLe name strLe_refl group n]

/-! ## Integer keys -/

theorem takeWhile_isDigit_natToString (n : Nat) :
    (natToString n).takeWhile isDigit = natToString n := by
  rw [List.takeWhile_eq_self_iff]
  intro d hd
  have := (natToString_spec n).2.1 d hd
  simp only [isDigit, Bool.and_eq_true, decide_eq_true_eq]
  exact this

/-- The key of an integer of absolute value below 10^21 parses back to it. -/
theorem parseInt_numberToString (i : Int) (hi : i.natAbs < 1000000000000000000000) :
    parseInt (numberToString i) = some i := by
  unfold numberToString
  rw [renderNat_of_lt _ hi]
  by_cases h : i < 0
  · rw [if_pos h]
    simp only [parseInt, takeWhile_isDigit_natToString, (natToString_spec _).1, if_false,
      (natToString_spec _).2.2, Option.some.injEq, Int.ofNat_eq_coe]
    omega
  · rw [if_neg h]
    obtain ⟨d, t, hd, hne⟩ := natToString_head i.natAbs
    have h1 := takeWhile_isDigit_natToString i.natAbs
    have h2 := (natToString_spec i.natAbs).2.2
    rw [hd] at h1 h2 ⊢
    unfold parseInt
    split
    · rename_i ds heq
      exact absurd (List.cons.inj heq).1 hne
    · rw [h1, h2, if_neg (List.cons_ne_nil d t)]
      simp only [Option.some.injEq, Int.ofNat_eq_coe]
      omega

theorem mapGet_some {α : Type} (idOf : α → Int) (l : List α) (k : Int) (c : α)
    (h : mapGet (l.map (fun x => (idOf x, x))) k = some c) : idOf c = k ∧ c ∈ l := by
  simp only [mapGet, Option.map_eq_some'] at h
  obtain ⟨e, he, rfl⟩ := h
  have hm := List.mem_of_mem_getLast? he
  rw [List.mem_filter, List.mem_map] at hm
  obtain ⟨⟨x, hx, rfl⟩, hk⟩ := hm
  exact ⟨by simpa using hk, hx⟩

theorem objectEntries_perm {β : Type} (obj : List (JSString × β)) :
    (objectEntries obj).Perm obj := by
  unfold objectEntries
  exact ((List.perm_insertionSort _ _).append_right _).trans
    (List.filter_append_perm (fun e => isArrayIndex e.1) obj)

theorem objectEntries_groupBy_nodup {α : Type} (key : α → JSString) (data : List α) :
    ((objectEntries (DataUtils.groupBy key data)).map Prod.fst).Nodup :=
  ((objectEntries_perm _).map Prod.fst).nodup_iff.mpr (groupBy_spec key data).1

theorem nodup_of_nodup_keys {β : Type} (l : List (JSString × β))
    (h : (l.map Prod.fst).Nodup) : l.Nodup :=
  List.Nodup.of_map Prod.fst h

theorem getProperty_of_mem {β : Type} : ∀ (obj : List (JSString × β)) (k : JSString) (v : β),
    (obj.map Prod.fst).Nodup → (k, v) ∈ obj → getProperty obj k = some v := by
  intro obj
  induction obj with
  | nil => intro k v _ h; cases h
  | cons e rest ih =>
    obtain ⟨k1, v1⟩ := e
    intro k v hnd h
    rw [List.map_cons, List.nodup_cons] at hnd
    rcases List.mem_cons.mp h with h1 | h1
    · cases h1
      simp [getProperty]
    · have hne : k1 ≠ k := by
        intro h2
        have h3 : k ∈ rest.map Prod.fst := List.mem_map_of_mem Prod.fst h1
        rw [← h2] at h3
        exact hnd.1 h3
      simp only [getProperty, hne, if_false]
      exact ih k v hnd.2 h1

/-- The group of a key that some record carries is a property of the object
built by `groupBy`. -/
theorem groupBy_mem_of_key {α : Type} (key : α → JSString) (data : List α) (y : α)
    (hy : y ∈ data) :
    (key y, data.filter (fun x => decide (key x = key y))) ∈ DataUtils.groupBy key data := by
  obtain ⟨_, h2, h3⟩ := groupBy_spec key data
  obtain ⟨e, he, hk⟩ := List.mem_map.mp (h3 y hy)
  have := (h2 e he).1
  obtain ⟨k, g⟩ := e
  simp only at hk this
  subst hk
  rw [← this]
  exact he

/-- Among the images of a duplicate-free list, the test singles out the image
of one element when it fails on the images of all others. -/
theorem filter_filterMap_unique {α β : Type} (f : α → Option β) (p : β → Bool) (a : α)
    (w : β) : ∀ l : List α, l.Nodup → a ∈ l → f a = some w → p w = true →
      (∀ b ∈ l, b ≠ a → ∀ w2, f b = some w2 → p w2 = false) →
      (l.filterMap f).filter p = [w] := by
  intro l
  induction l with
  | nil => intro _ h; cases h
  | cons x t ih =>
    intro hnd ha hf hp hothers
    rw [List.nodup_cons] at hnd
    by_cases hx : x = a
    · subst hx
      have hrest : (t.filterMap f).filter p = [] := by
        rw [List.filter_eq_nil_iff]
        intro w2 hw2
        obtain ⟨b, hb, hfb⟩ := List.mem_filterMap.mp hw2
        have hbx : b ≠ x := fun h => hnd.1 (h ▸ hb)
        simp [hothers b (List.mem_cons_of_mem _ hb) hbx w2 hfb]
      simp [List.filterMap_cons, hf, List.filter_cons, hp, hrest]
    · have hat : a ∈ t := by
        rcases List.mem_cons.mp ha with h | h
        · exact absurd h.symm hx
        · exact h
      have ih2 := ih hnd.2 hat hf hp
        (fun b hb hba => hothers b (List.mem_cons_of_mem _ hb) hba)
      cases hfx : f x with
      | none => simp [List.filterMap_cons, hfx, ih2]
      | some w2 =>
        have := hothers x (List.mem_cons_self _ _) hx w2 hfx
        simp [List.filterMap_cons, hfx, List.filter_cons, this, ih2]

theorem map_eq_filterMap_some {α β : Type} (f : α → β) (l : List α) :
    l.map f = l.filterMap (fun x => some (f x)) := by
  induction l with
  | nil => rfl
  | cons x t ih => simp [List.filterMap_cons, ih]

theorem filter_map_unique {α β : Type} (f : α → β) (p : β → Bool) (a : α)
    (l : List α) (hnd : l.Nodup) (ha : a ∈ l) (hp : p (f a) = true)
    (hothers : ∀ b ∈ l, b ≠ a → p (f b) = false) : (l.map f).filter p = [f a] := by
  have h := filter_filterMap_unique (fun x => some (f x)) p a (f a) l hnd ha rfl hp
    (fun b hb hba w2 hw2 => by
      have : f b = w2 := Option.some.inj hw2
      rw [← this]
      exact hothers b hb hba)
  rw [← h, map_eq_filterMap_some]

theorem eq_of_key_eq {β : Type} (l : List (JSString × β)) (hnd : (l.map Prod.fst).Nodup)
    (a b : JSString × β) (ha : a ∈ l) (hb : b ∈ l) (hk : a.1 = b.1) : a = b := by
  obtain ⟨k1, v1⟩ := a
  obtain ⟨k2, v2⟩ := b
  simp only at hk
  subst hk
  have h1 := getProperty_of_mem l k1 v1 hnd ha
  have h2 := getProperty_of_mem l k1 v2 hnd hb
  rw [h1] at h2
  rw [Option.some.inj h2]

/-! ## The batch loop -/

namespace CitiesGenerator

theorem slice_ne_nil {α : Type} (xs : List α) (i : Nat) (h : i < xs.length) :
    slice xs i (i + CITIES_PER_BATCH) ≠ [] := by
  intro h0
  have hl := congrArg List.length h0
  simp [slice, CITIES_PER_BATCH] at hl
  omega

theorem batchLoop_of_lt (sm : List (Int × State)) (cm : List (Int × Country))
    (xs : List City) (i : Nat) (h : i < xs.length) :
    batchLoop sm cm xs i =
      iteration sm cm (slice xs i (i + CITIES_PER_BATCH)) (slice_ne_nil xs i h)
        :: batchLoop sm cm xs (i + CITIES_PER_BATCH) := by
  rw [batchLoop]
  simp [h]

theorem batchLoop_of_ge (sm : List (Int × State)) (cm : List (Int × Country))
    (xs : List City) (i : Nat) (h : xs.length ≤ i) :
    batchLoop sm cm xs i = [] := by
  rw [batchLoop]
  simp [Nat.not_lt.mpr h]

/-- Every iteration is the loop body run on its own, non-empty, slice. -/
theorem batchLoop_shape (sm : List (Int × State)) (cm : List (Int × Country))
    (xs : List City) :
    ∀ (n i : Nat), xs.length - i = n → ∀ it ∈ batchLoop sm cm xs i,
      ∃ hne : it.batch ≠ [], it = iteration sm cm it.batch hne := by
  intro n
  induction n using Nat.strong_induction_on with
  | _ n ih =>
    intro i hn it hit
    by_cases h : i < xs.length
    · rw [batchLoop_of_lt sm cm xs i h] at hit
      rcases List.mem_cons.mp hit with h1 | h1
      · subst h1
        exact ⟨slice_ne_nil xs i h, rfl⟩
      · exact ih (xs.length - (i + CITIES_PER_BATCH))
          (by simp only [CITIES_PER_BATCH]; omega) (i + CITIES_PER_BATCH) rfl it h1
    · rw [batchLoop_of_ge sm cm xs i (Nat.le_of_not_lt h)] at hit
      cases hit

/-- The slices of the loop started at `i`, concatenated, are the list from
index `i` on. -/
theorem batchLoop_join (sm : List (Int × State)) (cm : List (Int × Country))
    (xs : List City) :
    ∀ (n i : Nat), xs.length - i = n →
      ((batchLoop sm cm xs i).map (fun it => it.batch)).flatten = xs.drop i := by
  intro n
  induction n using Nat.strong_induction_on with
  | _ n ih =>
    intro i hn
    by_cases h : i < xs.length
    · rw [batchLoop_of_lt sm cm xs i h, List.map_cons, List.flatten_cons,
        ih (xs.length - (i + CITIES_PER_BATCH))
          (by simp only [CITIES_PER_BATCH]; omega) (i + CITIES_PER_BATCH) rfl]
      simp only [iteration, slice, Nat.add_sub_cancel_left]
      rw [← List.drop_drop]
      exact List.take_append_drop _ _
    · rw [batchLoop_of_ge sm cm xs i (Nat.le_of_not_lt h)]
      simp [List.drop_eq_nil_of_le (Nat.le_of_not_lt h)]

/-- The number of iterations of the loop started at `i`. -/
theorem batchLoop_length (sm : List (Int × State)) (cm : List (Int × Country))
    (xs : List City) :
    ∀ (n i : Nat), xs.length - i = n →
      (batchLoop sm cm xs i).length = (xs.length - i + 99) / 100 := by
  intro n
  induction n using Nat.strong_induction_on with
  | _ n ih =>
    intro i hn
    by_cases h : i < xs.length
    · rw [batchLoop_of_lt sm cm xs i h, List.length_cons,
        ih (xs.length - (i + CITIES_PER_BATCH))
          (by simp only [CITIES_PER_BATCH]; omega) (i + CITIES_PER_BATCH) rfl]
      simp only [CITIES_PER_BATCH]
      omega
    · rw [batchLoop_of_ge sm cm xs i (Nat.le_of_not_lt h)]
      simp only [List.length_nil]
      omega

/-- The iteration at position `j` of the loop started at `i` works on the
slice that starts at index `i + 100 * j`. -/
theorem batchLoop_getElem (sm : List (Int × State)) (cm : List (Int × Country))
    (xs : List City) :
    ∀ (j i : Nat) (it : Iteration), (batchLoop sm cm xs i)[j]? = some it →
      i + 100 * j < xs.length ∧ it.batch = slice xs (i + 100 * j) (i + 100 * j + 100) := by
  intro j
  induction j with
  | zero =>
    intro i it hit
    by_cases h : i < xs.length
    · rw [batchLoop_of_lt sm cm xs i h] at hit
      simp only [List.getElem?_cons_zero, Option.some.injEq] at hit
      subst hit
      exact ⟨by omega, rfl⟩
    · rw [batchLoop_of_ge sm cm xs i (Nat.le_of_not_lt h)] at hit
      simp at hit
  | succ j ih =>
    intro i it hit
    by_cases h : i < xs.length
    · rw [batchLoop_of_lt sm cm xs i h] at hit
      simp only [List.getElem?_cons_succ] at hit
      have := ih (i + CITIES_PER_BATCH) it hit
      simp only [CITIES_PER_BATCH] at this
      have e : i + 100 + 100 * j = i + 100 * (j + 1) := by omega
      rw [e] at this
      exact this
    · rw [batchLoop_of_ge sm cm xs i (Nat.le_of_not_lt h)] at hit
      simp at hit

theorem slice_sublist {α : Type} (xs : List α) (i j : Nat) : List.Sublist (slice xs i j) xs :=
  (List.take_sublist _ _).trans (List.drop_sublist _ _)

theorem sorted_head_le (l : List City) (hs : l.Sorted (fun a b => a.id ≤ b.id))
    (hne : l ≠ []) : ∀ c ∈ l, (l.head hne).id ≤ c.id := by
  cases l with
  | nil => exact absurd rfl hne
  | cons a t =>
    intro c hc
    rcases List.mem_cons.mp hc with h | h
    · subst h
      exact le_refl _
    · exact List.rel_of_sorted_cons hs c h

theorem sorted_le_getLast (l : List City) (hs : l.Sorted (fun a b => a.id ≤ b.id))
    (hne : l ≠ []) : ∀ c ∈ l, c.id ≤ (l.getLast hne).id := by
  induction l with
  | nil => exact absurd rfl hne
  | cons a t ih =>
    intro c hc
    cases t with
    | nil =>
      simp only [List.mem_singleton] at hc
      subst hc
      exact le_refl _
    | cons b t2 =>
      rw [List.getLast_cons (List.cons_ne_nil b t2)]
      rcases List.mem_cons.mp hc with h | h
      · subst h
        exact List.rel_of_sorted_cons hs _ (List.getLast_mem _)
      · exact ih hs.of_cons (List.cons_ne_nil b t2) c h

/-- The sorted list the loop of `generateCityBatches` runs over. -/
theorem sortedCities_sorted (cities : List City) :
    (DataUtils.sortBy numLe City.id cities).Sorted (fun a b => a.id ≤ b.id) := by
  have h := sortBy_sorted numLe City.id numLe_total numLe_trans cities
  simpa only [numLe, decide_eq_true_eq] using h

theorem iterations_shape (cities : List City) (states : List State)
    (countries : List Country) :
    ∀ it ∈ iterations cities states countries,
      ∃ hne : it.batch ≠ [],
        it = iteration (states.map (fun s => (s.id, s))) (countries.map (fun c => (c.id, c)))
          it.batch hne :=
  fun it hit => batchLoop_shape _ _ _ _ 0 rfl it hit

theorem iterations_getElem (cities : List City) (states : List State)
    (countries : List Country) (j : Nat) (it : Iteration)
    (h : (iterations cities states countries)[j]? = some it) :
    100 * j < cities.length ∧
      it.batch = slice (DataUtils.sortBy numLe City.id cities) (100 * j) (100 * j + 100) := by
  have := batchLoop_getElem _ _ _ j 0 it h
  simpa only [Nat.zero_add, sortBy_length] using this

theorem iterations_length (cities : List City) (states : List State)
    (countries : List Country) :
    (iterations cities states countries).length = (cities.length + 99) / 100 := by
  have := batchLoop_length (states.map (fun s => (s.id, s)))
    (countries.map (fun c => (c.id, c))) (DataUtils.sortBy numLe City.id cities) _ 0 rfl
  simpa only [Nat.sub_zero, sortBy_length] using this

theorem iterations_batch_sorted (cities : List City) (states : List State)
    (countries : List Country) :
    ∀ it ∈ iterations cities states countries,
      it.batch.Sorted (fun a b => a.id ≤ b.id) := by
  intro it hit
  obtain ⟨j, hj⟩ := List.mem_iff_getElem?.mp hit
  rw [(iterations_getElem cities states countries j it hj).2]
  exact (sortedCities_sorted cities).sublist (slice_sublist _ _ _)

theorem batchIndex_entry (cities : List City) (states : List State)
    (countries : List Country) (path : JSString) (data : List BatchEntry) (m : IndexMeta)
    (h : (path, Document.batchIndex data m) ∈ generateCityBatches cities states countries) :
    path = lit "cities/batches.json" ∧ data = batchIndex cities states countries := by
  simp only [generateCityBatches, List.mem_append, List.mem_map, List.mem_singleton,
    Prod.mk.injEq, Document.batchIndex.injEq] at h
  rcases h with ⟨it, hit, _, hfile⟩ | ⟨hp, hd, _⟩
  · obtain ⟨hne, e⟩ := iterations_shape cities states countries it hit
    rw [e] at hfile
    simp [iteration] at hfile
  · exact ⟨hp, hd⟩

/-! ## Batch coverage and partition -/

/-- C1: the batches of `generateCityBatches`, concatenated in index order, are
the input cities sorted by id ascending (a stable sort: a permutation of the
input, ascending in id, equal ids in input order); every city occurs in the
batches as often as in the input; and the `count` fields of the batch index
written to `cities/batches.json` sum to the number of input cities. -/
theorem generateCityBatches_partition (cities : List City) (states : List State)
    (countries : List Country) :
    ((iterations cities states countries).map (fun it => it.batch)).flatten
        = DataUtils.sortBy numLe City.id cities
      ∧ (DataUtils.sortBy numLe City.id cities).Sorted (fun a b => a.id ≤ b.id)
      ∧ (DataUtils.sortBy numLe City.id cities).Perm cities
      ∧ (∀ k : Int, (DataUtils.sortBy numLe City.id cities).filter (fun c => decide (c.id = k))
          = cities.filter (fun c => decide (c.id = k)))
      ∧ (∀ c : City, ((iterations cities states countries).map
          (fun it => it.batch.count c)).sum = cities.count c)
      ∧ (lit "cities/batches.json",
          Document.batchIndex (batchIndex cities states countries)
            { type := lit "batch_index"
              total_batches := (batchIndex cities states countries).length
              cities_per_batch := 100
              total_cities := cities.length
              usage := lit "Use start_id/end_id to find which batch contains a specific city ID"
              api_version := API_VERSION })
          ∈ generateCityBatches cities states countries
      ∧ (batchIndex cities states countries).map (fun e => e.count)
          = (iterations cities states countries).map (fun it => it.batch.length)
      ∧ ((batchIndex cities states countries).map (fun e => e.count)).sum = cities.length := by
  have hjoin : ((iterations cities states countries).map (fun it => it.batch)).flatten
      = DataUtils.sortBy numLe City.id cities := by
    have := batchLoop_join (states.map (fun s => (s.id, s)))
      (countries.map (fun c => (c.id, c))) (DataUtils.sortBy numLe City.id cities) _ 0 rfl
    simpa only [List.drop_zero] using this
  have hcounts : (batchIndex cities states countries).map (fun e => e.count)
      = (iterations cities states countries).map (fun it => it.batch.length) := by
    simp only [batchIndex, List.map_map]
    apply List.map_congr_left
    intro it hit
    obtain ⟨hne, e⟩ := iterations_shape cities states countries it hit
    rw [Function.comp_apply, e]
    rfl
  refine ⟨hjoin, sortedCities_sorted cities, sortBy_perm _ _ _, ?_, ?_, ?_, hcounts, ?_⟩
  · intro k
    exact sortBy_stable numLe City.id (fun a => by simp [numLe]) cities k
  · intro c
    rw [← (sortBy_perm numLe City.id cities).count_eq c, ← hjoin, List.count_flatten,
      List.map_map]
    rfl
  · simp only [generateCityBatches, batchIndex, List.mem_append, List.mem_singleton,
      List.length_map, sortBy_length, CITIES_PER_BATCH]
    exact Or.inr trivial
  · rw [hcounts, ← sortBy_length numLe City.id cities, ← hjoin, List.length_flatten,
      List.map_map]
    rfl

/-- C2: `generateCityBatches` produces exactly `ceil(n / 100)` batches for `n`
cities; every batch but the last has count 100, the last (and so every) batch
has a count between 1 and 100, and no batch is produced for `n = 0`. -/
theorem generateCityBatches_batch_count (cities : List City) (states : List State)
    (countries : List Country) :
    (batchIndex cities states countries).length = (cities.length + 99) / 100
      ∧ 100 * ((cities.length + 99) / 100) < cities.length + 100
      ∧ cities.length ≤ 100 * ((cities.length + 99) / 100)
      ∧ (∀ (j : Nat) (e : BatchEntry), (batchIndex cities states countries)[j]? = some e →
          j + 1 < (batchIndex cities states countries).length → e.count = 100)
      ∧ (∀ e : BatchEntry, (batchIndex cities states countries).getLast? = some e →
          1 ≤ e.count ∧ e.count ≤ 100)
      ∧ (∀ e ∈ batchIndex cities states countries, 1 ≤ e.count ∧ e.count ≤ 100)
      ∧ (cities.length = 0 → generateCityBatches cities states countries =
          [(lit "cities/batches.json", Document.batchIndex []
            { type := lit "batch_index"
              total_batches := 0
              cities_per_batch := 100
              total_cities := 0
              usage := lit "Use start_id/end_id to find which batch contains a specific city ID"
              api_version := API_VERSION })]) := by
  have hlen : (batchIndex cities states countries).length = (cities.length + 99) / 100 := by
    rw [batchIndex, List.length_map, iterations_length]
  have hentry : ∀ (j : Nat) (e : BatchEntry),
      (batchIndex cities states countries)[j]? = some e →
        100 * j < cities.length ∧ e.count = min 100 (cities.length - 100 * j) := by
    intro j e he
    simp only [batchIndex, List.getElem?_map, Option.map_eq_some'] at he
    obtain ⟨it, hit, rfl⟩ := he
    obtain ⟨hj, hb⟩ := iterations_getElem cities states countries j it hit
    obtain ⟨hne, e⟩ := iterations_shape cities states countries it (List.getElem?_mem hit)
    refine ⟨hj, ?_⟩
    have hc : it.entry.count = it.batch.length := by
      rw [e]
      rfl
    rw [hc, hb]
    simp only [slice, List.length_take, List.length_drop, sortBy_length]
    omega
  have hall : ∀ e ∈ batchIndex cities states countries, 1 ≤ e.count ∧ e.count ≤ 100 := by
    intro e he
    obtain ⟨j, hj⟩ := List.mem_iff_getElem?.mp he
    obtain ⟨h1, h2⟩ := hentry j e hj
    omega
  refine ⟨hlen, by omega, by omega, ?_, ?_, hall, ?_⟩
  · intro j e he hj
    obtain ⟨h1, h2⟩ := hentry j e he
    rw [hlen] at hj
    omega
  · intro e he
    exact hall e (List.mem_of_getLast?_eq_some he)
  · intro h0
    have hnil : cities = [] := List.length_eq_zero.mp h0
    subst hnil
    simp [generateCityBatches, iterations, DataUtils.sortBy, batchLoop_of_ge,
      CITIES_PER_BATCH]

/-- C3: in every batch, `start_id` is the least and `end_id` the greatest id of
the cities of the batch, so `start_id <= end_id`; the batch is indexed under,
and its lookup object written to, `cities/batch/batch-{start_id}-{end_id}.json`. -/
theorem generateCityBatches_range (cities : List City) (states : List State)
    (countries : List Country) (it : Iteration)
    (hit : it ∈ iterations cities states countries) :
    (∃ c ∈ it.batch, c.id = it.entry.start_id)
      ∧ (∀ c ∈ it.batch, it.entry.start_id ≤ c.id)
      ∧ (∃ c ∈ it.batch, c.id = it.entry.end_id)
      ∧ (∀ c ∈ it.batch, c.id ≤ it.entry.end_id)
      ∧ it.entry.start_id ≤ it.entry.end_id
      ∧ it.entry.filename = lit "cities/batch/batch-" ++ numberToString it.entry.start_id
          ++ lit "-" ++ numberToString it.entry.end_id ++ lit ".json"
      ∧ it.entry ∈ batchIndex cities states countries
      ∧ (it.entry.filename,
          Document.batchFile
            (cityLookup (states.map (fun s => (s.id, s))) (countries.map (fun c => (c.id, c)))
              it.batch)
            { type := lit "cities_batch"
              batch_range := numberToString it.entry.start_id ++ lit "-"
                ++ numberToString it.entry.end_id
              cities_count := it.batch.length
              usage := lit "Access city by ID: data[city_id]"
              api_version := API_VERSION })
          ∈ generateCityBatches cities states countries := by
  obtain ⟨hne, e⟩ := iterations_shape cities states countries it hit
  have hs := iterations_batch_sorted cities states countries it hit
  have hentry := congrArg Iteration.entry e
  have hpath := congrArg Iteration.filePath e
  have hfile := congrArg Iteration.file e
  have hstart : it.entry.start_id = (it.batch.head hne).id :=
    congrArg BatchEntry.start_id hentry
  have hend : it.entry.end_id = (it.batch.getLast hne).id :=
    congrArg BatchEntry.end_id hentry
  have hname : it.entry.filename = it.filePath :=
    (congrArg BatchEntry.filename hentry).trans hpath.symm
  have hmem : (it.filePath, it.file) ∈ generateCityBatches cities states countries := by
    simp only [generateCityBatches, List.mem_append, List.mem_map]
    exact Or.inl ⟨it, hit, rfl⟩
  refine ⟨⟨_, List.head_mem hne, hstart.symm⟩, ?_, ⟨_, List.getLast_mem hne, hend.symm⟩,
    ?_, ?_, ?_, List.mem_map_of_mem _ hit, ?_⟩
  · rw [hstart]
    exact sorted_head_le it.batch hs hne
  · rw [hend]
    exact sorted_le_getLast it.batch hs hne
  · rw [hstart, hend]
    exact sorted_head_le it.batch hs hne _ (List.getLast_mem hne)
  · rw [hstart, hend, hname, hpath]
    simp [iteration, lit, List.append_assoc]
  · rw [hstart, hend, hname]
    rw [hfile] at hmem
    exact hmem

theorem exampleIteration_mem :
    exampleIteration ∈ iterations [exampleCity] [exampleState] [exampleCountry] := by
  have h : iterations [exampleCity] [exampleState] [exampleCountry] = [exampleIteration] := by
    simp only [iterations, DataUtils.sortBy, List.insertionSort, List.orderedInsert,
      List.map_cons, List.map_nil]
    rw [batchLoop_of_lt _ _ _ 0 (by simp), batchLoop_of_ge _ _ _ _ (by simp [CITIES_PER_BATCH])]
    rfl
  rw [h]
  exact List.mem_singleton.mpr rfl

/-- The range property on the example of the specification: its batch is
`cities/batch/batch-100-100.json`. -/
theorem generateCityBatches_range_witness :
    exampleIteration ∈ iterations [exampleCity] [exampleState] [exampleCountry]
      ∧ exampleIteration.entry.start_id ≤ exampleIteration.entry.end_id
      ∧ exampleIteration.entry.filename = lit "cities/batch/batch-100-100.json" :=
  ⟨exampleIteration_mem,
    (generateCityBatches_range _ _ _ exampleIteration exampleIteration_mem).2.2.2.2.1,
    ((generateCityBatches_range _ _ _ exampleIteration
      exampleIteration_mem).2.2.2.2.2.1).trans (by decide)⟩

/-! ## Ordering of the batch index -/

theorem sortedCities_strict (cities : List City) (hnd : (cities.map City.id).Nodup) :
    (DataUtils.sortBy numLe City.id cities).Pairwise (fun a b => a.id < b.id) := by
  have h1 : (DataUtils.sortBy numLe City.id cities).Pairwise (fun a b => a.id ≤ b.id) :=
    sortedCities_sorted cities
  have h2 : ((DataUtils.sortBy numLe City.id cities).map City.id).Nodup :=
    ((sortBy_perm numLe City.id cities).map City.id).nodup_iff.mpr hnd
  have h3 : (DataUtils.sortBy numLe City.id cities).Pairwise (fun a b => a.id ≠ b.id) :=
    List.pairwise_map.mp h2
  exact (h1.and h3).imp (fun h => lt_of_le_of_ne h.1 h.2)

theorem mem_slice_drop {α : Type} (xs : List α) (i j : Nat) (c : α)
    (h : c ∈ slice xs i j) : c ∈ xs.drop i :=
  List.mem_of_mem_take h

theorem mem_slice_take {α : Type} (xs : List α) (i k n : Nat) (c : α) (hn : i + k ≤ n)
    (h : c ∈ slice xs i (i + k)) : c ∈ xs.take n := by
  have h1 : c ∈ (xs.take (i + k)).drop i := by
    rw [List.drop_take]
    simpa [slice] using h
  exact (List.take_sublist_take_left xs hn).subset (List.mem_of_mem_drop h1)

/-- With distinct ids, every city of an earlier batch has a smaller id than
every city of a later batch. -/
theorem batches_strictly_ordered (cities : List City) (states : List State)
    (countries : List Country) (hnd : (cities.map City.id).Nodup)
    (j1 j2 : Nat) (it1 it2 : Iteration) (hj : j1 < j2)
    (h1 : (iterations cities states countries)[j1]? = some it1)
    (h2 : (iterations cities states countries)[j2]? = some it2)
    (c1 c2 : City) (hc1 : c1 ∈ it1.batch) (hc2 : c2 ∈ it2.batch) : c1.id < c2.id := by
  obtain ⟨_, hb1⟩ := iterations_getElem cities states countries j1 it1 h1
  obtain ⟨_, hb2⟩ := iterations_getElem cities states countries j2 it2 h2
  rw [hb1] at hc1
  rw [hb2] at hc2
  exact List.Sorted.rel_of_mem_take_of_mem_drop (sortedCities_strict cities hnd)
    (mem_slice_take _ _ _ (100 * j2) _ (by omega) hc1) (mem_slice_drop _ _ _ _ hc2)

/-- The entry of every iteration names the first and the last id of its slice
and the path of its file. -/
theorem iterations_entry (cities : List City) (states : List State)
    (countries : List Country) (it : Iteration)
    (hit : it ∈ iterations cities states countries) :
    ∃ hne : it.batch ≠ [],
      it.entry.start_id = (it.batch.head hne).id
        ∧ it.entry.end_id = (it.batch.getLast hne).id
        ∧ it.entry.filename = it.filePath := by
  obtain ⟨hne, e⟩ := iterations_shape cities states countries it hit
  have hentry := congrArg Iteration.entry e
  have hpath := congrArg Iteration.filePath e
  exact ⟨hne, congrArg BatchEntry.start_id hentry, congrArg BatchEntry.end_id hentry,
    (congrArg BatchEntry.filename hentry).trans hpath.symm⟩

/-- A sorted list of 101 to 200 cities is cut into two batches. -/
theorem batchLoop_two (sm : List (Int × State)) (cm : List (Int × Country))
    (xs : List City) (h1 : 100 < xs.length) (h2 : xs.length ≤ 200) :
    batchLoop sm cm xs 0 =
      [iteration sm cm (slice xs 0 (0 + CITIES_PER_BATCH)) (slice_ne_nil xs 0 (by omega)),
        iteration sm cm (slice xs (0 + CITIES_PER_BATCH) (0 + CITIES_PER_BATCH + CITIES_PER_BATCH))
          (slice_ne_nil xs (0 + CITIES_PER_BATCH) (by simpa [CITIES_PER_BATCH] using h1))] := by
  rw [batchLoop_of_lt sm cm xs 0 (by omega),
    batchLoop_of_lt sm cm xs (0 + CITIES_PER_BATCH) (by simpa [CITIES_PER_BATCH] using h1),
    batchLoop_of_ge sm cm xs _ (by simpa [CITIES_PER_BATCH] using h2)]

theorem sortBy_distinctCities :
    DataUtils.sortBy numLe City.id distinctCities = distinctCities := by
  apply List.Sorted.insertionSort_eq
  refine List.pairwise_map.mpr ((List.pairwise_lt_range 101).imp ?_)
  intro a b hab
  show numLe (Int.ofNat a) (Int.ofNat b) = true
  simp only [numLe, decide_eq_true_eq, Int.ofNat_eq_coe]
  omega

theorem sortBy_duplicateCities :
    DataUtils.sortBy numLe City.id duplicateCities = duplicateCities := by
  apply List.Sorted.insertionSort_eq
  simp only [duplicateCities, List.Sorted, List.pairwise_replicate]
  exact Or.inr (by decide)

theorem batchIndex_distinctCities :
    batchIndex distinctCities [] [] =
      [{ filename := lit "cities/batch/batch-0-99.json", start_id := 0, end_id := 99,
         count := 100 },
       { filename := lit "cities/batch/batch-100-100.json", start_id := 100, end_id := 100,
         count := 1 }] := by
  rw [batchIndex, iterations, sortBy_distinctCities,
    batchLoop_two _ _ distinctCities (by decide) (by decide)]
  decide

theorem batchIndex_duplicateCities :
    batchIndex duplicateCities [] [] =
      [{ filename := lit "cities/batch/batch-100-100.json", start_id := 100, end_id := 100,
         count := 100 },
       { filename := lit "cities/batch/batch-100-100.json", start_id := 100, end_id := 100,
         count := 1 }] := by
  rw [batchIndex, iterations, sortBy_duplicateCities,
    batchLoop_two _ _ duplicateCities (by decide) (by decide)]
  decide

/-- C4, as stated, fails: for 101 cities that share the id 100 the index has
two entries, both with the range 100..100, so the `start_id` of the second is
not greater than the `end_id` of the first. -/
theorem batchIndex_overlap_on_shared_ids :
    (batchIndex duplicateCities [] []).map (fun e => (e.start_id, e.end_id))
        = [(100, 100), (100, 100)]
      ∧ ¬ ((100 : Int) < 100) := by
  rw [batchIndex_duplicateCities]
  decide

/-- C4, amended: for cities with pairwise distinct ids the entries of the batch
index are strictly ordered and do not overlap: the `start_id` of each entry is
greater than the `end_id` of the entry before it. -/
theorem batchIndex_strictly_ordered (cities : List City) (states : List State)
    (countries : List Country) (hnd : (cities.map City.id).Nodup)
    (j : Nat) (e1 e2 : BatchEntry)
    (h1 : (batchIndex cities states countries)[j]? = some e1)
    (h2 : (batchIndex cities states countries)[j + 1]? = some e2) :
    e1.end_id < e2.start_id := by
  simp only [batchIndex, List.getElem?_map, Option.map_eq_some'] at h1 h2
  obtain ⟨it1, hit1, rfl⟩ := h1
  obtain ⟨it2, hit2, rfl⟩ := h2
  obtain ⟨hne1, _, hend, _⟩ :=
    iterations_entry cities states countries it1 (List.getElem?_mem hit1)
  obtain ⟨hne2, hstart, _, _⟩ :=
    iterations_entry cities states countries it2 (List.getElem?_mem hit2)
  rw [hend, hstart]
  exact batches_strictly_ordered cities states countries hnd j (j + 1) it1 it2
    (Nat.lt_succ_self j) hit1 hit2 _ _ (List.getLast_mem hne1) (List.head_mem hne2)

/-- The amended ordering on 101 cities with the ids 0..100: the batches are
0..99 and 100..100. -/
theorem batchIndex_strictly_ordered_witness :
    (distinctCities.map City.id).Nodup
      ∧ (batchIndex distinctCities [] [])[0]? =
          some { filename := lit "cities/batch/batch-0-99.json", start_id := 0, end_id := 99,
                 count := 100 }
      ∧ (batchIndex distinctCities [] [])[0 + 1]? =
          some { filename := lit "cities/batch/batch-100-100.json", start_id := 100,
                 end_id := 100, count := 1 }
      ∧ (99 : Int) < 100 :=
  have hnd : (distinctCities.map City.id).Nodup := by
    refine List.pairwise_map.mpr (List.pairwise_map.mpr ((List.nodup_range 101).imp ?_))
    intro a b hab h
    exact hab (Int.ofNat.inj h)
  have h1 : (batchIndex distinctCities [] [])[0]? =
      some { filename := lit "cities/batch/batch-0-99.json", start_id := 0, end_id := 99,
             count := 100 } := by
    rw [batchIndex_distinctCities]
    rfl
  have h2 : (batchIndex distinctCities [] [])[0 + 1]? =
      some { filename := lit "cities/batch/batch-100-100.json", start_id := 100,
             end_id := 100, count := 1 } := by
    rw [batchIndex_distinctCities]
    rfl
  ⟨hnd, h1, h2, batchIndex_strictly_ordered distinctCities [] [] hnd 0 _ _ h1 h2⟩

/-! ## Lookup of a city through the batch index -/

theorem cityLookup_foldl_other (sm : List (Int × State)) (cm : List (Int × Country)) :
    ∀ (batch : List City) (init : List (Int × BatchCity)) (k : Int),
      (∀ c ∈ batch, c.id ≠ k) →
      objGet (batch.foldl (fun obj city => objSet obj city.id (enhance sm cm city)) init) k
        = objGet init k := by
  intro batch
  induction batch with
  | nil => intro init k _; rfl
  | cons c t ih =>
    intro init k h
    rw [List.foldl_cons, ih _ k (fun c2 hc2 => h c2 (List.mem_cons_of_mem _ hc2))]
    exact objGet_objSet_ne init c.id k _ (h c (List.mem_cons_self _ _)).symm

theorem cityLookup_foldl_mem (sm : List (Int × State)) (cm : List (Int × Country)) :
    ∀ (batch : List City) (init : List (Int × BatchCity)) (c : City),
      (batch.map City.id).Nodup → c ∈ batch →
      objGet (batch.foldl (fun obj city => objSet obj city.id (enhance sm cm city)) init) c.id
        = some (enhance sm cm c) := by
  intro batch
  induction batch with
  | nil => intro init c _ hc; cases hc
  | cons c0 t ih =>
    intro init c hnd hc
    rw [List.map_cons, List.nodup_cons] at hnd
    rw [List.foldl_cons]
    rcases List.mem_cons.mp hc with h | h
    · subst h
      rw [cityLookup_foldl_other sm cm t _ c.id]
      · exact objGet_objSet_same init c.id _
      · intro c2 hc2 heq
        exact hnd.1 (heq ▸ List.mem_map_of_mem City.id hc2)
    · exact ih _ c hnd.2 h

/-- In a batch with distinct ids the lookup object maps the id of each city to
the enhanced record of that city. -/
theorem cityLookup_get (sm : List (Int × State)) (cm : List (Int × Country))
    (batch : List City) (c : City) (hnd : (batch.map City.id).Nodup) (hc : c ∈ batch) :
    objGet (cityLookup sm cm batch) c.id = some (enhance sm cm c) :=
  cityLookup_foldl_mem sm cm batch [] c hnd hc

theorem iterations_filePath (cities : List City) (states : List State)
    (countries : List Country) (it : Iteration)
    (hit : it ∈ iterations cities states countries) :
    it.filePath = lit "cities/batch/batch-" ++
      (numberToString it.entry.start_id ++ 45 :: (numberToString it.entry.end_id
        ++ lit ".json")) := by
  obtain ⟨hne, e⟩ := iterations_shape cities states countries it hit
  have hentry := congrArg Iteration.entry e
  have hpath := congrArg Iteration.filePath e
  rw [congrArg BatchEntry.start_id hentry, congrArg BatchEntry.end_id hentry, hpath]
  simp [iteration, lit, List.append_assoc]

theorem iterations_file (cities : List City) (states : List State)
    (countries : List Country) (it : Iteration)
    (hit : it ∈ iterations cities states countries) :
    ∃ m : BatchMeta, it.file = Document.batchFile
      (cityLookup (states.map (fun s => (s.id, s))) (countries.map (fun c => (c.id, c)))
        it.batch) m := by
  obtain ⟨hne, e⟩ := iterations_shape cities states countries it hit
  exact ⟨_, congrArg Iteration.file e⟩

theorem indexPath_ne (r : List Nat) :
    lit "cities/batches.json" ≠ lit "cities/batch/batch-" ++ r := by
  intro h
  have h2 := congrArg (fun l => l[12]?) h
  revert h2
  simp [lit]

/-- With distinct ids, two iterations that write the same path are the same. -/
theorem iterations_path_injective (cities : List City) (states : List State)
    (countries : List Country) (hnd : (cities.map City.id).Nodup) (it1 it2 : Iteration)
    (h1 : it1 ∈ iterations cities states countries)
    (h2 : it2 ∈ iterations cities states countries)
    (hp : it1.filePath = it2.filePath) : it1 = it2 := by
  rw [iterations_filePath cities states countries it1 h1,
    iterations_filePath cities states countries it2 h2] at hp
  have hs := numberToString_prefix_unique _ _ _ _ (List.append_cancel_left hp)
  obtain ⟨hne1, hs1, _, _⟩ := iterations_entry cities states countries it1 h1
  obtain ⟨hne2, hs2, _, _⟩ := iterations_entry cities states countries it2 h2
  rw [hs1, hs2] at hs
  obtain ⟨j1, hj1⟩ := List.mem_iff_getElem?.mp h1
  obtain ⟨j2, hj2⟩ := List.mem_iff_getElem?.mp h2
  rcases Nat.lt_trichotomy j1 j2 with hlt | heq | hgt
  · have := batches_strictly_ordered cities states countries hnd j1 j2 it1 it2 hlt hj1 hj2
      _ _ (List.head_mem hne1) (List.head_mem hne2)
    omega
  · subst heq
    rw [hj1] at hj2
    exact Option.some.inj hj2
  · have := batches_strictly_ordered cities states countries hnd j2 j1 it2 it1 hgt hj2 hj1
      _ _ (List.head_mem hne2) (List.head_mem hne1)
    omega

/-- With distinct ids, the file at the path of an iteration is the file that
iteration wrote. -/
theorem readFile_batch (cities : List City) (states : List State)
    (countries : List Country) (hnd : (cities.map City.id).Nodup) (it : Iteration)
    (hit : it ∈ iterations cities states countries) :
    readFile (generateCityBatches cities states countries) it.filePath = some it.file := by
  apply readFile_of_unique
  · simp only [generateCityBatches, List.mem_append, List.mem_map]
    exact Or.inl ⟨it, hit, rfl⟩
  · intro d2 hd2
    simp only [generateCityBatches, List.mem_append, List.mem_map, List.mem_singleton,
      Prod.mk.injEq] at hd2
    rcases hd2 with ⟨it2, hit2, hp, hf⟩ | ⟨hp, _⟩
    · have := iterations_path_injective cities states countries hnd it2 it hit2 hit hp
      rw [← hf, this]
    · rw [iterations_filePath cities states countries it hit] at hp
      exact absurd hp.symm (indexPath_ne _)

theorem readFile_index (cities : List City) (states : List State)
    (countries : List Country) :
    ∃ m : IndexMeta, readFile (generateCityBatches cities states countries)
      (lit "cities/batches.json") =
        some (Document.batchIndex (batchIndex cities states countries) m) := by
  refine ⟨{ type := lit "batch_index",
            total_batches := (iterations cities states countries).length,
            cities_per_batch := CITIES_PER_BATCH,
            total_cities := (DataUtils.sortBy numLe City.id cities).length,
            usage := lit "Use start_id/end_id to find which batch contains a specific city ID",
            api_version := API_VERSION }, readFile_of_unique _ _ _ ?_ ?_⟩
  · simp only [generateCityBatches, batchIndex, List.mem_append, List.mem_singleton]
    exact Or.inr trivial
  · intro d2 hd2
    simp only [generateCityBatches, List.mem_append, List.mem_map, List.mem_singleton,
      Prod.mk.injEq] at hd2
    rcases hd2 with ⟨it2, hit2, hp, _⟩ | ⟨_, hf⟩
    · rw [iterations_filePath cities states countries it2 hit2] at hp
      exact absurd hp.symm (indexPath_ne _)
    · rw [hf]
      rfl

theorem iterations_flatten (cities : List City) (states : List State)
    (countries : List Country) :
    ((iterations cities states countries).map (fun it => it.batch)).flatten
      = DataUtils.sortBy numLe City.id cities := by
  have := batchLoop_join (states.map (fun s => (s.id, s)))
    (countries.map (fun c => (c.id, c))) (DataUtils.sortBy numLe City.id cities) _ 0 rfl
  simpa only [List.drop_zero] using this

theorem iterations_batch_nodup (cities : List City) (states : List State)
    (countries : List Country) (hnd : (cities.map City.id).Nodup) (it : Iteration)
    (hit : it ∈ iterations cities states countries) : (it.batch.map City.id).Nodup := by
  obtain ⟨j, hj⟩ := List.mem_iff_getElem?.mp hit
  rw [(iterations_getElem cities states countries j it hj).2]
  have h2 : ((DataUtils.sortBy numLe City.id cities).map City.id).Nodup :=
    ((sortBy_perm numLe City.id cities).map City.id).nodup_iff.mpr hnd
  exact h2.sublist ((slice_sublist _ _ _).map City.id)

/-- C5: for cities with pairwise distinct ids the documented client lookup of
any city succeeds: `cities/batches.json` holds the batch index, its first
entry `b` with `start_id <= id <= end_id` exists, the file named by
`b.filename` is a batch file, and its lookup object maps the id to a record
carrying the id and the name of the city. -/
theorem city_lookup_succeeds (cities : List City) (states : List State)
    (countries : List Country) (hnd : (cities.map City.id).Nodup)
    (c : City) (hc : c ∈ cities) :
    ∃ (idx : List BatchEntry) (m : IndexMeta) (b : BatchEntry)
      (data : List (Int × BatchCity)) (bm : BatchMeta) (r : BatchCity),
      readFile (generateCityBatches cities states countries) (lit "cities/batches.json")
          = some (Document.batchIndex idx m)
        ∧ idx.find? (fun b => decide (c.id ≥ b.start_id) && decide (c.id ≤ b.end_id)) = some b
        ∧ readFile (generateCityBatches cities states countries) b.filename
          = some (Document.batchFile data bm)
        ∧ objGet data c.id = some r
        ∧ r.id = c.id ∧ r.name = c.name := by
  obtain ⟨m, hm⟩ := readFile_index cities states countries
  have hcs : c ∈ ((iterations cities states countries).map (fun it => it.batch)).flatten := by
    rw [iterations_flatten]
    exact (sortBy_perm numLe City.id cities).mem_iff.mpr hc
  obtain ⟨batch, hbatch, hcb⟩ := List.mem_flatten.mp hcs
  obtain ⟨it, hit, rfl⟩ := List.mem_map.mp hbatch
  obtain ⟨j, hj⟩ := List.mem_iff_getElem?.mp hit
  obtain ⟨hne, hstart, hend, hname⟩ := iterations_entry cities states countries it hit
  have hs := iterations_batch_sorted cities states countries it hit
  obtain ⟨bm, hbm⟩ := iterations_file cities states countries it hit
  refine ⟨_, m, it.entry,
    cityLookup (states.map (fun s => (s.id, s))) (countries.map (fun c => (c.id, c))) it.batch,
    bm, enhance (states.map (fun s => (s.id, s))) (countries.map (fun c => (c.id, c))) c,
    hm, ?_, ?_, ?_, rfl, rfl⟩
  · apply find?_of_getElem? _ _ j
    · simp only [batchIndex, List.getElem?_map, hj, Option.map_some']
    · have h1 := sorted_head_le it.batch hs hne c hcb
      have h2 := sorted_le_getLast it.batch hs hne c hcb
      simp only [hstart, hend, ge_iff_le, Bool.and_eq_true, decide_eq_true_eq]
      exact ⟨h1, h2⟩
    · intro i a hi ha
      simp only [batchIndex, List.getElem?_map, Option.map_eq_some'] at ha
      obtain ⟨it0, hit0, rfl⟩ := ha
      obtain ⟨hne0, _, hend0, _⟩ :=
        iterations_entry cities states countries it0 (List.getElem?_mem hit0)
      have := batches_strictly_ordered cities states countries hnd i j it0 it hi hit0 hj
        _ c (List.getLast_mem hne0) hcb
      simp only [hend0, ge_iff_le, Bool.and_eq_false_iff, decide_eq_false_iff_not]
      right
      omega
  · rw [hname, readFile_batch cities states countries hnd it hit, hbm]
  · exact cityLookup_get _ _ it.batch c
      (iterations_batch_nodup cities states countries hnd it hit) hcb

/-- The lookup on the example of the specification: city 100 is found. -/
theorem city_lookup_succeeds_witness :
    ([exampleCity].map City.id).Nodup ∧ exampleCity ∈ [exampleCity]
      ∧ ∃ (idx : List BatchEntry) (m : IndexMeta) (b : BatchEntry)
          (data : List (Int × BatchCity)) (bm : BatchMeta) (r : BatchCity),
          readFile (generateCityBatches [exampleCity] [exampleState] [exampleCountry])
              (lit "cities/batches.json") = some (Document.batchIndex idx m)
            ∧ idx.find? (fun b => decide (exampleCity.id ≥ b.start_id)
                && decide (exampleCity.id ≤ b.end_id)) = some b
            ∧ readFile (generateCityBatches [exampleCity] [exampleState] [exampleCountry])
                b.filename = some (Document.batchFile data bm)
            ∧ objGet data exampleCity.id = some r
            ∧ r.id = exampleCity.id ∧ r.name = exampleCity.name :=
  ⟨by decide, by decide,
    city_lookup_succeeds [exampleCity] [exampleState] [exampleCountry] (by decide)
      exampleCity (by decide)⟩

end CitiesGenerator

/-! ## The filename sanitizer -/

namespace BaseGenerator

theorem replaceUnsafe_safe (s : JSString) : ∀ c ∈ replaceUnsafe s, isSafeUnit c = true := by
  intro c hc
  simp only [replaceUnsafe, List.mem_map] at hc
  obtain ⟨a, _, rfl⟩ := hc
  by_cases h : isSafeUnit a = true
  · rw [if_pos h]
    exact h
  · rw [if_neg h]
    decide

theorem collapseDashes_cons (d : Nat) (rest : JSString) :
    ∃ t, collapseDashes (d :: rest) = d :: t := by
  induction rest generalizing d with
  | nil => exact ⟨[], rfl⟩
  | cons e r ih =>
    by_cases h : d = 45 ∧ e = 45
    · obtain ⟨t, ht⟩ := ih e
      refine ⟨t, ?_⟩
      rw [collapseDashes, if_pos h, ht, h.1, h.2]
    · exact ⟨collapseDashes (e :: r), by rw [collapseDashes, if_neg h]⟩

theorem collapseDashes_sublist : ∀ s : JSString, List.Sublist (collapseDashes s) s
  | [] => List.Sublist.slnil
  | [c] => List.Sublist.refl _
  | c :: d :: rest => by
    have ih := collapseDashes_sublist (d :: rest)
    by_cases h : c = 45 ∧ d = 45
    · rw [collapseDashes, if_pos h]
      exact ih.cons c
    · rw [collapseDashes, if_neg h]
      exact ih.cons₂ c

theorem collapseDashes_noDoubleDash : ∀ s : JSString, NoDoubleDash (collapseDashes s)
  | [] => List.chain'_nil
  | [c] => List.chain'_singleton c
  | c :: d :: rest => by
    have ih := collapseDashes_noDoubleDash (d :: rest)
    by_cases h : c = 45 ∧ d = 45
    · rw [collapseDashes, if_pos h]
      exact ih
    · rw [collapseDashes, if_neg h]
      obtain ⟨t, ht⟩ := collapseDashes_cons d rest
      rw [ht] at ih ⊢
      exact List.chain'_cons.mpr ⟨h, ih⟩

theorem collapseDashes_filter : ∀ s : JSString,
    (collapseDashes s).filter isLowerAlnum = s.filter isLowerAlnum
  | [] => rfl
  | [c] => rfl
  | c :: d :: rest => by
    have ih := collapseDashes_filter (d :: rest)
    by_cases h : c = 45 ∧ d = 45
    · rw [collapseDashes, if_pos h, ih, h.1]
      rfl
    · rw [collapseDashes, if_neg h]
      simp only [List.filter_cons, ih]

theorem replaceUnsafe_filter (s : JSString) :
    (replaceUnsafe s).filter isLowerAlnum = s.filter isLowerAlnum := by
  induction s with
  | nil => rfl
  | cons c t ih =>
    have ih2 : (List.map (fun c => if isSafeUnit c = true then c else 45) t).filter isLowerAlnum
        = t.filter isLowerAlnum := ih
    by_cases h : isLowerAlnum c = true
    · have hs : isSafeUnit c = true := by simp [isSafeUnit, h]
      simp only [replaceUnsafe, List.map_cons, hs, if_true, List.filter_cons, h, ih2]
    · by_cases hs : isSafeUnit c = true
      · simp only [replaceUnsafe, List.map_cons, hs, if_true, List.filter_cons, h, ih2]
      · have h45 : isLowerAlnum 45 = false := by decide
        simp only [replaceUnsafe, List.map_cons, hs, List.filter_cons, h, h45, ih2]
        rfl

theorem dropTrailingDash_initial (s : JSString) : dropTrailingDash s <+: s := by
  unfold dropTrailingDash
  split
  · exact List.dropLast_prefix s
  · exact List.prefix_refl s

theorem stripDashEnds_segment (s : JSString) : stripDashEnds s <:+: s := by
  unfold stripDashEnds
  split
  · exact (dropTrailingDash_initial _).isInfix.trans (List.suffix_cons _ _).isInfix
  · exact (dropTrailingDash_initial _).isInfix

theorem dropTrailingDash_filter (s : JSString) :
    (dropTrailingDash s).filter isLowerAlnum = s.filter isLowerAlnum := by
  unfold dropTrailingDash
  split
  · rename_i h
    rcases List.eq_nil_or_concat s with h0 | ⟨t, a, rfl⟩
    · rw [h0]
      rfl
    · have ha : a = 45 := by simpa using h
      subst ha
      have h45 : isLowerAlnum 45 = false := by decide
      simp [List.filter_append, h45]
  · rfl

theorem stripDashEnds_filter (s : JSString) :
    (stripDashEnds s).filter isLowerAlnum = s.filter isLowerAlnum := by
  unfold stripDashEnds
  split
  · rw [dropTrailingDash_filter]
    rfl
  · exact dropTrailingDash_filter s

theorem dropTrailingDash_getLast (s : JSString) (h : NoDoubleDash s) :
    (dropTrailingDash s).getLast? ≠ some 45 := by
  unfold dropTrailingDash
  split
  · rename_i hl
    rcases List.eq_nil_or_concat s with h0 | ⟨t, a, rfl⟩
    · rw [h0]
      simp
    · have ha : a = 45 := by simpa using hl
      subst ha
      rw [List.concat_eq_append] at h ⊢
      rw [List.dropLast_concat]
      rcases List.eq_nil_or_concat t with h1 | ⟨t2, b, rfl⟩
      · rw [h1]
        simp
      · intro hb
        have hb2 : b = 45 := by simpa using hb
        subst hb2
        unfold NoDoubleDash at h
        rw [List.concat_eq_append, List.append_assoc, List.chain'_append] at h
        have := h.2.1
        simp at this
  · rename_i hl
    exact hl

theorem dropTrailingDash_head (s : JSString) (h : s.head? ≠ some 45) :
    (dropTrailingDash s).head? ≠ some 45 := by
  intro hh
  obtain ⟨t, ht⟩ := dropTrailingDash_initial s
  cases hd : dropTrailingDash s with
  | nil => rw [hd] at hh; simp at hh
  | cons a r =>
    rw [hd] at hh ht
    rw [← ht] at h
    exact h hh

theorem stripDashEnds_head (s : JSString) (h : NoDoubleDash s) :
    (stripDashEnds s).head? ≠ some 45 := by
  unfold stripDashEnds
  split
  · rename_i rest
    apply dropTrailingDash_head
    cases rest with
    | nil => simp
    | cons b r =>
      have := (List.chain'_cons.mp h).1
      intro hb
      have hb2 : b = 45 := by simpa using hb
      exact this ⟨rfl, hb2⟩
  · rename_i hs
    apply dropTrailingDash_head
    cases s with
    | nil => simp
    | cons a r =>
      intro ha
      have ha2 : a = 45 := by simpa using ha
      exact hs r (by rw [ha2])

theorem stripDashEnds_getLast (s : JSString) (h : NoDoubleDash s) :
    (stripDashEnds s).getLast? ≠ some 45 := by
  unfold stripDashEnds
  split
  · exact dropTrailingDash_getLast _ (List.Chain'.tail h)
  · exact dropTrailingDash_getLast _ h

theorem asciiAlnum_lower (c : Nat) (h : isAsciiAlnum c = true) :
    c < 128 ∧ isLowerAlnum (asciiLower c) = true := by
  simp only [isAsciiAlnum, isLowerAlnum, asciiLower, Bool.or_eq_true, Bool.and_eq_true,
    decide_eq_true_eq] at h ⊢
  split <;> omega

/-- The ASCII letters and digits of a string, lower-cased, survive
`toLowerCase` in their order. -/
theorem toLowerCaseFrom_sublist (u : List Nat → Nat → List Nat → List Nat) :
    ∀ (s : JSString) (before : List Nat),
      List.Sublist ((s.filter isAsciiAlnum).map asciiLower)
        ((toLowerCaseFrom u before s).filter isLowerAlnum) := by
  intro s
  induction s with
  | nil => intro before; exact List.Sublist.slnil
  | cons c rest ih =>
    intro before
    rw [toLowerCaseFrom, List.filter_append]
    by_cases h : isAsciiAlnum c = true
    · obtain ⟨h1, h2⟩ := asciiAlnum_lower c h
      rw [List.filter_cons, if_pos h, List.map_cons, if_pos h1]
      simp only [List.filter_cons, h2, if_true, List.filter_nil, List.singleton_append]
      exact (ih _).cons₂ _
    · rw [List.filter_cons, if_neg h]
      exact (ih _).trans (List.sublist_append_right _ _)

/-- The result of the four steps on any string. -/
theorem sanitize_shape (u : List Nat → Nat → List Nat → List Nat) (s : JSString) :
    (∀ c ∈ stripDashEnds (collapseDashes (replaceUnsafe (toLowerCase u s))),
        isSafeUnit c = true)
      ∧ NoDoubleDash (stripDashEnds (collapseDashes (replaceUnsafe (toLowerCase u s))))
      ∧ (stripDashEnds (collapseDashes (replaceUnsafe (toLowerCase u s)))).head? ≠ some 45
      ∧ (stripDashEnds (collapseDashes (replaceUnsafe (toLowerCase u s)))).getLast? ≠ some 45
      ∧ List.Sublist ((s.filter isAsciiAlnum).map asciiLower)
          (stripDashEnds (collapseDashes (replaceUnsafe (toLowerCase u s)))) := by
  have hcd := collapseDashes_noDoubleDash (replaceUnsafe (toLowerCase u s))
  refine ⟨?_, ?_, stripDashEnds_head _ hcd, stripDashEnds_getLast _ hcd, ?_⟩
  · intro c hc
    exact replaceUnsafe_safe _ c
      ((collapseDashes_sublist _).subset ((stripDashEnds_segment _).subset hc))
  · exact List.Chain'.infix hcd (stripDashEnds_segment _)
  · have h1 := toLowerCaseFrom_sublist u s []
    rw [← replaceUnsafe_filter, ← collapseDashes_filter, ← stripDashEnds_filter] at h1
    exact h1.trans (List.filter_sublist _)

/-- C6, the failing input: a string of characters outside `[a-z0-9-]` only is
a non-empty string, so the guard on `name` lets it through; the four steps
leave the empty string and no fallback is applied to it. -/
theorem generateSafeFilename_unsafe_only (u : List Nat → Nat → List Nat → List Nat) :
    generateSafeFilename u (.str (lit "###")) (some (lit "42")) = []
      ∧ lit "42" ≠ [] := by
  constructor
  · rfl
  · decide

/-- C7: when `name` is the empty string, `null`, absent or not a string,
`generateSafeFilename` returns exactly the fallback, and `"unknown"` when no
fallback is given. -/
theorem generateSafeFilename_fallback (u : List Nat → Nat → List Nat → List Nat)
    (fallback : JSString) :
    generateSafeFilename u (.str []) (some fallback) = fallback
      ∧ generateSafeFilename u .null (some fallback) = fallback
      ∧ generateSafeFilename u .undefined (some fallback) = fallback
      ∧ (∀ n : Int, generateSafeFilename u (.num n) (some fallback) = fallback)
      ∧ (∀ b : Bool, generateSafeFilename u (.bool b) (some fallback) = fallback)
      ∧ generateSafeFilename u (.str []) none = lit "unknown"
      ∧ generateSafeFilename u .null none = lit "unknown"
      ∧ generateSafeFilename u .undefined none = lit "unknown"
      ∧ (∀ n : Int, generateSafeFilename u (.num n) none = lit "unknown")
      ∧ (∀ b : Bool, generateSafeFilename u (.bool b) none = lit "unknown") :=
  ⟨rfl, rfl, rfl, fun _ => rfl, fun _ => rfl, rfl, rfl, rfl, fun _ => rfl, fun _ => rfl⟩

/-- C8: for a non-empty string `raw` the result of `generateSafeFilename` has
only characters of `[a-z0-9-]`, no two consecutive `-`, and neither begins nor
ends with `-`; the ASCII letters and digits of `raw`, lower-cased, occur in it
in their original order; and `"USA"` gives `"usa"`. -/
theorem generateSafeFilename_shape (u : List Nat → Nat → List Nat → List Nat)
    (raw : JSString) (fallback : Option JSString) (hne : raw ≠ []) :
    (∀ c ∈ generateSafeFilename u (.str raw) fallback,
        (97 ≤ c ∧ c ≤ 122) ∨ (48 ≤ c ∧ c ≤ 57) ∨ c = 45)
      ∧ (generateSafeFilename u (.str raw) fallback).Chain' (fun a b => ¬ (a = 45 ∧ b = 45))
      ∧ (generateSafeFilename u (.str raw) fallback).head? ≠ some 45
      ∧ (generateSafeFilename u (.str raw) fallback).getLast? ≠ some 45
      ∧ List.Sublist ((raw.filter isAsciiAlnum).map asciiLower)
          (generateSafeFilename u (.str raw) fallback)
      ∧ generateSafeFilename u (.str (lit "USA")) fallback = lit "usa" := by
  cases raw with
  | nil => exact absurd rfl hne
  | cons c cs =>
    obtain ⟨h1, h2, h3, h4, h5⟩ := sanitize_shape u (c :: cs)
    refine ⟨?_, h2, h3, h4, h5, rfl⟩
    intro x hx
    have := h1 x hx
    simp only [isSafeUnit, isLowerAlnum, Bool.or_eq_true, Bool.and_eq_true,
      decide_eq_true_eq, beq_iff_eq] at this
    omega

/-- The shape of the result on `"New York"`, which gives `"new-york"`. -/
theorem generateSafeFilename_shape_witness :
    lit "New York" ≠ []
      ∧ generateSafeFilename noCaseTables (.str (lit "New York")) none = lit "new-york"
      ∧ (generateSafeFilename noCaseTables (.str (lit "New York")) none).head? ≠ some 45
      ∧ List.Sublist (((lit "New York").filter isAsciiAlnum).map asciiLower)
          (generateSafeFilename noCaseTables (.str (lit "New York")) none) :=
  ⟨by decide, by decide,
    (generateSafeFilename_shape noCaseTables (lit "New York") none (by decide)).2.2.1,
    (generateSafeFilename_shape noCaseTables (lit "New York") none (by decide)).2.2.2.2.1⟩

end BaseGenerator

/-! ## Timezone paths and sorted groups of states -/

namespace StatesGenerator

theorem timezoneIndex_mem (localeLe : JSString → JSString → Bool) (states : List State)
    (ipath : JSString) (idx : List IndexEntry) (imeta : IndexMeta)
    (h : (ipath, Document.index idx imeta) ∈ generateStatesByTimezone localeLe states)
    (e : IndexEntry) (he : e ∈ idx) :
    e.endpoint = lit "states/timezone/" ++ sanitizeTimezone e.key ++ lit ".json"
      ∧ ∃ g : List State,
          (e.key, g) ∈ (objectEntries (DataUtils.groupBy (fun s => s.timezone.key)
              (states.filter (fun s => s.timezone.truthy)))).filter
            (fun x => !skippedKey x.1) := by
  simp only [generateStatesByTimezone, List.mem_append, List.mem_map, List.mem_singleton] at h
  rcases h with ⟨x, _, hx⟩ | h
  · simp [processStatesByTimezone] at hx
  · simp only [generateStateTimezonesIndex, Prod.mk.injEq, Document.index.injEq] at h
    obtain ⟨_, hidx, _⟩ := h
    rw [hidx, List.mem_insertionSort, List.mem_map] at he
    obtain ⟨k, hk, rfl⟩ := he
    refine ⟨rfl, ?_⟩
    rw [List.mem_filter, List.mem_map] at hk
    obtain ⟨⟨x, hx, rfl⟩, hskip⟩ := hk
    exact ⟨x.2, List.mem_filter.mpr ⟨hx, hskip⟩⟩

/-- C9: the path segment of a timezone has the length of the timezone and
holds, at each position, the character of the timezone when it is an ASCII
letter or digit (case unchanged) and `-` otherwise, so `"Asia/Kabul"` gives
`"Asia-Kabul"`; the groups of states and of cities are written to
`states/timezone/{segment}.json` and `cities/timezone/{segment}.json`; and the
endpoint of every entry of `states/timezones.json` is the path to which the
group of its timezone was written. -/
theorem timezone_segment (localeLe : JSString → JSString → Bool) (tz : JSString)
    (states : List State) (cities : List City) :
    (sanitizeTimezone tz).length = tz.length
      ∧ (∀ i : Nat, (sanitizeTimezone tz)[i]? = (tz[i]?).map
          (fun c => if (65 ≤ c ∧ c ≤ 90) ∨ (97 ≤ c ∧ c ≤ 122) ∨ (48 ≤ c ∧ c ≤ 57)
            then c else 45))
      ∧ sanitizeTimezone (lit "Asia/Kabul") = lit "Asia-Kabul"
      ∧ (∀ (path : JSString) (data : List StateOfTimezone) (m : GroupMeta),
          (path, Document.byTimezone data m) ∈ generateStatesByTimezone localeLe states →
            path = lit "states/timezone/" ++ sanitizeTimezone m.key ++ lit ".json")
      ∧ (∀ (path : JSString) (data : List CitiesGenerator.CityOfTimezone)
          (m : CitiesGenerator.TimezoneMeta),
          (path, data, m) ∈ CitiesGenerator.generateCitiesByTimezone cities →
            path = lit "cities/timezone/" ++ sanitizeTimezone m.timezone ++ lit ".json")
      ∧ (∀ (ipath : JSString) (idx : List IndexEntry) (imeta : IndexMeta) (e : IndexEntry),
          (ipath, Document.index idx imeta) ∈ generateStatesByTimezone localeLe states →
          e ∈ idx →
            e.endpoint = lit "states/timezone/" ++ sanitizeTimezone e.key ++ lit ".json"
              ∧ ∃ (data : List StateOfTimezone) (m : GroupMeta),
                  (e.endpoint, Document.byTimezone data m)
                    ∈ generateStatesByTimezone localeLe states ∧ m.key = e.key) := by
  refine ⟨?_, ?_, by decide, ?_, ?_, ?_⟩
  · simp [sanitizeTimezone]
  · intro i
    simp only [sanitizeTimezone, List.getElem?_map]
    congr 1
    funext c
    simp only [isAsciiAlnum, isLowerAlnum, Bool.or_eq_true, Bool.and_eq_true,
      decide_eq_true_eq]
  · intro path data m h
    simp only [generateStatesByTimezone, List.mem_append, List.mem_map,
      List.mem_singleton] at h
    rcases h with ⟨x, _, hx⟩ | h
    · simp only [processStatesByTimezone, Prod.mk.injEq, Document.byTimezone.injEq] at hx
      obtain ⟨hp, _, hm⟩ := hx
      rw [← hp, ← hm]
    · simp [generateStateTimezonesIndex] at h
  · intro path data m h
    simp only [CitiesGenerator.generateCitiesByTimezone] at h
    split at h
    · simp only [List.mem_map, Prod.mk.injEq] at h
      obtain ⟨x, _, hp, _, hm⟩ := h
      rw [← hp, ← hm]
    · cases h
  · intro ipath idx imeta e h he
    obtain ⟨hend, g, hg⟩ := timezoneIndex_mem localeLe states ipath idx imeta h e he
    refine ⟨hend, (DataUtils.sortBy strLe State.name g).map ofTimezone,
      { type := lit "states_by_timezone",
        count := ((DataUtils.sortBy strLe State.name g).map ofTimezone).length,
        api_version := API_VERSION,
        key := e.key,
        total_states := (DataUtils.sortBy strLe State.name g).length }, ?_, rfl⟩
    rw [hend]
    simp only [generateStatesByTimezone, List.mem_append, List.mem_map]
    exact Or.inl ⟨(e.key, g), hg, rfl⟩

theorem groupBy_entry {α : Type} (key : α → JSString) (data : List α)
    (e : JSString × List α) (he : e ∈ objectEntries (DataUtils.groupBy key data)) :
    e.2 = data.filter (fun y => decide (key y = e.1)) ∧ e.2 ≠ [] :=
  (groupBy_spec key data).2.1 e ((mem_objectEntries _ e).mp he)

/-- The sorted groups: when every country id is below 10^21 in absolute value,
so that the key of its group parses back to it, the data list of every group
document (by country, by type, by timezone) is ascending in the name in
code-unit order, is a permutation of the projections of exactly the states of
the group, and keeps records with equal names in input order. The group of a
by-country document is the states with the `country_id` of its `meta`, that of
a by-type document the states whose type has the key of its `meta`, that of a
by-timezone document the states with a non-empty timezone equal to the key of
its `meta`. -/
theorem state_groups_sorted (u : List Nat → Nat → List Nat → List Nat)
    (localeLe : JSString → JSString → Bool) (states : List State)
    (countries : List Country)
    (hrange : ∀ s ∈ states, s.country_id.natAbs < 1000000000000000000000) :
    (∀ (path : JSString) (data : List StateListItem) (m : CountryMeta),
        (path, Document.byCountry data m) ∈ generateStatesByCountry u states countries →
          SortedGroup listItem StateListItem.name
            (states.filter (fun s => decide (s.country_id = m.country_id))) data)
      ∧ (∀ (path : JSString) (data : List StateOfType) (m : GroupMeta),
          (path, Document.byType data m) ∈ generateStatesByType u states →
            SortedGroup ofType StateOfType.name
              (states.filter (fun s => decide (s.type.key = m.key))) data)
      ∧ (∀ (path : JSString) (data : List StateOfTimezone) (m : GroupMeta),
          (path, Document.byTimezone data m) ∈ generateStatesByTimezone localeLe states →
            SortedGroup ofTimezone StateOfTimezone.name
              ((states.filter (fun s => s.timezone.truthy)).filter
                (fun s => decide (s.timezone.key = m.key))) data) := by
  refine ⟨?_, ?_, ?_⟩
  · intro path data m h
    simp only [generateStatesByCountry, List.mem_filterMap] at h
    obtain ⟨e, he, hw⟩ := h
    obtain ⟨hg, hne⟩ := groupBy_entry _ _ e he
    obtain ⟨s0, hs0⟩ := List.exists_mem_of_ne_nil _ hne
    rw [hg, List.mem_filter] at hs0
    have hkey : e.1 = numberToString s0.country_id := by
      have := hs0.2
      simp only [decide_eq_true_eq] at this
      exact this.symm
    rw [hkey, parseInt_numberToString _ (hrange s0 hs0.1), Option.some_bind] at hw
    split at hw
    · rename_i country hc
      obtain ⟨hid, _⟩ := mapGet_some Country.id countries _ country hc
      split at hw
      · cases hgs : e.2 with
        | nil => exact absurd hgs hne
        | cons first rest =>
          rw [hgs] at hw
          simp only [processCountryStates, Option.some.injEq, Prod.mk.injEq,
            Document.byCountry.injEq] at hw
          obtain ⟨_, hdata, hm⟩ := hw
          have hcid : m.country_id = s0.country_id := by
            rw [← hm]
            exact hid
          have hgroup : states.filter (fun s => decide (s.country_id = m.country_id))
              = first :: rest := by
            rw [← hgs, hg, hkey, hcid]
            apply List.filter_congr
            intro s _
            by_cases hs : s.country_id = s0.country_id
            · simp [hs]
            · have : numberToString s.country_id ≠ numberToString s0.country_id :=
                fun h2 => hs (numberToString_injective _ _ h2)
              simp [hs, this]
          rw [hgroup, ← hdata]
          exact sortedGroup_sortBy listItem StateListItem.name State.name (fun _ => rfl) _
      · cases hw
    · cases hw
  · intro path data m h
    simp only [generateStatesByType, List.mem_append, List.mem_map, List.mem_singleton] at h
    rcases h with ⟨e, he, hw⟩ | h
    · simp only [processStatesByType, Prod.mk.injEq, Document.byType.injEq] at hw
      obtain ⟨_, hdata, hm⟩ := hw
      obtain ⟨hg, _⟩ := groupBy_entry _ _ e (List.mem_filter.mp he).1
      have hk : m.key = e.1 := by rw [← hm]
      rw [hk, ← hg, ← hdata]
      exact sortedGroup_sortBy ofType StateOfType.name State.name (fun _ => rfl) _
    · simp [generateStateTypesIndex] at h
  · intro path data m h
    simp only [generateStatesByTimezone, List.mem_append, List.mem_map,
      List.mem_singleton] at h
    rcases h with ⟨e, he, hw⟩ | h
    · simp only [processStatesByTimezone, Prod.mk.injEq, Document.byTimezone.injEq] at hw
      obtain ⟨_, hdata, hm⟩ := hw
      obtain ⟨hg, _⟩ := groupBy_entry _ _ e (List.mem_filter.mp he).1
      have hk : m.key = e.1 := by rw [← hm]
      rw [hk, ← hg, ← hdata]
      exact sortedGroup_sortBy ofTimezone StateOfTimezone.name State.name (fun _ => rfl) _
    · simp [generateStateTimezonesIndex] at h

/-- The timezone paths on two states of the timezone `"Asia/Kabul"`: the group
is written to `states/timezone/Asia-Kabul.json`, which the index lists. -/
theorem timezone_segment_witness :
    (lit "states/timezones.json",
        Document.index
          [{ key := lit "Asia/Kabul", state_count := 2, country_count := 1,
             endpoint := lit "states/timezone/Asia-Kabul.json" }]
          { type := lit "state_timezones_index", count := 1, api_version := API_VERSION })
        ∈ generateStatesByTimezone strLe [exampleProv, exampleArea]
      ∧ ∃ (data : List StateOfTimezone) (m : GroupMeta),
          (lit "states/timezone/Asia-Kabul.json", Document.byTimezone data m)
            ∈ generateStatesByTimezone strLe [exampleProv, exampleArea]
          ∧ m.key = lit "Asia/Kabul" :=
  have hmem : (lit "states/timezones.json",
      Document.index
        [{ key := lit "Asia/Kabul", state_count := 2, country_count := 1,
           endpoint := lit "states/timezone/Asia-Kabul.json" }]
        { type := lit "state_timezones_index", count := 1, api_version := API_VERSION })
      ∈ generateStatesByTimezone strLe [exampleProv, exampleArea] := by decide
  ⟨hmem,
    ((timezone_segment strLe [] [exampleProv, exampleArea] []).2.2.2.2.2 _ _ _
      { key := lit "Asia/Kabul", state_count := 2, country_count := 1,
        endpoint := lit "states/timezone/Asia-Kabul.json" } hmem
      (List.mem_singleton.mpr rfl)).2⟩

/-- The sorted groups on the states `"Prov"` and `"Area"` of one country, one
type and one timezone: each group document lists `"Area"` before `"Prov"`. -/
theorem state_groups_sorted_witness :
    (lit "states/type/province.json",
        Document.byType [ofType exampleArea, ofType exampleProv]
          { type := lit "province", count := 2, api_version := API_VERSION,
            key := lit "province", total_states := 2 })
        ∈ generateStatesByType noCaseTables [exampleProv, exampleArea]
      ∧ SortedGroup ofType StateOfType.name
          ([exampleProv, exampleArea].filter (fun s => decide (s.type.key = lit "province")))
          [ofType exampleArea, ofType exampleProv] :=
  have hmem : (lit "states/type/province.json",
      Document.byType [ofType exampleArea, ofType exampleProv]
        { type := lit "province", count := 2, api_version := API_VERSION,
          key := lit "province", total_states := 2 })
      ∈ generateStatesByType noCaseTables [exampleProv, exampleArea] := by decide
  ⟨hmem,
    (state_groups_sorted noCaseTables strLe [exampleProv, exampleArea] []
      (by decide)).2.1 _ _ _ hmem⟩

/-! ## Completeness of the by-type groups -/

theorem type_key_eq (x : State) (t : JSString) (hu : t ≠ lit "undefined")
    (hn : t ≠ lit "null") : x.type.key = t ↔ x.type = Field.str t := by
  cases hx : x.type with
  | undefined =>
    simp only [Field.key]
    constructor
    · intro h
      exact absurd h.symm hu
    · intro h
      cases h
  | null =>
    simp only [Field.key]
    constructor
    · intro h
      exact absurd h.symm hn
    · intro h
      cases h
  | str a =>
    simp only [Field.key, Field.str.injEq]

theorem skippedKey_false (t : JSString) (hne : t ≠ []) (hu : t ≠ lit "undefined")
    (hn : t ≠ lit "null") : skippedKey t = false := by
  simp only [skippedKey, Bool.or_eq_false_iff, beq_eq_false_iff_ne, ne_eq]
  exact ⟨⟨hne, hu⟩, hn⟩

/-- C11, as stated, fails: a state whose type is the string `"null"` (not
empty, not `"undefined"`) is skipped: no by-type document is emitted and the
types index is empty. -/
theorem generateStatesByType_skips_null_string :
    generateStatesByType noCaseTables [{ exampleState with type := Field.str (lit "null") }]
      = [(lit "states/types.json",
          Document.index []
            { type := lit "state_types_index", count := 0, api_version := API_VERSION })] := by
  decide

/-- C11, amended: a state whose type is a non-empty string other than
`"undefined"` and `"null"` lies in exactly one emitted by-type group, the one
of its type: exactly one by-type document names its type, it is written to the
path of that type, it holds the projections of exactly the input states of
that type, and its `meta.count` and `meta.total_states`, and the `state_count`
of the one entry of the type in `states/types.json`, are the number of input
states sharing the type. -/
theorem generateStatesByType_complete (u : List Nat → Nat → List Nat → List Nat)
    (states : List State) (s : State) (t : JSString) (hs : s ∈ states)
    (ht : s.type = Field.str t) (hne : t ≠ []) (hu : t ≠ lit "undefined")
    (hn : t ≠ lit "null") :
    ∃ (data : List StateOfType) (m : GroupMeta) (idx : List IndexEntry) (im : IndexMeta)
      (e : IndexEntry),
      (generateStatesByType u states).filter (fun w => decide (w.2.typeKey = some t))
          = [(lit "states/type/" ++ BaseGenerator.generateSafeFilename u (.str t) none
                ++ lit ".json", Document.byType data m)]
        ∧ m.key = t
        ∧ ofType s ∈ data
        ∧ data.Perm ((states.filter (fun x => decide (x.type = Field.str t))).map ofType)
        ∧ m.count = (states.filter (fun x => decide (x.type = Field.str t))).length
        ∧ m.total_states = (states.filter (fun x => decide (x.type = Field.str t))).length
        ∧ (lit "states/types.json", Document.index idx im) ∈ generateStatesByType u states
        ∧ idx.filter (fun e => decide (e.key = t)) = [e]
        ∧ e.state_count = (states.filter (fun x => decide (x.type = Field.str t))).length := by
  have hkey : s.type.key = t := (type_key_eq s t hu hn).mpr ht
  have hfilter : states.filter (fun x => decide (x.type.key = t))
      = states.filter (fun x => decide (x.type = Field.str t)) := by
    apply List.filter_congr
    intro x _
    simp only [type_key_eq x t hu hn]
  have hskip := skippedKey_false t hne hu hn
  have hmem0 := groupBy_mem_of_key (fun x : State => x.type.key) states s hs
  simp only [hkey] at hmem0
  rw [hfilter] at hmem0
  have hkeys := (groupBy_spec (fun x : State => x.type.key) states).1
  have hnd := objectEntries_groupBy_nodup (fun x : State => x.type.key) states
  have hmem : (t, states.filter (fun x => decide (x.type = Field.str t)))
      ∈ (objectEntries (DataUtils.groupBy (fun x : State => x.type.key) states)).filter
          (fun e => !skippedKey e.1) :=
    List.mem_filter.mpr ⟨(mem_objectEntries _ _).mpr hmem0, by simp [hskip]⟩
  have hsorted := sortBy_perm strLe State.name
    (states.filter (fun x => decide (x.type = Field.str t)))
  obtain ⟨idx, im, hG, hidxdef⟩ : ∃ (idx : List IndexEntry) (im : IndexMeta),
      generateStateTypesIndex u (DataUtils.groupBy (fun x : State => x.type.key) states)
        = (lit "states/types.json", Document.index idx im)
      ∧ idx = ((((objectEntries (DataUtils.groupBy (fun x : State => x.type.key) states)).map
          (fun e => e.1)).filter (fun k => !skippedKey k)).map
        (fun type =>
          ({ key := type
             state_count := ((getProperty (DataUtils.groupBy (fun x : State => x.type.key)
               states) type).getD []).length
             country_count := countryCount ((getProperty
               (DataUtils.groupBy (fun x : State => x.type.key) states) type).getD [])
             endpoint := lit "states/type/"
               ++ BaseGenerator.generateSafeFilename u (.str type) none ++ lit ".json" }
            : IndexEntry))).insertionSort (fun a b => b.state_count ≤ a.state_count) :=
    ⟨_, _, rfl, rfl⟩
  refine ⟨(DataUtils.sortBy strLe State.name
      (states.filter (fun x => decide (x.type = Field.str t)))).map ofType,
    { type := t
      count := ((DataUtils.sortBy strLe State.name
        (states.filter (fun x => decide (x.type = Field.str t)))).map ofType).length
      api_version := API_VERSION
      key := t
      total_states := (DataUtils.sortBy strLe State.name
        (states.filter (fun x => decide (x.type = Field.str t)))).length }, idx, im,
    { key := t
      state_count := (states.filter (fun x => decide (x.type = Field.str t))).length
      country_count := countryCount (states.filter (fun x => decide (x.type = Field.str t)))
      endpoint := lit "states/type/" ++ BaseGenerator.generateSafeFilename u (.str t) none
        ++ lit ".json" },
    ?_, rfl, ?_, hsorted.map ofType, ?_, ?_, ?_, ?_, rfl⟩
  · simp only [generateStatesByType, List.filter_append]
    have hidx : List.filter (fun w : JSString × Document => decide (w.2.typeKey = some t))
        [generateStateTypesIndex u (DataUtils.groupBy (fun s => s.type.key) states)] = [] := by
      rw [hG]
      simp [Document.typeKey]
    rw [hidx, List.append_nil]
    exact filter_map_unique (fun e : JSString × List State => processStatesByType u e.1 e.2)
      (fun w : JSString × Document => decide (w.2.typeKey = some t))
      (t, states.filter (fun x => decide (x.type = Field.str t))) _
      ((nodup_of_nodup_keys _ hnd).sublist (List.filter_sublist _)) hmem
      (by simp [processStatesByType, Document.typeKey])
      (fun b hb hba => by
        have hbk : b.1 ≠ t := by
          intro h
          exact hba (eq_of_key_eq _ hnd b _ (List.mem_filter.mp hb).1
            (List.mem_filter.mp hmem).1 h)
        simp [processStatesByType, Document.typeKey, hbk])
  · exact List.mem_map_of_mem _
      (hsorted.mem_iff.mpr (List.mem_filter.mpr ⟨hs, by simp [ht]⟩))
  · simp only [List.length_map, sortBy_length]
  · simp only [sortBy_length]
  · simp only [generateStatesByType, List.mem_append, List.mem_singleton]
    exact Or.inr hG.symm
  · have hone := filter_map_unique
      (fun type =>
        ({ key := type
           state_count := ((getProperty (DataUtils.groupBy (fun x : State => x.type.key)
             states) type).getD []).length
           country_count := countryCount ((getProperty
             (DataUtils.groupBy (fun x : State => x.type.key) states) type).getD [])
           endpoint := lit "states/type/"
             ++ BaseGenerator.generateSafeFilename u (.str type) none ++ lit ".json" }
          : IndexEntry))
      (fun e => decide (e.key = t)) t
      (((objectEntries (DataUtils.groupBy (fun x : State => x.type.key) states)).map
          (fun e => e.1)).filter (fun k => !skippedKey k))
      (hnd.sublist (List.filter_sublist _))
      (List.mem_filter.mpr ⟨List.mem_map_of_mem Prod.fst (List.mem_filter.mp hmem).1,
        by simp [hskip]⟩)
      (by simp)
      (fun b _ hb => by simp [hb])
    have hprop := getProperty_of_mem _ t _ hkeys hmem0
    simp only [hprop, Option.getD_some] at hone
    have hperm := (List.perm_insertionSort
      (fun a b : IndexEntry => b.state_count ≤ a.state_count)
      ((((objectEntries (DataUtils.groupBy (fun x : State => x.type.key) states)).map
          (fun e => e.1)).filter (fun k => !skippedKey k)).map
        (fun type =>
          ({ key := type
             state_count := ((getProperty (DataUtils.groupBy (fun x : State => x.type.key)
               states) type).getD []).length
             country_count := countryCount ((getProperty
               (DataUtils.groupBy (fun x : State => x.type.key) states) type).getD [])
             endpoint := lit "states/type/"
               ++ BaseGenerator.generateSafeFilename u (.str type) none ++ lit ".json" }
            : IndexEntry)))).filter (fun e => decide (e.key = t))
    rw [← hidxdef, hone] at hperm
    exact List.perm_singleton.mp hperm

/-- The completeness of the by-type groups on the example state, of type
`"province"`. -/
theorem generateStatesByType_complete_witness :
    exampleState ∈ [exampleState] ∧ exampleState.type = Field.str (lit "province")
      ∧ lit "province" ≠ [] ∧ lit "province" ≠ lit "undefined" ∧ lit "province" ≠ lit "null"
      ∧ ∃ (data : List StateOfType) (m : GroupMeta) (idx : List IndexEntry) (im : IndexMeta)
          (e : IndexEntry),
          (generateStatesByType noCaseTables [exampleState]).filter
              (fun w => decide (w.2.typeKey = some (lit "province")))
              = [(lit "states/type/"
                    ++ BaseGenerator.generateSafeFilename noCaseTables (.str (lit "province")) none
                    ++ lit ".json", Document.byType data m)]
            ∧ m.key = lit "province"
            ∧ ofType exampleState ∈ data
            ∧ data.Perm (([exampleState].filter
                (fun x => decide (x.type = Field.str (lit "province")))).map ofType)
            ∧ m.count = ([exampleState].filter
                (fun x => decide (x.type = Field.str (lit "province")))).length
            ∧ m.total_states = ([exampleState].filter
                (fun x => decide (x.type = Field.str (lit "province")))).length
            ∧ (lit "states/types.json", Document.index idx im)
                ∈ generateStatesByType noCaseTables [exampleState]
            ∧ idx.filter (fun e => decide (e.key = lit "province")) = [e]
            ∧ e.state_count = ([exampleState].filter
                (fun x => decide (x.type = Field.str (lit "province")))).length :=
  ⟨by decide, rfl, by decide, by decide, by decide,
    generateStatesByType_complete noCaseTables [exampleState] exampleState (lit "province")
      (by decide) rfl (by decide) (by decide) (by decide)⟩

/-! ## The by-country groups and dangling states -/

/-- A group of the by-country object is the group of the country id of one of
the states. -/
theorem byCountry_entry (states : List State) (e : JSString × List State)
    (he : e ∈ objectEntries (DataUtils.groupBy (fun s => numberToString s.country_id) states)) :
    ∃ y ∈ states, e.1 = numberToString y.country_id
      ∧ e.2 = states.filter (fun x => decide (x.country_id = y.country_id)) ∧ e.2 ≠ [] := by
  obtain ⟨hg, hne⟩ := groupBy_entry _ _ e he
  obtain ⟨y, hy⟩ := List.exists_mem_of_ne_nil _ hne
  rw [hg, List.mem_filter] at hy
  have hkey : e.1 = numberToString y.country_id := by
    have := hy.2
    simp only [decide_eq_true_eq] at this
    exact this.symm
  refine ⟨y, hy.1, hkey, ?_, hne⟩
  rw [hg, hkey]
  apply List.filter_congr
  intro x _
  by_cases hx : x.country_id = y.country_id
  · simp [hx]
  · have : numberToString x.country_id ≠ numberToString y.country_id :=
      fun h2 => hx (numberToString_injective _ _ h2)
    simp [hx, this]

/-- What `processCountryStates` writes for a non-empty group. -/
theorem processCountryStates_some (u : List Nat → Nat → List Nat → List Nat)
    (country : Country) (group : List State) (hne : group ≠ []) :
    ∃ m : CountryMeta, processCountryStates u country group
        = some (lit "states/country/"
            ++ BaseGenerator.generateSafeFilename u country.iso2.toValue
                (some (numberToString country.id)) ++ lit ".json",
          Document.byCountry ((DataUtils.sortBy strLe State.name group).map listItem) m)
      ∧ m.country_id = country.id ∧ m.count = group.length
      ∧ m.total_states = group.length ∧ m.country_name = country.name
      ∧ m.country_iso2 = country.iso2 ∧ m.country_iso3 = country.iso3 := by
  cases group with
  | nil => exact absurd rfl hne
  | cons first rest =>
    refine ⟨_, rfl, rfl, ?_, ?_, rfl, rfl, rfl⟩
    · simp only [List.length_map, sortBy_length]
    · simp only [List.length_map, sortBy_length]

/-- Every by-country write is the write of the group of a state whose country
is in the map and has a truthy `iso2`. -/
theorem generateStatesByCountry_write (u : List Nat → Nat → List Nat → List Nat)
    (states : List State) (countries : List Country)
    (hrange : ∀ x ∈ states, x.country_id.natAbs < 1000000000000000000000)
    (w : JSString × Document)
    (hw : w ∈ generateStatesByCountry u states countries) :
    ∃ y ∈ states, ∃ c : Country,
      mapGet (countries.map (fun c => (c.id, c))) y.country_id = some c
        ∧ c.iso2.truthy = true
        ∧ processCountryStates u c
            (states.filter (fun x => decide (x.country_id = y.country_id))) = some w
        ∧ w.2.countryId = some y.country_id := by
  simp only [generateStatesByCountry, List.mem_filterMap] at hw
  obtain ⟨e, he, hfe⟩ := hw
  obtain ⟨y, hy, hkey, hgroup, hne⟩ := byCountry_entry states e he
  rw [hkey, parseInt_numberToString _ (hrange y hy), Option.some_bind] at hfe
  split at hfe
  · rename_i c hc
    split at hfe
    · rename_i htruthy
      refine ⟨y, hy, c, hc, htruthy, by rw [← hgroup]; exact hfe, ?_⟩
      obtain ⟨m, hm, hid, _⟩ := processCountryStates_some u c e.2 hne
      rw [hm] at hfe
      rw [← Option.some.inj hfe]
      simp only [Document.countryId, hid]
      rw [(mapGet_some Country.id countries _ c hc).1]
    · cases hfe
  · cases hfe

/-- C13, as stated, fails: a state whose `country_id` matches no country is
skipped: `generateStatesByCountry` writes no document at all for it, and the
same holds when its country has no `iso2`. -/
theorem generateStatesByCountry_skips_dangling :
    generateStatesByCountry noCaseTables [exampleState] [] = []
      ∧ generateStatesByCountry noCaseTables [exampleState]
          [{ exampleCountry with iso2 := Field.undefined }] = [] := by
  decide

/-- C13, amended: when every country id of the states is below 10^21 in
absolute value (so that the key of its group parses back to it), a state whose
`country_id` names a country of the map with a non-empty `iso2` lies in exactly
one by-country document, the one of its country: exactly one by-country
document carries its `country_id`, it is written to
`states/country/{sanitized iso2}.json`, holds the list entries of exactly the
states of that country and carries the name and codes of the country; a state
whose `country_id` names no country, or a country without `iso2`, is skipped:
no by-country document carries its `country_id`. -/
theorem generateStatesByCountry_complete (u : List Nat → Nat → List Nat → List Nat)
    (states : List State) (countries : List Country)
    (hrange : ∀ x ∈ states, x.country_id.natAbs < 1000000000000000000000)
    (s : State) (hs : s ∈ states) :
    (∀ c : Country, mapGet (countries.map (fun c => (c.id, c))) s.country_id = some c →
        c.iso2.truthy = true →
        ∃ (data : List StateListItem) (m : CountryMeta),
          (generateStatesByCountry u states countries).filter
              (fun w => decide (w.2.countryId = some s.country_id))
              = [(lit "states/country/"
                    ++ BaseGenerator.generateSafeFilename u c.iso2.toValue
                        (some (numberToString c.id)) ++ lit ".json",
                  Document.byCountry data m)]
            ∧ m.country_id = s.country_id
            ∧ listItem s ∈ data
            ∧ data.Perm ((states.filter
                (fun x => decide (x.country_id = s.country_id))).map listItem)
            ∧ m.count = (states.filter (fun x => decide (x.country_id = s.country_id))).length
            ∧ m.total_states
                = (states.filter (fun x => decide (x.country_id = s.country_id))).length
            ∧ m.country_name = c.name ∧ m.country_iso2 = c.iso2 ∧ m.country_iso3 = c.iso3)
      ∧ ((∀ c : Country, mapGet (countries.map (fun c => (c.id, c))) s.country_id = some c →
            c.iso2.truthy = false) →
          ∀ w ∈ generateStatesByCountry u states countries,
            w.2.countryId ≠ some s.country_id) := by
  constructor
  · intro c hc htruthy
    have hsg : s ∈ states.filter (fun x => decide (x.country_id = s.country_id)) :=
      List.mem_filter.mpr ⟨hs, by simp⟩
    have hne : states.filter (fun x => decide (x.country_id = s.country_id)) ≠ [] :=
      List.ne_nil_of_mem hsg
    obtain ⟨m, hm, hid, hcount, htotal, hname, hiso2, hiso3⟩ :=
      processCountryStates_some u c _ hne
    have hcid : c.id = s.country_id := (mapGet_some Country.id countries _ c hc).1
    have hnd := objectEntries_groupBy_nodup (fun x : State => numberToString x.country_id) states
    have hmem0 := groupBy_mem_of_key (fun x : State => numberToString x.country_id) states s hs
    have hfilter : states.filter
        (fun x => decide (numberToString x.country_id = numberToString s.country_id))
        = states.filter (fun x => decide (x.country_id = s.country_id)) := by
      apply List.filter_congr
      intro x _
      by_cases hx : x.country_id = s.country_id
      · simp [hx]
      · have : numberToString x.country_id ≠ numberToString s.country_id :=
          fun h2 => hx (numberToString_injective _ _ h2)
        simp [hx, this]
    rw [hfilter] at hmem0
    have hmem := (mem_objectEntries _ _).mpr hmem0
    refine ⟨_, m, ?_, by rw [hid, hcid], ?_, (sortBy_perm strLe State.name _).map listItem,
      hcount, htotal, hname, hiso2, hiso3⟩
    · simp only [generateStatesByCountry]
      refine filter_filterMap_unique _ _
        (numberToString s.country_id,
          states.filter (fun x => decide (x.country_id = s.country_id))) _ _
        (nodup_of_nodup_keys _ hnd) hmem ?_ ?_ ?_
      · simp only [parseInt_numberToString _ (hrange s hs), Option.some_bind, hc, htruthy,
          if_true]
        exact hm
      · simp only [Document.countryId, hid, hcid, decide_True]
      · intro b hb hba w2 hfb
        have hbk : b.1 ≠ numberToString s.country_id := fun h =>
          hba (eq_of_key_eq _ hnd b _ hb hmem h)
        obtain ⟨y, hyb, hkey, _, hbne⟩ := byCountry_entry states b hb
        rw [hkey, parseInt_numberToString _ (hrange y hyb), Option.some_bind] at hfb
        have hys : y.country_id ≠ s.country_id := by
          intro h
          exact hbk (by rw [hkey, h])
        split at hfb
        · rename_i c2 hc2
          split at hfb
          · obtain ⟨m2, hm2, hid2, _⟩ := processCountryStates_some u c2 b.2 hbne
            rw [hm2] at hfb
            rw [← Option.some.inj hfb]
            have hc2id := (mapGet_some Country.id countries _ c2 hc2).1
            simp only [Document.countryId, hid2, hc2id, decide_eq_false_iff_not,
              Option.some.injEq]
            exact hys
          · cases hfb
        · cases hfb
    · exact List.mem_map_of_mem _
        ((sortBy_perm strLe State.name _).mem_iff.mpr hsg)
  · intro hno w hw hcontra
    obtain ⟨y, _, c, hc, htruthy, _, hcid⟩ :=
      generateStatesByCountry_write u states countries hrange w hw
    rw [hcid] at hcontra
    have hy : y.country_id = s.country_id := Option.some.inj hcontra
    rw [hy] at hc
    have := hno c hc
    rw [htruthy] at this
    cases this

/-- The by-country groups on the example: the state of country 1 is written to
`states/country/af.json`. -/
theorem generateStatesByCountry_complete_witness :
    (∀ x ∈ [exampleState], x.country_id.natAbs < 1000000000000000000000)
      ∧ exampleState ∈ [exampleState]
      ∧ generateStatesByCountry noCaseTables [exampleState] [exampleCountry]
          = [(lit "states/country/af.json",
              Document.byCountry [listItem exampleState]
                { type := lit "states", count := 1, api_version := API_VERSION,
                  country_id := 1, country_name := Field.str (lit "Afneq"),
                  country_iso2 := Field.str (lit "AF"), country_iso3 := Field.undefined,
                  country_code := Field.undefined, total_states := 1 })]
      ∧ ∃ (data : List StateListItem) (m : CountryMeta),
          (generateStatesByCountry noCaseTables [exampleState] [exampleCountry]).filter
              (fun w => decide (w.2.countryId = some exampleState.country_id))
              = [(lit "states/country/"
                    ++ BaseGenerator.generateSafeFilename noCaseTables exampleCountry.iso2.toValue
                        (some (numberToString exampleCountry.id)) ++ lit ".json",
                  Document.byCountry data m)]
            ∧ m.country_id = exampleState.country_id
            ∧ listItem exampleState ∈ data :=
  ⟨by decide, by decide, by decide,
    match (generateStatesByCountry_complete noCaseTables [exampleState] [exampleCountry]
      (by decide) exampleState (by decide)).1 exampleCountry (by decide) (by decide) with
    | ⟨data, m, h1, h2, h3, _⟩ => ⟨data, m, h1, h2, h3⟩⟩

end StatesGenerator

/-! ## Region groups and region paths -/

namespace CountriesGenerator

theorem skippedRegion_false (k : JSString) (h : (!skippedRegion k) = true) :
    k ≠ [] ∧ k ≠ lit "undefined" := by
  simp only [skippedRegion, Bool.not_eq_true', Bool.or_eq_false_iff, beq_eq_false_iff_ne,
    ne_eq] at h
  exact h

/-- C12, the failing input: a country whose region is `null` is grouped under
the key `"null"`, which the loop does not skip: a group document is written to
`countries/region/null.json` and the regions index lists the region `"null"`.
What the code does keep: no emitted region group and no index entry has the
empty or the `"undefined"` key, and each has the key of the region of some
country. -/
theorem generateCountriesByRegion_null_region :
    generateCountriesByRegion noCaseTables [nullRegionCountry]
        = [(lit "countries/region/null.json",
            Document.byRegion [ofRegion nullRegionCountry]
              { type := lit "countries_by_region", count := 1, api_version := API_VERSION,
                region := lit "null", region_id := JSValue.undefined, total_countries := 1 }),
           (lit "countries/regions.json",
            Document.regionsIndex
              [{ region := lit "null", region_id := JSValue.undefined, country_count := 1,
                 endpoint := lit "countries/region/null.json" }]
              { type := lit "regions_index", count := 1, api_version := API_VERSION })]
      ∧ nullRegionCountry.region = Field.null
      ∧ (∀ (u : List Nat → Nat → List Nat → List Nat) (countries : List Country)
          (path : JSString) (data : List RegionCountry) (m : RegionMeta),
          (path, Document.byRegion data m) ∈ generateCountriesByRegion u countries →
            m.region ≠ [] ∧ m.region ≠ lit "undefined"
              ∧ ∃ c ∈ countries, c.region.key = m.region)
      ∧ (∀ (u : List Nat → Nat → List Nat → List Nat) (countries : List Country)
          (path : JSString) (idx : List RegionEntry) (im : IndexMeta) (e : RegionEntry),
          (path, Document.regionsIndex idx im) ∈ generateCountriesByRegion u countries →
          e ∈ idx →
            e.region ≠ [] ∧ e.region ≠ lit "undefined"
              ∧ ∃ c ∈ countries, c.region.key = e.region) := by
  refine ⟨by decide, rfl, ?_, ?_⟩
  · intro u countries path data m h
    simp only [generateCountriesByRegion, List.mem_append, List.mem_map, List.mem_filter,
      List.mem_singleton, Prod.mk.injEq] at h
    rcases h with ⟨e, ⟨he, hskip⟩, hw⟩ | ⟨_, h⟩
    · simp only [processRegion, Prod.mk.injEq, Document.byRegion.injEq] at hw
      obtain ⟨_, _, hm⟩ := hw
      obtain ⟨hg, hne⟩ := StatesGenerator.groupBy_entry _ _ e he
      obtain ⟨c, hc⟩ := List.exists_mem_of_ne_nil _ hne
      rw [hg, List.mem_filter] at hc
      have hk : m.region = e.1 := by rw [← hm]
      rw [hk]
      exact ⟨(skippedRegion_false e.1 hskip).1, (skippedRegion_false e.1 hskip).2,
        c, hc.1, by simpa using hc.2⟩
    · cases h
  · intro u countries path idx im e h he
    simp only [generateCountriesByRegion, List.mem_append, List.mem_map, List.mem_filter,
      List.mem_singleton, Prod.mk.injEq] at h
    rcases h with ⟨x, _, hw⟩ | ⟨_, h⟩
    · simp [processRegion] at hw
    · simp only [Document.regionsIndex.injEq] at h
      rw [h.1] at he
      simp only [regionsIndex, List.mem_map, List.mem_filter] at he
      obtain ⟨k, ⟨⟨x, hx, hxk⟩, hskip⟩, rfl⟩ := he
      obtain ⟨hg, hne⟩ := StatesGenerator.groupBy_entry _ _ x hx
      obtain ⟨c, hc⟩ := List.exists_mem_of_ne_nil _ hne
      rw [hg, List.mem_filter] at hc
      refine ⟨(skippedRegion_false k hskip).1, (skippedRegion_false k hskip).2, c, hc.1, ?_⟩
      rw [← hxk]
      simpa using hc.2

theorem regionSegment_eq_replaceUnsafe (u : List Nat → Nat → List Nat → List Nat)
    (r : JSString) : regionSegment u r = BaseGenerator.replaceUnsafe (toLowerCase u r) := by
  unfold regionSegment BaseGenerator.replaceUnsafe
  apply List.map_congr_left
  intro c _
  by_cases h : isLowerAlnum c = true
  · simp [isSafeUnit, h]
  · by_cases h45 : c = 45
    · subst h45
      rfl
    · simp [isSafeUnit, h, h45]

/-- C14, as stated, fails: the group of the region `"Asia & Pacific"` is
written to `countries/region/asia---pacific.json`, while the Filename
Sanitizer gives `"asia-pacific"` for that name. -/
theorem region_segment_keeps_dash_runs :
    (generateCountriesByRegion noCaseTables [pacificCountry]).map Prod.fst
        = [lit "countries/region/asia---pacific.json", lit "countries/regions.json"]
      ∧ BaseGenerator.generateSafeFilename noCaseTables (JSValue.str (lit "Asia & Pacific")) none
        = lit "asia-pacific" := by
  decide

/-- C14, amended: the path segment of an emitted region or subregion group is
the name lower-cased with every character outside `[a-z0-9]` replaced by `-`,
that is the first two steps of the Filename Sanitizer; runs of `-` are not
collapsed and `-` at the ends is not stripped, so the Filename Sanitizer
applied to the name is the segment with those two further steps applied. -/
theorem region_segment (u : List Nat → Nat → List Nat → List Nat)
    (countries : List Country) (r : JSString) :
    (∀ (path : JSString) (data : List RegionCountry) (m : RegionMeta),
        (path, Document.byRegion data m) ∈ generateCountriesByRegion u countries →
          path = lit "countries/region/" ++ regionSegment u m.region ++ lit ".json")
      ∧ (∀ (path : JSString) (data : List SubregionCountry) (m : SubregionMeta),
          (path, Document.bySubregion data m) ∈ generateCountriesBySubregion u countries →
            path = lit "countries/subregion/" ++ regionSegment u m.subregion ++ lit ".json")
      ∧ regionSegment u r = (toLowerCase u r).map
          (fun c => if (97 ≤ c ∧ c ≤ 122) ∨ (48 ≤ c ∧ c ≤ 57) then c else 45)
      ∧ (regionSegment u r).length = (toLowerCase u r).length
      ∧ regionSegment u r = BaseGenerator.replaceUnsafe (toLowerCase u r)
      ∧ (r ≠ [] → BaseGenerator.generateSafeFilename u (JSValue.str r) none
          = BaseGenerator.stripDashEnds (BaseGenerator.collapseDashes (regionSegment u r))) := by
  refine ⟨?_, ?_, ?_, ?_, regionSegment_eq_replaceUnsafe u r, ?_⟩
  · intro path data m h
    simp only [generateCountriesByRegion, List.mem_append, List.mem_map, List.mem_singleton,
      Prod.mk.injEq] at h
    rcases h with ⟨e, _, hw⟩ | ⟨_, h⟩
    · simp only [processRegion, Prod.mk.injEq, Document.byRegion.injEq] at hw
      obtain ⟨hp, _, hm⟩ := hw
      rw [← hp, ← hm]
    · cases h
  · intro path data m h
    simp only [generateCountriesBySubregion, List.mem_map] at h
    obtain ⟨e, _, hw⟩ := h
    simp only [processSubregion, Prod.mk.injEq, Document.bySubregion.injEq] at hw
    obtain ⟨hp, _, hm⟩ := hw
    rw [← hp, ← hm]
  · unfold regionSegment
    apply List.map_congr_left
    intro c _
    simp only [isLowerAlnum, Bool.or_eq_true, Bool.and_eq_true, decide_eq_true_eq]
  · simp [regionSegment]
  · intro hne
    cases r with
    | nil => exact absurd rfl hne
    | cons c cs =>
      rw [regionSegment_eq_replaceUnsafe]
      rfl

/-- The region path on the country of the region `"Asia & Pacific"`: the group
is written under the segment `asia---pacific`, from which collapsing and
stripping give `asia-pacific`. -/
theorem region_segment_witness :
    (lit "countries/region/asia---pacific.json",
        Document.byRegion [ofRegion pacificCountry]
          { type := lit "countries_by_region", count := 1, api_version := API_VERSION,
            region := lit "Asia & Pacific", region_id := JSValue.undefined,
            total_countries := 1 })
        ∈ generateCountriesByRegion noCaseTables [pacificCountry]
      ∧ lit "countries/region/asia---pacific.json"
        = lit "countries/region/" ++ regionSegment noCaseTables (lit "Asia & Pacific")
            ++ lit ".json"
      ∧ lit "Asia & Pacific" ≠ []
      ∧ BaseGenerator.generateSafeFilename noCaseTables (JSValue.str (lit "Asia & Pacific")) none
        = BaseGenerator.stripDashEnds (BaseGenerator.collapseDashes
            (regionSegment noCaseTables (lit "Asia & Pacific"))) :=
  have hmem : (lit "countries/region/asia---pacific.json",
      Document.byRegion [ofRegion pacificCountry]
        { type := lit "countries_by_region", count := 1, api_version := API_VERSION,
          region := lit "Asia & Pacific", region_id := JSValue.undefined,
          total_countries := 1 })
      ∈ generateCountriesByRegion noCaseTables [pacificCountry] := by decide
  ⟨hmem,
    (region_segment noCaseTables [pacificCountry] (lit "Asia & Pacific")).1 _ _ _ hmem,
    by decide,
    (region_segment noCaseTables [pacificCountry] (lit "Asia & Pacific")).2.2.2.2.2
      (by decide)⟩

end CountriesGenerator

/-! ## The id index of the constructors -/

theorem mapGet_of_mem {α : Type} (idOf : α → Int) (records : List α)
    (hnd : (records.map idOf).Nodup) (r : α) (hr : r ∈ records) :
    mapGet (records.map (fun x => (idOf x, x))) (idOf r) = some r := by
  have hone := filter_map_unique (fun x => (idOf x, x))
    (fun e : Int × α => e.1 == idOf r) r records (List.Nodup.of_map idOf hnd) hr
    (by simp)
    (fun b hb hba => by
      have : idOf b ≠ idOf r := fun h => hba (List.inj_on_of_nodup_map hnd hb hr h)
      simpa using this)
  unfold mapGet
  rw [hone]
  rfl

theorem mapGet_of_not_mem {α : Type} (idOf : α → Int) (records : List α) (k : Int)
    (hk : ∀ r ∈ records, idOf r ≠ k) :
    mapGet (records.map (fun x => (idOf x, x))) k = none := by
  have hnil : (records.map (fun x => (idOf x, x))).filter (fun e => e.1 == k) = [] := by
    rw [List.filter_eq_nil_iff]
    intro e he
    obtain ⟨x, hx, rfl⟩ := List.mem_map.mp he
    simpa using hk x hx
  unfold mapGet
  rw [hnil]
  rfl

/-- C20: for states and for countries with pairwise distinct ids, the id index
of the constructors (`new Map(records.map((r) => [r.id, r]))`) returns, for
the id of each record of the list, that record, and returns `undefined`
(`none`), raising no error, for every id that no record carries. -/
theorem id_index_lookup (states : List State) (countries : List Country)
    (hs : (states.map State.id).Nodup) (hc : (countries.map Country.id).Nodup) :
    (∀ s ∈ states, mapGet (states.map (fun s => (s.id, s))) s.id = some s)
      ∧ (∀ k : Int, (∀ s ∈ states, s.id ≠ k) →
          mapGet (states.map (fun s => (s.id, s))) k = none)
      ∧ (∀ c ∈ countries, mapGet (countries.map (fun c => (c.id, c))) c.id = some c)
      ∧ (∀ k : Int, (∀ c ∈ countries, c.id ≠ k) →
          mapGet (countries.map (fun c => (c.id, c))) k = none) :=
  ⟨fun s h => mapGet_of_mem State.id states hs s h,
    fun k h => mapGet_of_not_mem State.id states k h,
    fun c h => mapGet_of_mem Country.id countries hc c h,
    fun k h => mapGet_of_not_mem Country.id countries k h⟩

/-- The id index on the two example states and the example country: id 11
gives the state `"Area"`, id 99 gives nothing. -/
theorem id_index_lookup_witness :
    ([exampleState, exampleArea].map State.id).Nodup
      ∧ ([exampleCountry].map Country.id).Nodup
      ∧ mapGet ([exampleState, exampleArea].map (fun s => (s.id, s))) 11 = some exampleArea
      ∧ mapGet ([exampleState, exampleArea].map (fun s => (s.id, s))) 99 = none
      ∧ mapGet ([exampleCountry].map (fun c => (c.id, c))) 1 = some exampleCountry :=
  ⟨by decide, by decide,
    (id_index_lookup [exampleState, exampleArea] [exampleCountry] (by decide) (by decide)).1
      exampleArea (by decide),
    (id_index_lookup [exampleState, exampleArea] [exampleCountry] (by decide)
      (by decide)).2.1 99 (by decide),
    (id_index_lookup [exampleState, exampleArea] [exampleCountry] (by decide)
      (by decide)).2.2.1 exampleCountry (by decide)⟩

/-! ## The envelope -/

theorem getProperty_setProperty_same {β : Type} (obj : List (JSString × β)) (k : JSString)
    (v : β) : getProperty (setProperty obj k v) k = some v := by
  induction obj with
  | nil => simp [setProperty, getProperty]
  | cons e rest ih =>
    obtain ⟨k1, v1⟩ := e
    by_cases h : k1 = k
    · simp [setProperty, getProperty, h]
    · simp [setProperty, getProperty, h, ih]

theorem getProperty_setProperty_ne {β : Type} (obj : List (JSString × β)) (k k2 : JSString)
    (v : β) (hne : k2 ≠ k) : getProperty (setProperty obj k v) k2 = getProperty obj k2 := by
  induction obj with
  | nil => simp [setProperty, getProperty, hne.symm]
  | cons e rest ih =>
    obtain ⟨k1, v1⟩ := e
    by_cases h : k1 = k
    · subst h
      simp [setProperty, getProperty, hne.symm]
    · by_cases h2 : k1 = k2
      · subst h2
        simp [setProperty, getProperty, h]
      · simp [setProperty, getProperty, h, h2, ih]

/-- A key that the spread object does not carry keeps its value. -/
theorem getProperty_spread_other {β : Type} : ∀ (extra base : List (JSString × β))
    (k : JSString), k ∉ extra.map Prod.fst →
      getProperty (extra.foldl (fun m e => setProperty m e.1 e.2) base) k
        = getProperty base k := by
  intro extra
  induction extra with
  | nil => intro base k _; rfl
  | cons e t ih =>
    intro base k hk
    rw [List.map_cons, List.mem_cons, not_or] at hk
    rw [List.foldl_cons, ih _ k hk.2]
    exact getProperty_setProperty_ne base e.1 k e.2 hk.1

/-- A key of the spread object takes the value it has there. -/
theorem getProperty_spread_mem {β : Type} : ∀ (extra base : List (JSString × β))
    (k : JSString) (v : β), (extra.map Prod.fst).Nodup → (k, v) ∈ extra →
      getProperty (extra.foldl (fun m e => setProperty m e.1 e.2) base) k = some v := by
  intro extra
  induction extra with
  | nil => intro base k v _ h; cases h
  | cons e t ih =>
    intro base k v hnd h
    rw [List.map_cons, List.nodup_cons] at hnd
    rw [List.foldl_cons]
    rcases List.mem_cons.mp h with h1 | h1
    · subst h1
      rw [getProperty_spread_other t _ k hnd.1]
      exact getProperty_setProperty_same base k v
    · exact ih _ k v hnd.2 h1

/-- C15, as stated, fails: with the extra field `type: "province"`, as
`processStatesByType` passes it, the `meta.type` of the envelope is
`"province"` and not the type string `"states_by_type"`. -/
theorem addMetadata_extra_replaces_type :
    (DataUtils.addMetadata (lit "2024-01-01T00:00:00.000Z") (Json.arr []) (lit "states_by_type")
        [(lit "type", Json.str (lit "province"))]).metaGet (lit "type")
        = some (Json.str (lit "province"))
      ∧ lit "province" ≠ lit "states_by_type" :=
  ⟨rfl, by decide⟩

/-- C15, amended: the envelope of `addMetadata(data, t, e)` has the payload as
its `data`, and its `meta` has every key of `e` with the value it has in `e`;
of the standard fields, `type = t`, `count` = the length of `data` when it is
an array and 1 otherwise, and `api_version` = the configured version hold for
each of these keys that `e` does not carry (a key of `e` replaces the standard
field of the same name). -/
theorem addMetadata_envelope (now : JSString) (data : Json) (t : JSString)
    (e : List (JSString × Json)) (hnd : (e.map Prod.fst).Nodup) :
    (DataUtils.addMetadata now data t e).get (lit "data") = some data
      ∧ (∀ (k : JSString) (v : Json), (k, v) ∈ e →
          (DataUtils.addMetadata now data t e).metaGet k = some v)
      ∧ (lit "type" ∉ e.map Prod.fst →
          (DataUtils.addMetadata now data t e).metaGet (lit "type") = some (Json.str t))
      ∧ (lit "count" ∉ e.map Prod.fst →
          (DataUtils.addMetadata now data t e).metaGet (lit "count")
            = some (Json.num (match data with
                | Json.arr items => Int.ofNat items.length
                | _ => 1)))
      ∧ (lit "api_version" ∉ e.map Prod.fst →
          (DataUtils.addMetadata now data t e).metaGet (lit "api_version")
            = some (Json.str Config.API_VERSION))
      ∧ (lit "generated_at" ∉ e.map Prod.fst →
          (DataUtils.addMetadata now data t e).metaGet (lit "generated_at")
            = some (Json.str now)) := by
  have hmeta : ∀ k, (DataUtils.addMetadata now data t e).metaGet k
      = getProperty (e.foldl (fun m x => setProperty m x.1 x.2)
          [(lit "type", Json.str t),
           (lit "count", Json.num (DataUtils.countOf data)),
           (lit "generated_at", Json.str now),
           (lit "api_version", Json.str Config.API_VERSION)]) k := fun k => rfl
  refine ⟨rfl, ?_, ?_, ?_, ?_, ?_⟩
  · intro k v hkv
    rw [hmeta]
    exact getProperty_spread_mem e _ k v hnd hkv
  · intro h
    rw [hmeta, getProperty_spread_other e _ _ h]
    rfl
  · intro h
    rw [hmeta, getProperty_spread_other e _ _ h]
    cases data <;> rfl
  · intro h
    rw [hmeta, getProperty_spread_other e _ _ h]
    rfl
  · intro h
    rw [hmeta, getProperty_spread_other e _ _ h]
    rfl

/-- The envelope of a by-type document: the extra field `type` replaces the
document type, the count is kept. -/
theorem addMetadata_envelope_witness :
    ([(lit "type", Json.str (lit "province")), (lit "total_states", Json.num 2)].map
        Prod.fst).Nodup
      ∧ (DataUtils.addMetadata (lit "2024-01-01T00:00:00.000Z")
          (Json.arr [Json.num 1, Json.num 2]) (lit "states_by_type")
          [(lit "type", Json.str (lit "province")), (lit "total_states", Json.num 2)]).metaGet
          (lit "type") = some (Json.str (lit "province"))
      ∧ (DataUtils.addMetadata (lit "2024-01-01T00:00:00.000Z")
          (Json.arr [Json.num 1, Json.num 2]) (lit "states_by_type")
          [(lit "type", Json.str (lit "province")), (lit "total_states", Json.num 2)]).metaGet
          (lit "count") = some (Json.num 2) :=
  ⟨by decide,
    (addMetadata_envelope (lit "2024-01-01T00:00:00.000Z") (Json.arr [Json.num 1, Json.num 2])
      (lit "states_by_type")
      [(lit "type", Json.str (lit "province")), (lit "total_states", Json.num 2)]
      (by decide)).2.1 _ _ (List.mem_cons_self _ _),
    (addMetadata_envelope (lit "2024-01-01T00:00:00.000Z") (Json.arr [Json.num 1, Json.num 2])
      (lit "states_by_type")
      [(lit "type", Json.str (lit "province")), (lit "total_states", Json.num 2)]
      (by decide)).2.2.2.1 (by decide)⟩

/-! ## The envelope of every emitted document -/

/-- C16, as stated, fails: the `meta` of a batch file and of the batch index
has no field `count`. On the example the batch file
`cities/batch/batch-100-100.json`, whose `data` is an object, carries
`cities_count = 1` and the index `total_batches = 1`, both without `count`. -/
theorem batch_documents_have_no_count :
    CitiesGenerator.generateCityBatchesJson exampleNow [exampleCity] [exampleState]
          [exampleCountry]
        = [(lit "cities/batch/batch-100-100.json",
            exampleIteration.json exampleNow [(10, exampleState)] [(1, exampleCountry)]),
           (lit "cities/batches.json",
            CitiesGenerator.batchIndexJson exampleNow [exampleIteration.entry] 1)]
      ∧ (exampleIteration.json exampleNow [(10, exampleState)] [(1, exampleCountry)]).metaGet
          (lit "count") = none
      ∧ (exampleIteration.json exampleNow [(10, exampleState)] [(1, exampleCountry)]).metaGet
          (lit "cities_count") = some (Json.num 1)
      ∧ (CitiesGenerator.batchIndexJson exampleNow [exampleIteration.entry] 1).metaGet
          (lit "count") = none
      ∧ (CitiesGenerator.batchIndexJson exampleNow [exampleIteration.entry] 1).metaGet
          (lit "total_batches") = some (Json.num 1) := by
  refine ⟨?_, rfl, rfl, rfl, rfl⟩
  have h : CitiesGenerator.iterations [exampleCity] [exampleState] [exampleCountry]
      = [exampleIteration] := by
    simp only [CitiesGenerator.iterations, DataUtils.sortBy, List.insertionSort,
      List.orderedInsert, List.map_cons, List.map_nil]
    rw [CitiesGenerator.batchLoop_of_lt _ _ _ 0 (by simp),
      CitiesGenerator.batchLoop_of_ge _ _ _ _ (by simp [CitiesGenerator.CITIES_PER_BATCH])]
    rfl
  simp only [CitiesGenerator.generateCityBatchesJson, CitiesGenerator.batchIndex, h,
    List.map_cons, List.map_nil, List.singleton_append]
  rfl

/-- C16, amended: every document built through `addMetadata`, which is every
document of the countries, states, cities and search generators other than the
batch files and the batch index, has its payload as `data`, `meta.count` equal
to the length of `data` when it is an array and to 1 otherwise, and
`meta.api_version` equal to the configured version. A batch file and the batch
index carry the configured `api_version` and no `meta.count`: the batch file
has `cities_count`, the number of cities of the batch, and the index has
`total_batches`, the length of its `data`. -/
theorem envelope_count (now : JSString) (site : CallSite) (data : Json)
    (v : JSString → Json) (cities : List City) (states : List State)
    (countries : List Country) :
    (site.document now data v).get (lit "data") = some data
      ∧ (site.document now data v).metaGet (lit "count")
        = some (Json.num (match data with
            | Json.arr items => Int.ofNat items.length
            | _ => 1))
      ∧ (site.document now data v).metaGet (lit "api_version")
        = some (Json.str Config.API_VERSION)
      ∧ (∀ w ∈ CitiesGenerator.generateCityBatchesJson now cities states countries,
          w.2.metaGet (lit "count") = none
            ∧ w.2.metaGet (lit "api_version") = some (Json.str Config.API_VERSION))
      ∧ (∀ it ∈ CitiesGenerator.iterations cities states countries,
          (it.json now (states.map (fun s => (s.id, s)))
              (countries.map (fun c => (c.id, c)))).metaGet (lit "cities_count")
            = some (Json.num (Int.ofNat it.batch.length)))
      ∧ (CitiesGenerator.batchIndexJson now
            (CitiesGenerator.batchIndex cities states countries) cities.length).metaGet
          (lit "total_batches")
        = some (Json.num (Int.ofNat (CitiesGenerator.batchIndex cities states countries).length))
      ∧ (CitiesGenerator.batchIndexJson now
            (CitiesGenerator.batchIndex cities states countries) cities.length).get (lit "data")
        = some (Json.arr ((CitiesGenerator.batchIndex cities states countries).map
            CitiesGenerator.BatchEntry.json)) := by
  refine ⟨rfl, ?_, ?_, ?_, fun _ _ => rfl, rfl, rfl⟩
  · cases site <;> cases data <;> rfl
  · cases site <;> rfl
  · intro w hw
    simp only [CitiesGenerator.generateCityBatchesJson, List.mem_append, List.mem_map,
      List.mem_singleton] at hw
    rcases hw with ⟨it, _, rfl⟩ | rfl
    · exact ⟨rfl, rfl⟩
    · exact ⟨rfl, rfl⟩

/-! ## Compaction -/

/-- C17, the failing input: the document of `search/states.json` for the
example state, written with the default options. Pretty printing is off and
`OPTIMIZE_JSON` is on, yet `optimizeDataForMinification` returns the data as it
is because `options.optimize` is not set, and the written value keeps the
property `iso2: null`. With `optimize` set in the options the property is
removed. -/
theorem writeJSON_keeps_null (now : JSString) (coordinate : JSString → Option Json) :
    FileUtils.writeJSON coordinate false (SearchGenerator.generateStatesSearch now
        [exampleState]).1 (SearchGenerator.generateStatesSearch now [exampleState]).2 {}
        = (lit "search/states.json",
          Json.obj
            [(lit "data", Json.arr
                [Json.obj
                  [(lit "id", Json.num 10), (lit "name", Json.str (lit "Prov")),
                   (lit "iso2", Json.null), (lit "country_id", Json.num 1)]]),
             (lit "meta", Json.obj
                [(lit "type", Json.str (lit "states_search")),
                 (lit "count", Json.num 1),
                 (lit "generated_at", Json.str now),
                 (lit "api_version", Json.str (lit "v1")),
                 (lit "searchable_fields", SearchGenerator.searchFieldsStates),
                 (lit "usage", Json.str
                    (lit "Filter client-side using name, iso2, or country_name fields")),
                 (lit "total_states", Json.num 1)])])
      ∧ FileUtils.hasNullOrEmpty (FileUtils.writeJSON coordinate false
          (SearchGenerator.generateStatesSearch now [exampleState]).1
          (SearchGenerator.generateStatesSearch now [exampleState]).2 {}).2 = true
      ∧ FileUtils.shouldPrettyPrint false {} = false
      ∧ Config.OPTIMIZE_JSON = true
      ∧ FileUtils.hasNullOrEmpty (FileUtils.writeJSON coordinate false
          (SearchGenerator.generateStatesSearch (lit "2024-01-01T00:00:00.000Z")
            [exampleState]).1
          (SearchGenerator.generateStatesSearch (lit "2024-01-01T00:00:00.000Z")
            [exampleState]).2
          { optimize := true }).2 = false :=
  ⟨rfl, rfl, rfl, rfl, rfl⟩

/-! ## The denormalized record of a batch -/

theorem setProperty_keys {β : Type} (k : JSString) (v : β) :
    ∀ obj : List (JSString × β),
      (setProperty obj k v).map Prod.fst =
        if k ∈ obj.map Prod.fst then obj.map Prod.fst else obj.map Prod.fst ++ [k] := by
  intro obj
  induction obj with
  | nil => simp [setProperty]
  | cons e rest ih =>
    obtain ⟨k1, v1⟩ := e
    by_cases h : k1 = k
    · subst h
      simp [setProperty]
    · have h2 : ¬ k = k1 := fun h3 => h h3.symm
      by_cases hm : k ∈ rest.map Prod.fst
      · simp only [setProperty, h, if_false, List.map_cons, ih, hm, if_true,
          List.mem_cons, or_true]
      · simp only [setProperty, h, if_false, List.map_cons, ih, hm, List.mem_cons,
          h2, or_self, List.cons_append]

theorem setProperty_nodup {β : Type} (obj : List (JSString × β)) (k : JSString) (v : β)
    (h : (obj.map Prod.fst).Nodup) : ((setProperty obj k v).map Prod.fst).Nodup := by
  rw [setProperty_keys]
  split
  · exact h
  · rename_i hk
    exact List.Nodup.append h (List.nodup_singleton _)
      (by
        intro a ha hb
        rw [List.mem_singleton] at hb
        exact hk (hb ▸ ha))

theorem spread_nodup {β : Type} : ∀ (extra base : List (JSString × β)),
    (base.map Prod.fst).Nodup →
      ((extra.foldl (fun m e => setProperty m e.1 e.2) base).map Prod.fst).Nodup := by
  intro extra
  induction extra with
  | nil => intro base h; exact h
  | cons e t ih =>
    intro base h
    rw [List.foldl_cons]
    exact ih _ (setProperty_nodup base e.1 e.2 h)

/-- The keys of the printed object are keys of the object. -/
theorem emitFields_keys (coordinate : JSString → Option Json) :
    ∀ (fields : List (JSString × Json)) (k : JSString),
      k ∈ (FileUtils.emitFields coordinate fields).map Prod.fst → k ∈ fields.map Prod.fst := by
  intro fields
  induction fields with
  | nil => intro k h; simp [FileUtils.emitFields] at h
  | cons e rest ih =>
    obtain ⟨k1, v1⟩ := e
    intro k h
    cases v1 <;> simp only [FileUtils.emitFields, List.map_cons, List.mem_cons] at h ⊢
    all_goals first
      | exact Or.inr (ih k h)
      | (rcases h with h | h
         · exact Or.inl h
         · exact Or.inr (ih k h))

theorem getProperty_none_of_not_mem {β : Type} : ∀ (obj : List (JSString × β)) (k : JSString),
    k ∉ obj.map Prod.fst → getProperty obj k = none := by
  intro obj
  induction obj with
  | nil => intro k _; rfl
  | cons e rest ih =>
    obtain ⟨k1, v1⟩ := e
    intro k h
    rw [List.map_cons, List.mem_cons, not_or] at h
    have hne : ¬ k1 = k := fun h2 => h.1 h2.symm
    simp only [getProperty, hne, if_false]
    exact ih k h.2

/-- A property whose value is `undefined` is absent from the printed object. -/
theorem emitFields_undefined (coordinate : JSString → Option Json) :
    ∀ (fields : List (JSString × Json)) (k : JSString), (fields.map Prod.fst).Nodup →
      getProperty fields k = some Json.undefined →
      getProperty (FileUtils.emitFields coordinate fields) k = none := by
  intro fields
  induction fields with
  | nil => intro k _ h; simp [getProperty] at h
  | cons e rest ih =>
    obtain ⟨k1, v1⟩ := e
    intro k hnd h
    rw [List.map_cons, List.nodup_cons] at hnd
    by_cases hk : k1 = k
    · subst hk
      simp only [getProperty, if_true, Option.some.injEq] at h
      subst h
      simp only [FileUtils.emitFields]
      exact getProperty_none_of_not_mem _ _
        (fun hm => hnd.1 (emitFields_keys coordinate rest k1 hm))
    · simp only [getProperty, hk, if_false] at h
      have ih2 := ih k hnd.2 h
      cases v1 <;> simp only [FileUtils.emitFields, getProperty, hk, if_false] <;> exact ih2

namespace CitiesGenerator

theorem objSet_mem {α : Type} (k : Int) (v : α) : ∀ (obj : List (Int × α)) (e : Int × α),
    e ∈ objSet obj k v → e = (k, v) ∨ e ∈ obj := by
  intro obj
  induction obj with
  | nil =>
    intro e he
    simp only [objSet, List.mem_singleton] at he
    exact Or.inl he
  | cons e0 rest ih =>
    obtain ⟨k1, v1⟩ := e0
    intro e he
    by_cases h : k1 = k
    · simp only [objSet, h, if_true, List.mem_cons] at he
      rcases he with he | he
      · exact Or.inl he
      · exact Or.inr (List.mem_cons_of_mem _ he)
    · simp only [objSet, h, if_false, List.mem_cons] at he
      rcases he with he | he
      · exact Or.inr (he ▸ List.mem_cons_self _ _)
      · rcases ih e he with h2 | h2
        · exact Or.inl h2
        · exact Or.inr (List.mem_cons_of_mem _ h2)

/-- Every property of the lookup object is the enhanced record of a city of
the batch, under the id of that city. -/
theorem cityLookup_mem (sm : List (Int × State)) (cm : List (Int × Country)) :
    ∀ (batch : List City) (init : List (Int × BatchCity)) (e : Int × BatchCity),
      e ∈ batch.foldl (fun obj city => objSet obj city.id (enhance sm cm city)) init →
      e ∈ init ∨ ∃ c ∈ batch, e = (c.id, enhance sm cm c) := by
  intro batch
  induction batch with
  | nil => intro init e he; exact Or.inl he
  | cons c t ih =>
    intro init e he
    rw [List.foldl_cons] at he
    rcases ih _ e he with h | ⟨c2, hc2, h⟩
    · rcases objSet_mem c.id _ init e h with h2 | h2
      · exact Or.inr ⟨c, List.mem_cons_self _ _, h2⟩
      · exact Or.inl h2
    · exact Or.inr ⟨c2, List.mem_cons_of_mem _ hc2, h⟩

theorem cityFields_nodup (city : City) : ((cityFields city).map Prod.fst).Nodup := by
  have hsub : List.Sublist ((cityFields city).map Prod.fst)
      [lit "id", lit "name", lit "state_id", lit "state_code", lit "state_name",
        lit "country_id", lit "country_code", lit "country_name", lit "latitude",
        lit "longitude", lit "wikiDataId", lit "timezone"] := by
    unfold cityFields
    simp only [List.map_append]
    exact (((List.Sublist.refl _).append ((List.filter_sublist _).map Prod.fst)).append
      (List.Sublist.refl _)).append ((List.filter_sublist _).map Prod.fst)
  exact List.Nodup.sublist hsub (by decide)

theorem assignedFields_keys (sm : List (Int × State)) (cm : List (Int × Country))
    (city : City) :
    (assignedFields sm cm city).map Prod.fst =
      [lit "state_name", lit "state_type", lit "country_name", lit "country_iso2",
        lit "country_iso3", lit "has_coordinates", lit "has_wikidata", lit "has_timezone"] :=
  rfl

theorem iterations_batch_subset (cities : List City) (states : List State)
    (countries : List Country) (it : Iteration)
    (hit : it ∈ iterations cities states countries) : ∀ c ∈ it.batch, c ∈ cities := by
  intro c hc
  obtain ⟨j, hj⟩ := List.mem_iff_getElem?.mp hit
  rw [(iterations_getElem cities states countries j it hj).2] at hc
  exact (sortBy_perm numLe City.id cities).mem_iff.mp ((slice_sublist _ _ _).subset hc)

/-- A key that the literal assigns `undefined` is absent from the printed
record. -/
theorem recordJson_absent (sm : List (Int × State)) (cm : List (Int × Country))
    (city : City) (coordinate : JSString → Option Json) (k : JSString)
    (hk : (k, Json.undefined) ∈ assignedFields sm cm city) :
    (FileUtils.emitValue coordinate (recordJson sm cm city)).get k = none := by
  have hnd : ((assignedFields sm cm city).map Prod.fst).Nodup := by
    rw [assignedFields_keys]
    decide
  have hget := getProperty_spread_mem (assignedFields sm cm city) (cityFields city) k
    Json.undefined hnd hk
  have hnd2 := spread_nodup (assignedFields sm cm city) (cityFields city)
    (cityFields_nodup city)
  rw [recordJson, FileUtils.emitValue]
  exact emitFields_undefined coordinate _ k hnd2 hget

/-- C19: every record of the lookup object of a batch file is built from a
city of the input, under its id, and keeps every field of the city unchanged
apart from `state_name`, `country_name` and the added fields (the city itself
is not changed: the record is a new value). When no state carries the city's
`state_id` and no country its `country_id`, the fields `state_type`,
`country_iso2` and `country_iso3` are `undefined`, so they are absent from the
written record, and `state_name` and `country_name` are the city's own. -/
theorem denormalized_record (cities : List City) (states : List State)
    (countries : List Country) (path : JSString) (data : List (Int × BatchCity))
    (m : BatchMeta)
    (hw : (path, Document.batchFile data m) ∈ generateCityBatches cities states countries)
    (k : Int) (r : BatchCity) (hr : (k, r) ∈ data) :
    ∃ c ∈ cities, k = c.id
      ∧ r = enhance (states.map (fun s => (s.id, s))) (countries.map (fun c => (c.id, c))) c
      ∧ r.id = c.id ∧ r.name = c.name ∧ r.state_id = c.state_id
      ∧ r.country_id = c.country_id ∧ r.state_code = c.state_code
      ∧ r.country_code = c.country_code ∧ r.latitude = c.latitude
      ∧ r.longitude = c.longitude ∧ r.wikiDataId = c.wikiDataId ∧ r.timezone = c.timezone
      ∧ (∀ (key : JSString) (value : Json), (key, value) ∈ cityFields c →
          key ∉ [lit "state_name", lit "state_type", lit "country_name", lit "country_iso2",
            lit "country_iso3", lit "has_coordinates", lit "has_wikidata",
            lit "has_timezone"] →
          (recordJson (states.map (fun s => (s.id, s))) (countries.map (fun c => (c.id, c)))
            c).get key = some value)
      ∧ ((∀ s ∈ states, s.id ≠ c.state_id) → (∀ x ∈ countries, x.id ≠ c.country_id) →
          r.state_type = Field.undefined ∧ r.country_iso2 = Field.undefined
            ∧ r.country_iso3 = Field.undefined
            ∧ r.state_name = c.state_name ∧ r.country_name = c.country_name
            ∧ ∀ coordinate : JSString → Option Json,
                (FileUtils.emitValue coordinate
                    (recordJson (states.map (fun s => (s.id, s)))
                      (countries.map (fun c => (c.id, c))) c)).get (lit "state_type") = none
                  ∧ (FileUtils.emitValue coordinate
                    (recordJson (states.map (fun s => (s.id, s)))
                      (countries.map (fun c => (c.id, c))) c)).get (lit "country_iso2") = none
                  ∧ (FileUtils.emitValue coordinate
                    (recordJson (states.map (fun s => (s.id, s)))
                      (countries.map (fun c => (c.id, c))) c)).get (lit "country_iso3")
                    = none) := by
  simp only [generateCityBatches, List.mem_append, List.mem_map, List.mem_singleton,
    Prod.mk.injEq] at hw
  rcases hw with ⟨it, hit, _, hfile⟩ | ⟨_, h⟩
  · obtain ⟨bm, hbm⟩ := iterations_file cities states countries it hit
    rw [hbm, Document.batchFile.injEq] at hfile
    rw [← hfile.1] at hr
    rcases cityLookup_mem _ _ it.batch [] (k, r) hr with h | ⟨c, hc, he⟩
    · cases h
    · obtain ⟨hk, hrc⟩ := Prod.mk.inj he
      subst hrc
      refine ⟨c, iterations_batch_subset cities states countries it hit c hc, hk, rfl,
        rfl, rfl, rfl, rfl, rfl, rfl, rfl, rfl, rfl, rfl, ?_, ?_⟩
      · intro key value hkv hkey
        have hother := getProperty_spread_other
          (assignedFields (states.map (fun s => (s.id, s)))
            (countries.map (fun c => (c.id, c))) c) (cityFields c) key
          (by rw [assignedFields_keys]; exact hkey)
        have hown := getProperty_of_mem (cityFields c) key value (cityFields_nodup c) hkv
        rw [recordJson, Json.get, hother, hown]
      · intro hs hcn
        have h1 := mapGet_of_not_mem State.id states c.state_id hs
        have h2 := mapGet_of_not_mem Country.id countries c.country_id hcn
        have hst : (enhance (states.map (fun s => (s.id, s)))
            (countries.map (fun c => (c.id, c))) c).state_type = Field.undefined := by
          simp only [enhance, h1]
        have hi2 : (enhance (states.map (fun s => (s.id, s)))
            (countries.map (fun c => (c.id, c))) c).country_iso2 = Field.undefined := by
          simp only [enhance, h2]
        have hi3 : (enhance (states.map (fun s => (s.id, s)))
            (countries.map (fun c => (c.id, c))) c).country_iso3 = Field.undefined := by
          simp only [enhance, h2]
        refine ⟨hst, hi2, hi3, by simp only [enhance, h1], by simp only [enhance, h2], ?_⟩
        intro coordinate
        refine ⟨recordJson_absent _ _ c coordinate _ ?_,
          recordJson_absent _ _ c coordinate _ ?_, recordJson_absent _ _ c coordinate _ ?_⟩
        · simp only [assignedFields, hst, Field.toJson, List.mem_cons, true_or, or_true]
        · simp only [assignedFields, hi2, Field.toJson, List.mem_cons, true_or, or_true]
        · simp only [assignedFields, hi3, Field.toJson, List.mem_cons, true_or, or_true]
  · cases h

theorem danglingCity_write :
    (lit "cities/batch/batch-100-100.json",
        Document.batchFile [(100, enhance [] [] exampleCity)]
          { type := lit "cities_batch", batch_range := lit "100-100", cities_count := 1,
            usage := lit "Access city by ID: data[city_id]", api_version := API_VERSION })
      ∈ generateCityBatches [exampleCity] [] [] := by
  have h : iterations [exampleCity] [] [] = [iteration [] [] [exampleCity]
      (List.cons_ne_nil _ _)] := by
    simp only [iterations, DataUtils.sortBy, List.insertionSort, List.orderedInsert,
      List.map_nil]
    rw [batchLoop_of_lt _ _ _ 0 (by simp), batchLoop_of_ge _ _ _ _ (by simp [CITIES_PER_BATCH])]
    rfl
  simp only [generateCityBatches, h, List.map_cons, List.map_nil, List.singleton_append,
    List.mem_cons]
  exact Or.inl rfl

/-- The denormalized record of the example city when no state and no country
is loaded: the parent fields are `undefined` and absent from the written
record. -/
theorem denormalized_record_witness :
    (lit "cities/batch/batch-100-100.json",
        Document.batchFile [(100, enhance [] [] exampleCity)]
          { type := lit "cities_batch", batch_range := lit "100-100", cities_count := 1,
            usage := lit "Access city by ID: data[city_id]", api_version := API_VERSION })
        ∈ generateCityBatches [exampleCity] [] []
      ∧ ((100 : Int), enhance [] [] exampleCity) ∈ [((100 : Int), enhance [] [] exampleCity)]
      ∧ (∃ c ∈ [exampleCity], (100 : Int) = c.id
          ∧ enhance [] [] exampleCity = enhance ([].map (fun s : State => (s.id, s)))
              ([].map (fun c : Country => (c.id, c))) c
          ∧ (enhance [] [] exampleCity).id = c.id
          ∧ (enhance [] [] exampleCity).name = c.name)
      ∧ (enhance [] [] exampleCity).state_type = Field.undefined
      ∧ (FileUtils.emitValue (fun _ => none) (recordJson [] [] exampleCity)).get
          (lit "state_type") = none :=
  ⟨danglingCity_write, List.mem_singleton.mpr rfl,
    by
      obtain ⟨c, hc, h1, h2, h3, h4, _⟩ :=
        denormalized_record [exampleCity] [] [] _ _ _ danglingCity_write 100
          (enhance [] [] exampleCity) (List.mem_singleton.mpr rfl)
      exact ⟨c, hc, h1, h2, h3, h4⟩,
    rfl, rfl⟩

end CitiesGenerator

/-! ## Validation -/

theorem trim_eq_nil_iff (s : JSString) : trim s = [] ↔ s.all isWhiteSpace = true := by
  unfold trim
  rw [List.reverse_eq_nil_iff, List.dropWhile_eq_nil_iff, List.all_eq_true]
  constructor
  · intro h
    have hd : s.dropWhile isWhiteSpace = [] := by
      by_contra hne
      have h1 := List.head_dropWhile_not isWhiteSpace s hne
      have h2 := h _ (List.mem_reverse.mpr (List.head_mem hne))
      rw [h2] at h1
      exact Bool.noConfusion h1
    exact List.dropWhile_eq_nil_iff.mp hd
  · intro h x hx
    rw [List.dropWhile_eq_nil_iff.mpr h] at hx
    cases hx

namespace DataUtils

theorem isMissing_eq (v : PropertyValue) :
    isMissing v = (match v with
      | .value .undefined => true
      | .value .null => true
      | .value (.str s) => s.all isWhiteSpace
      | _ => false) := by
  cases v with
  | member => rfl
  | value w =>
    cases w <;> simp only [isMissing]
    rename_i s
    by_cases h : s.all isWhiteSpace = true
    · rw [h]; simpa using (trim_eq_nil_iff s).mpr h
    · have h2 : ¬ trim s = [] := fun h3 => h ((trim_eq_nil_iff s).mp h3)
      simp only [Bool.not_eq_true] at h
      rw [h]; simpa using h2

theorem validRecord_eq (inherited : Json → JSString → Bool) (requiredFields : List JSString)
    (item : Json) :
    validRecord inherited requiredFields item
      = (isRecord item && decide (missingFields inherited item requiredFields = [])) := by
  unfold validRecord missingFields
  congr 1
  rw [Bool.eq_iff_iff]
  simp only [List.all_eq_true, decide_eq_true_eq, List.filter_eq_nil_iff]
  constructor
  · intro h field hf
    have := h field hf
    rw [isMissing_eq]
    cases hv : item.read inherited field with
    | member => simp
    | value w => cases w <;> simp_all
  · intro h field hf
    have := h field hf
    rw [isMissing_eq] at this
    cases hv : item.read inherited field with
    | member => simp
    | value w => cases w <;> simp_all

theorem checkItem_lenient (inherited : Json → JSString → Bool) (requiredFields : List JSString)
    (index : Nat) (item : Json) :
    (validRecord inherited requiredFields item = true
        ∧ checkItem inherited false requiredFields index item = .ok none)
      ∨ (validRecord inherited requiredFields item = false
        ∧ ∃ r, checkItem inherited false requiredFields index item = .ok (some r)) := by
  rw [validRecord_eq]
  unfold checkItem
  by_cases h1 : isRecord item = true
  · by_cases h2 : missingFields inherited item requiredFields = []
    · left; simp [h1, h2]
    · right
      have : (missingFields inherited item requiredFields).length > 0 := List.length_pos.mpr h2
      simp [h1, h2, this]
  · right
    simp only [Bool.not_eq_true] at h1
    simp [h1]

theorem forEachItem_lenient (inherited : Json → JSString → Bool)
    (requiredFields : List JSString) :
    ∀ (items : List Json) (index : Nat) (invalidRecords : List InvalidRecord)
      (validRecords : List Json),
      ∃ more : List InvalidRecord,
        forEachItem inherited false requiredFields items index invalidRecords validRecords
            = .ok (invalidRecords ++ more,
                validRecords ++ items.filter (validRecord inherited requiredFields))
          ∧ more.length + (items.filter (validRecord inherited requiredFields)).length
            = items.length := by
  intro items
  induction items with
  | nil => intro index inv val; exact ⟨[], by simp [forEachItem]⟩
  | cons item rest ih =>
    intro index inv val
    rcases checkItem_lenient inherited requiredFields index item with ⟨hv, hc⟩ | ⟨hv, r, hc⟩
    · obtain ⟨more, h1, h2⟩ := ih (index + 1) inv (val ++ [item])
      refine ⟨more, ?_, ?_⟩
      · rw [forEachItem, hc]
        simp only [h1, List.filter_cons, hv, if_true, List.append_assoc, List.singleton_append]
      · simp only [List.filter_cons, hv, if_true, List.length_cons]
        omega
    · obtain ⟨more, h1, h2⟩ := ih (index + 1) (inv ++ [r]) val
      refine ⟨r :: more, ?_, ?_⟩
      · rw [forEachItem, hc]
        simp only [h1, List.filter_cons, hv, List.append_assoc, List.singleton_append]
        simp
      · simp only [List.filter_cons, hv, List.length_cons]
        simp only [Bool.false_eq_true, if_false]
        omega

/-- In non-strict mode `validateData` on an array either throws because every
record of a non-empty array is invalid, or returns the valid records. -/
theorem validateData_lenient (inherited : Json → JSString → Bool) (items : List Json)
    (requiredFields : List JSString) (options : ValidateOptions)
    (hs : options.strict = false) :
    ∃ invalid : List InvalidRecord,
      invalid.length + (items.filter (validRecord inherited requiredFields)).length
          = items.length
        ∧ validateData inherited (Json.arr items) requiredFields options
          = if 0 < items.length
                ∧ (items.filter (validRecord inherited requiredFields)).length = 0 then
              .error .allInvalid
            else if options.returnInvalidRecords then
              .ok (.split (items.filter (validRecord inherited requiredFields)) invalid)
            else .ok (.records (items.filter (validRecord inherited requiredFields))) := by
  cases items with
  | nil => exact ⟨[], rfl, by cases hr : options.returnInvalidRecords <;> simp [validateData, hr]⟩
  | cons item rest =>
    obtain ⟨more, h1, h2⟩ := forEachItem_lenient inherited requiredFields (item :: rest) 0 [] []
    refine ⟨more, h2, ?_⟩
    simp only [List.nil_append] at h1
    simp only [validateData, List.length_cons, Nat.succ_ne_zero, if_false, hs, h1,
      Bool.false_eq_true, and_false, Nat.zero_lt_succ, true_and]
    simp only [List.length_cons] at h2
    by_cases hf : ((item :: rest).filter (validRecord inherited requiredFields)).length = 0
    · have hm : more.length > 0 ∧ more.length = rest.length + 1 := by omega
      rw [if_pos hm, if_pos hf]
    · have hm : ¬ (more.length > 0 ∧ more.length = rest.length + 1) := by omega
      have hlen : ((item :: rest).filter (validRecord inherited requiredFields)).length > 0 := by
        omega
      rw [if_neg hm, if_neg hf, if_pos hlen]

theorem filter_length_zero_iff {α : Type} (p : α → Bool) (l : List α) :
    (l.filter p).length = 0 ↔ ∀ x ∈ l, p x = false := by
  rw [List.length_eq_zero, List.filter_eq_nil_iff]
  simp

/-- C28, the failing input: the array of the one record `{name: "Town"}` with
the required field `id` and the default options. No record is valid, and
`validateData` throws "All records are invalid" where the comment on its last
line promises the original array. -/
theorem validateData_no_fallback_example :
    validateData plainObjectMember
        (Json.arr [Json.obj [(lit "name", Json.str (lit "Town"))]]) [lit "id"] {}
        = .error .allInvalid
      ∧ validateData plainObjectMember
          (Json.arr [Json.obj [(lit "name", Json.str (lit "Town"))]]) [lit "id"] {}
        ≠ .ok (.records [Json.obj [(lit "name", Json.str (lit "Town"))]])
      ∧ validRecord plainObjectMember [lit "id"]
          (Json.obj [(lit "name", Json.str (lit "Town"))]) = false :=
  ⟨rfl, (fun h => by cases h), rfl⟩

/-- In non-strict mode, for a non-empty array in which no record is valid,
`validateData` throws the error "All records are invalid", whatever the other
options; and whenever it returns an array, that array is the list of the valid
records: the branch that returns the original array is never taken. -/
theorem validateData_all_invalid (inherited : Json → JSString → Bool) (items : List Json)
    (requiredFields : List JSString) (options : ValidateOptions)
    (hs : options.strict = false) :
    (items ≠ [] → (∀ item ∈ items, validRecord inherited requiredFields item = false) →
        validateData inherited (Json.arr items) requiredFields options = .error .allInvalid)
      ∧ ∀ l, validateData inherited (Json.arr items) requiredFields options
            = .ok (.records l) →
          l = items.filter (validRecord inherited requiredFields) := by
  obtain ⟨invalid, _, h⟩ := validateData_lenient inherited items requiredFields options hs
  constructor
  · intro hne hall
    rw [h, if_pos]
    exact ⟨List.length_pos.mpr hne, (filter_length_zero_iff _ _).mpr hall⟩
  · intro l hl
    rw [h] at hl
    split at hl
    · cases hl
    · split at hl
      · cases hl
      · cases hl; rfl

/-- An array of `null` and of a record whose `id` is a blank string: no record
is valid, and `validateData` throws. -/
theorem validateData_all_invalid_example :
    validateData plainObjectMember
        (Json.arr [Json.null, Json.obj [(lit "id", Json.str (lit " "))]]) [lit "id"] {}
      = .error .allInvalid :=
  (validateData_all_invalid plainObjectMember
    [Json.null, Json.obj [(lit "id", Json.str (lit " "))]] [lit "id"] {} rfl).1
    (List.cons_ne_nil _ _)
    (by intro item h; simp only [List.mem_cons, List.mem_singleton, List.not_mem_nil,
          or_false] at h; rcases h with rfl | rfl <;> rfl)

/-- C29: in non-strict mode with `returnInvalidRecords` set, `validateData` on
an array either throws, exactly when the array is non-empty and every record is
invalid, or returns `{ valid, invalid }` where `valid` is the sub-list, in input
order, of the records that are objects with every required field defined,
non-null and not a string of white space only, and the two lengths add up to
the length of the array. A required field is read as `item[field]` reads it:
a member that the record inherits from its prototype chain, whichever these
are, counts as defined. -/
theorem validateData_split (inherited : Json → JSString → Bool) (items : List Json)
    (requiredFields : List JSString) (options : ValidateOptions)
    (hs : options.strict = false) (hr : options.returnInvalidRecords = true) :
    (validateData inherited (Json.arr items) requiredFields options = .error .allInvalid
        ∧ items ≠ [] ∧ ∀ item ∈ items, validRecord inherited requiredFields item = false)
      ∨ (∃ invalid : List InvalidRecord,
          validateData inherited (Json.arr items) requiredFields options
              = .ok (.split (items.filter (validRecord inherited requiredFields)) invalid)
            ∧ (items.filter (validRecord inherited requiredFields)).length + invalid.length
              = items.length
            ∧ List.Sublist (items.filter (validRecord inherited requiredFields)) items
            ∧ ¬ (items ≠ []
                ∧ ∀ item ∈ items, validRecord inherited requiredFields item = false)) := by
  obtain ⟨invalid, hlen, h⟩ := validateData_lenient inherited items requiredFields options hs
  by_cases hc : 0 < items.length
      ∧ (items.filter (validRecord inherited requiredFields)).length = 0
  · left
    rw [if_pos hc] at h
    exact ⟨h, List.length_pos.mp hc.1, (filter_length_zero_iff _ _).mp hc.2⟩
  · right
    rw [if_neg hc, hr, if_pos rfl] at h
    refine ⟨invalid, h, by omega, List.filter_sublist _, ?_⟩
    rintro ⟨hne, hall⟩
    exact hc ⟨List.length_pos.mpr hne, (filter_length_zero_iff _ _).mpr hall⟩

/-- An array of one valid record and of the number 7: the record is returned
as `valid`, the number as the one entry of `invalid`. A record `{id: 1}` is
valid for the required field `constructor`, which it inherits. -/
theorem validateData_split_witness :
    ({ returnInvalidRecords := true } : ValidateOptions).strict = false
      ∧ ({ returnInvalidRecords := true } : ValidateOptions).returnInvalidRecords = true
      ∧ ((validateData plainObjectMember
              (Json.arr [Json.obj [(lit "id", Json.num 1)], Json.num 7])
              [lit "id"] { returnInvalidRecords := true } = .error .allInvalid
            ∧ [Json.obj [(lit "id", Json.num 1)], Json.num 7] ≠ []
            ∧ ∀ item ∈ [Json.obj [(lit "id", Json.num 1)], Json.num 7],
                validRecord plainObjectMember [lit "id"] item = false)
        ∨ ∃ invalid : List InvalidRecord,
            validateData plainObjectMember
                (Json.arr [Json.obj [(lit "id", Json.num 1)], Json.num 7])
                [lit "id"] { returnInvalidRecords := true }
                = .ok (.split
                    ([Json.obj [(lit "id", Json.num 1)], Json.num 7].filter
                      (validRecord plainObjectMember [lit "id"])) invalid)
              ∧ ([Json.obj [(lit "id", Json.num 1)], Json.num 7].filter
                    (validRecord plainObjectMember [lit "id"])).length + invalid.length
                = [Json.obj [(lit "id", Json.num 1)], Json.num 7].length
              ∧ List.Sublist
                  ([Json.obj [(lit "id", Json.num 1)], Json.num 7].filter
                    (validRecord plainObjectMember [lit "id"]))
                  [Json.obj [(lit "id", Json.num 1)], Json.num 7]
              ∧ ¬ ([Json.obj [(lit "id", Json.num 1)], Json.num 7] ≠ []
                  ∧ ∀ item ∈ [Json.obj [(lit "id", Json.num 1)], Json.num 7],
                      validRecord plainObjectMember [lit "id"] item = false))
      ∧ validateData plainObjectMember
          (Json.arr [Json.obj [(lit "id", Json.num 1)], Json.num 7])
          [lit "id"] { returnInvalidRecords := true }
        = .ok (.split [Json.obj [(lit "id", Json.num 1)]]
            [InvalidRecord.invalidObject 1 (Json.num 7)])
      ∧ validateData plainObjectMember (Json.arr [Json.obj [(lit "id", Json.num 1)]])
          [lit "constructor"] { returnInvalidRecords := true }
        = .ok (.split [Json.obj [(lit "id", Json.num 1)]] []) :=
  ⟨rfl, rfl,
    validateData_split plainObjectMember [Json.obj [(lit "id", Json.num 1)], Json.num 7]
      [lit "id"] { returnInvalidRecords := true } rfl rfl,
    rfl, rfl⟩

end DataUtils

/-! ## Failed writes -/

namespace BaseGenerator

/-- C22: `safeWriteJSON`, with the write of the file succeeding or failing.
When the write fails and the mode is not `"strict"`, it returns `false`, adds
exactly one entry, for this file, at the end of `errors` and leaves
`filesGenerated` (and the rest of the generator) unchanged; when the write fails
in strict mode the error of the write is thrown; when the write succeeds it
returns `true`, increases `filesGenerated` by exactly 1 and leaves `errors`
unchanged. -/
theorem safeWriteJSON_outcomes (errorHandlingMode : JSString)
    (write : JSString → Json → FileUtils.WriteOptions → Except JSString Unit) (now : JSString)
    (self : Generator) (filePath : JSString) (data : Json) (options : FileUtils.WriteOptions) :
    (∀ message, write filePath data options = .error message →
        errorHandlingMode ≠ lit "strict" →
        (safeWriteJSON errorHandlingMode write now self filePath data options).2 = .ok false
          ∧ (safeWriteJSON errorHandlingMode write now self filePath data options).1.errors
            = self.errors ++ [{ filePath := filePath, error := message, timestamp := now }]
          ∧ (safeWriteJSON errorHandlingMode write now self filePath data options).1.errors.length
            = self.errors.length + 1
          ∧ (safeWriteJSON errorHandlingMode write now self filePath data options).1.filesGenerated
            = self.filesGenerated
          ∧ (safeWriteJSON errorHandlingMode write now self filePath data options).1.warnings
            = self.warnings
          ∧ (safeWriteJSON errorHandlingMode write now self filePath data
              options).1.recordsProcessed = self.recordsProcessed)
      ∧ (∀ message, write filePath data options = .error message →
          errorHandlingMode = lit "strict" →
          (safeWriteJSON errorHandlingMode write now self filePath data options).2
            = .error message)
      ∧ (write filePath data options = .ok () →
          safeWriteJSON errorHandlingMode write now self filePath data options
            = ({ self with filesGenerated := self.filesGenerated + 1 }, .ok true)) := by
  refine ⟨?_, ?_, ?_⟩
  · intro message hw hmode
    simp only [safeWriteJSON, hw, if_neg hmode, List.length_append, List.length_singleton,
      and_self]
  · intro message hw hmode
    simp only [safeWriteJSON, hw, if_pos hmode]
  · intro hw
    simp only [safeWriteJSON, hw]

/-- Two files written in the default mode on a file system that refuses the
first and accepts the second: the first call returns `false` and records the
error, the second call still runs and counts its file. -/
theorem safeWriteJSON_outcomes_witness :
    failingWrite (lit "states/a.json") Json.null {} = .error (lit "EACCES")
      ∧ Config.errorHandlingMode ≠ lit "strict"
      ∧ (safeWriteJSON Config.errorHandlingMode failingWrite exampleNow {}
          (lit "states/a.json") Json.null {}).2 = .ok false
      ∧ (safeWriteJSON Config.errorHandlingMode failingWrite exampleNow {}
          (lit "states/a.json") Json.null {}).1.errors
        = [{ filePath := lit "states/a.json", error := lit "EACCES", timestamp := exampleNow }]
      ∧ safeWriteJSON Config.errorHandlingMode succeedingWrite exampleNow
          (safeWriteJSON Config.errorHandlingMode failingWrite exampleNow {}
            (lit "states/a.json") Json.null {}).1 (lit "states/b.json") Json.null {}
        = ({ errors := [{ filePath := lit "states/a.json", error := lit "EACCES",
                          timestamp := exampleNow }],
             filesGenerated := 1 }, .ok true) :=
  ⟨rfl, by decide,
    ((safeWriteJSON_outcomes Config.errorHandlingMode failingWrite exampleNow {}
      (lit "states/a.json") Json.null {}).1 (lit "EACCES") rfl (by decide)).1,
    ((safeWriteJSON_outcomes Config.errorHandlingMode failingWrite exampleNow {}
      (lit "states/a.json") Json.null {}).1 (lit "EACCES") rfl (by decide)).2.1,
    rfl⟩

end BaseGenerator

/-! ## Two runs at different times -/

theorem maskMeta_setProperty (fields : List (JSString × Json)) (k : JSString) (v : Json) :
    (setProperty fields k v).map
        (fun e => (e.1, if e.1 = lit "generated_at" then Json.null else e.2))
      = setProperty
          (fields.map (fun e => (e.1, if e.1 = lit "generated_at" then Json.null else e.2)))
          k (if k = lit "generated_at" then Json.null else v) := by
  induction fields with
  | nil => rfl
  | cons e rest ih =>
    obtain ⟨k1, v1⟩ := e
    by_cases h1 : k1 = k
    · simp only [setProperty, if_pos h1, List.map_cons]
    · simp only [setProperty, if_neg h1, List.map_cons, ih]

theorem maskMeta_spread : ∀ (extra base : List (JSString × Json)),
    (extra.foldl (fun m x => setProperty m x.1 x.2) base).map
        (fun e => (e.1, if e.1 = lit "generated_at" then Json.null else e.2))
      = extra.foldl
          (fun m x => setProperty m x.1 (if x.1 = lit "generated_at" then Json.null else x.2))
          (base.map (fun e => (e.1, if e.1 = lit "generated_at" then Json.null else e.2)))
  | [], _ => rfl
  | x :: rest, base => by
    rw [List.foldl_cons, List.foldl_cons, maskMeta_spread rest, maskMeta_setProperty]

/-- Two objects that agree at a key still agree at it after the same
properties are spread over both. -/
theorem getProperty_spread_base {β : Type} : ∀ (extra base1 base2 : List (JSString × β))
    (k : JSString), getProperty base1 k = getProperty base2 k →
    getProperty (extra.foldl (fun m x => setProperty m x.1 x.2) base1) k
      = getProperty (extra.foldl (fun m x => setProperty m x.1 x.2) base2) k
  | [], _, _, _, h => h
  | x :: rest, base1, base2, k, h => by
    rw [List.foldl_cons, List.foldl_cons]
    apply getProperty_spread_base rest
    by_cases hk : x.1 = k
    · rw [← hk, getProperty_setProperty_same, getProperty_setProperty_same]
    · rw [getProperty_setProperty_ne _ _ _ _ (fun h => hk h.symm),
        getProperty_setProperty_ne _ _ _ _ (fun h => hk h.symm)]
      exact h

theorem maskGeneratedAt_addMetadata (now : JSString) (data : Json) (type : JSString)
    (e : List (JSString × Json)) :
    maskGeneratedAt (DataUtils.addMetadata now data type e)
      = Json.obj
        [(lit "data", data),
         (lit "meta", Json.obj
            (e.foldl
              (fun m x =>
                setProperty m x.1 (if x.1 = lit "generated_at" then Json.null else x.2))
              [(lit "type", Json.str type),
               (lit "count", Json.num (DataUtils.countOf data)),
               (lit "generated_at", Json.null),
               (lit "api_version", Json.str Config.API_VERSION)]))] := by
  have h1 : lit "data" ≠ lit "meta" := by decide
  have h2 : lit "type" ≠ lit "generated_at" := by decide
  have h3 : lit "count" ≠ lit "generated_at" := by decide
  have h4 : lit "api_version" ≠ lit "generated_at" := by decide
  simp only [maskGeneratedAt, DataUtils.addMetadata, List.map_cons, List.map_nil, if_neg h1,
    if_true, maskMeta, maskMeta_spread, if_neg h2, if_neg h3, if_neg h4]

namespace CitiesGenerator

theorem maskGeneratedAt_iteration (now : JSString) (sm : List (Int × State))
    (cm : List (Int × Country)) (it : Iteration) :
    maskGeneratedAt (it.json now sm cm) = maskGeneratedAt (it.json [] sm cm) := by
  have h1 : lit "data" ≠ lit "meta" := by decide
  have h2 : lit "type" ≠ lit "generated_at" := by decide
  have h3 : lit "batch_range" ≠ lit "generated_at" := by decide
  have h4 : lit "cities_count" ≠ lit "generated_at" := by decide
  have h5 : lit "usage" ≠ lit "generated_at" := by decide
  have h6 : lit "api_version" ≠ lit "generated_at" := by decide
  simp only [maskGeneratedAt, Iteration.json, List.map_cons, List.map_nil, if_neg h1,
    if_true, maskMeta, if_neg h2, if_neg h3, if_neg h4, if_neg h5, if_neg h6]

theorem maskGeneratedAt_batchIndex (now : JSString) (batches : List BatchEntry) (n : Nat) :
    maskGeneratedAt (batchIndexJson now batches n)
      = maskGeneratedAt (batchIndexJson [] batches n) := by
  have h1 : lit "data" ≠ lit "meta" := by decide
  have h2 : lit "type" ≠ lit "generated_at" := by decide
  have h3 : lit "total_batches" ≠ lit "generated_at" := by decide
  have h4 : lit "cities_per_batch" ≠ lit "generated_at" := by decide
  have h5 : lit "usage" ≠ lit "generated_at" := by decide
  have h6 : lit "api_version" ≠ lit "generated_at" := by decide
  have h7 : lit "total_cities" ≠ lit "generated_at" := by decide
  simp only [maskGeneratedAt, batchIndexJson, List.map_cons, List.map_nil, if_neg h1,
    if_true, maskMeta, if_neg h2, if_neg h3, if_neg h4, if_neg h5, if_neg h6, if_neg h7]

end CitiesGenerator

/-- C26: with the timestamp as an input, the documents of two runs at the times
`t1` and `t2` on the same input are identical except for the value of
`meta.generated_at`. For `addMetadata` the payload is the same and the two
envelopes coincide once that value is blanked; for `generateCityBatches` the
two runs write the same paths in the same order, with the same payload at each
path and documents that coincide once that value is blanked. -/
theorem runs_differ_in_generated_at_only (t1 t2 : JSString) :
    (∀ (data : Json) (type : JSString) (e : List (JSString × Json)),
        (DataUtils.addMetadata t1 data type e).get (lit "data")
            = (DataUtils.addMetadata t2 data type e).get (lit "data")
          ∧ maskGeneratedAt (DataUtils.addMetadata t1 data type e)
            = maskGeneratedAt (DataUtils.addMetadata t2 data type e)
          ∧ ∀ k, k ≠ lit "generated_at" →
              (DataUtils.addMetadata t1 data type e).metaGet k
                = (DataUtils.addMetadata t2 data type e).metaGet k)
      ∧ ∀ (cities : List City) (states : List State) (countries : List Country),
          (CitiesGenerator.generateCityBatchesJson t1 cities states countries).map Prod.fst
              = (CitiesGenerator.generateCityBatchesJson t2 cities states countries).map Prod.fst
            ∧ (CitiesGenerator.generateCityBatchesJson t1 cities states countries).map
                (fun w => w.2.get (lit "data"))
              = (CitiesGenerator.generateCityBatchesJson t2 cities states countries).map
                (fun w => w.2.get (lit "data"))
            ∧ (CitiesGenerator.generateCityBatchesJson t1 cities states countries).map
                (fun w => (w.1, maskGeneratedAt w.2))
              = (CitiesGenerator.generateCityBatchesJson t2 cities states countries).map
                (fun w => (w.1, maskGeneratedAt w.2)) := by
  constructor
  · intro data type e
    refine ⟨rfl, ?_, ?_⟩
    · rw [maskGeneratedAt_addMetadata, maskGeneratedAt_addMetadata]
    · intro k hk
      simp only [Json.metaGet, DataUtils.addMetadata, Json.get, getProperty,
        if_neg (show lit "data" ≠ lit "meta" by decide), if_true, Option.some_bind]
      exact getProperty_spread_base e _ _ k (by
        have h2 : lit "generated_at" ≠ k := fun h => hk h.symm
        simp only [getProperty, if_neg h2])
  · intro cities states countries
    refine ⟨?_, ?_, ?_⟩
    · simp only [CitiesGenerator.generateCityBatchesJson, List.map_append, List.map_map,
        List.map_cons, List.map_nil]
      rfl
    · simp only [CitiesGenerator.generateCityBatchesJson, List.map_append, List.map_map,
        List.map_cons, List.map_nil]
      rfl
    · simp only [CitiesGenerator.generateCityBatchesJson, List.map_append, List.map_map,
        List.map_cons, List.map_nil, Function.comp_def,
        CitiesGenerator.maskGeneratedAt_iteration t1, CitiesGenerator.maskGeneratedAt_iteration t2,
        CitiesGenerator.maskGeneratedAt_batchIndex t1,
        CitiesGenerator.maskGeneratedAt_batchIndex t2]

/-! ## The stripping of null and empty values -/

namespace FileUtils

theorem optimizeFields_cons (k : JSString) (v : Json) (rest : List (JSString × Json)) :
    optimizeFields ((k, v) :: rest)
      = if isNullOrEmpty v = true ∨ k = lit "__proto__" then optimizeFields rest
        else (k, optimizeObject v) :: optimizeFields rest := by
  cases v with
  | null => simp [optimizeFields, isNullOrEmpty]
  | str s =>
    cases s with
    | nil => simp [optimizeFields, isNullOrEmpty]
    | cons c cs => simp [optimizeFields, isNullOrEmpty]
  | undefined => simp [optimizeFields, isNullOrEmpty]
  | bool b => simp [optimizeFields, isNullOrEmpty]
  | num n => simp [optimizeFields, isNullOrEmpty]
  | real q => simp [optimizeFields, isNullOrEmpty]
  | arr items => simp [optimizeFields, isNullOrEmpty]
  | obj fields => simp [optimizeFields, isNullOrEmpty]

theorem anyFieldHasNullOrEmpty_cons (k : JSString) (v : Json) (rest : List (JSString × Json)) :
    anyFieldHasNullOrEmpty ((k, v) :: rest)
      = ((isNullOrEmpty v || hasNullOrEmpty v) || anyFieldHasNullOrEmpty rest) := by
  cases v with
  | str s => cases s <;> simp [anyFieldHasNullOrEmpty, isNullOrEmpty, hasNullOrEmpty]
  | _ => simp [anyFieldHasNullOrEmpty, isNullOrEmpty, hasNullOrEmpty]

theorem isNullOrEmpty_optimizeObject (v : Json) :
    isNullOrEmpty (optimizeObject v) = isNullOrEmpty v := by
  cases v with
  | str s => cases s <;> simp [optimizeObject, isNullOrEmpty]
  | _ => simp [optimizeObject, isNullOrEmpty]

mutual

theorem optimizeObject_clean : ∀ v : Json, hasNullOrEmpty (optimizeObject v) = false
  | .arr items => by
    rw [optimizeObject, hasNullOrEmpty]; exact optimizeItems_clean items
  | .obj fields => by
    rw [optimizeObject, hasNullOrEmpty]; exact optimizeFields_clean fields
  | .undefined => rfl
  | .null => rfl
  | .bool _ => rfl
  | .num _ => rfl
  | .real _ => rfl
  | .str _ => rfl

theorem optimizeItems_clean : ∀ items : List Json,
    anyItemHasNullOrEmpty (optimizeItems items) = false
  | [] => rfl
  | x :: rest => by
    rw [optimizeItems, anyItemHasNullOrEmpty, optimizeObject_clean x, optimizeItems_clean rest]
    rfl

theorem optimizeFields_clean : ∀ fields : List (JSString × Json),
    anyFieldHasNullOrEmpty (optimizeFields fields) = false
  | [] => rfl
  | (k, v) :: rest => by
    rw [optimizeFields_cons]
    split
    · exact optimizeFields_clean rest
    · rename_i h
      rw [anyFieldHasNullOrEmpty_cons, isNullOrEmpty_optimizeObject, optimizeObject_clean v,
        optimizeFields_clean rest]
      simp only [not_or, Bool.not_eq_true] at h
      rw [h.1]; rfl

end

mutual

theorem optimizeObject_idempotent : ∀ v : Json,
    optimizeObject (optimizeObject v) = optimizeObject v
  | .arr items => by
    rw [optimizeObject, optimizeObject, optimizeItems_idempotent items]
  | .obj fields => by
    rw [optimizeObject, optimizeObject, optimizeFields_idempotent fields]
  | .undefined => rfl
  | .null => rfl
  | .bool _ => rfl
  | .num _ => rfl
  | .real _ => rfl
  | .str _ => rfl

theorem optimizeItems_idempotent : ∀ items : List Json,
    optimizeItems (optimizeItems items) = optimizeItems items
  | [] => rfl
  | x :: rest => by
    rw [optimizeItems, optimizeItems, optimizeObject_idempotent x,
      optimizeItems_idempotent rest]

theorem optimizeFields_idempotent : ∀ fields : List (JSString × Json),
    optimizeFields (optimizeFields fields) = optimizeFields fields
  | [] => rfl
  | (k, v) :: rest => by
    rw [optimizeFields_cons]
    split
    · exact optimizeFields_idempotent rest
    · rename_i h
      rw [optimizeFields_cons, isNullOrEmpty_optimizeObject, if_neg h,
        optimizeObject_idempotent v, optimizeFields_idempotent rest]

end

/-- The properties that `optimizeObject` keeps, in order: those whose value is
neither `null` nor the empty string and whose key is not `__proto__`. -/
theorem optimizeFields_eq (fields : List (JSString × Json)) :
    optimizeFields fields
      = (fields.filter (fun e => !isNullOrEmpty e.2 && decide (e.1 ≠ lit "__proto__"))).map
          (fun e => (e.1, optimizeObject e.2)) := by
  induction fields with
  | nil => rfl
  | cons e rest ih =>
    obtain ⟨k, v⟩ := e
    rw [optimizeFields_cons, ih, List.filter_cons]
    by_cases h1 : isNullOrEmpty v = true
    · simp [h1]
    · by_cases h2 : k = lit "__proto__"
      · simp [h2]
      · simp [h1, h2]

theorem optimizeItems_eq (items : List Json) : optimizeItems items = items.map optimizeObject := by
  induction items with
  | nil => rfl
  | cons x rest ih => rw [optimizeItems, ih, List.map_cons]

/-- C27, the failing input: the object `{"__proto__": 1, "a": 2}`, as
`JSON.parse` gives it, has two keys whose values are neither `null` nor the
empty string, and `optimizeObject` keeps only `a`. -/
theorem optimizeObject_drops_proto :
    optimizeObject (Json.obj [(lit "__proto__", Json.num 1), (lit "a", Json.num 2)])
        = Json.obj [(lit "a", Json.num 2)]
      ∧ isNullOrEmpty (Json.num 1) = false
      ∧ (optimizeObject
          (Json.obj [(lit "__proto__", Json.num 1), (lit "a", Json.num 2)])).get
          (lit "__proto__") = none :=
  ⟨rfl, rfl, rfl⟩

end FileUtils

/-! ## The file-name key of a country -/

theorem toLowerCaseFrom_ascii (u : List Nat → Nat → List Nat → List Nat) :
    ∀ (s : JSString) (before : List Nat), (∀ c ∈ s, c < 128) →
      toLowerCaseFrom u before s = s.map asciiLower := by
  intro s
  induction s with
  | nil => intro _ _; rfl
  | cons c rest ih =>
    intro before h
    rw [toLowerCaseFrom, if_pos (h c (List.mem_cons_self _ _)),
      ih _ (fun x hx => h x (List.mem_cons_of_mem _ hx))]
    rfl

namespace BaseGenerator

theorem replaceUnsafe_of_lowerAlnum (s : JSString) (h : ∀ c ∈ s, isLowerAlnum c = true) :
    replaceUnsafe s = s := by
  unfold replaceUnsafe
  conv_rhs => rw [← List.map_id s]
  apply List.map_congr_left
  intro c hc
  simp [isSafeUnit, h c hc]

theorem lowerAlnum_ne_dash (c : Nat) (h : isLowerAlnum c = true) : c ≠ 45 := by
  simp only [isLowerAlnum, Bool.or_eq_true, Bool.and_eq_true, decide_eq_true_eq] at h
  omega

theorem collapseDashes_of_lowerAlnum : ∀ (s : JSString), (∀ c ∈ s, isLowerAlnum c = true) →
    collapseDashes s = s
  | [], _ => rfl
  | [_], _ => rfl
  | c :: d :: rest, h => by
    have hc := lowerAlnum_ne_dash c (h c (List.mem_cons_self _ _))
    rw [collapseDashes, if_neg (fun hh => hc hh.1),
      collapseDashes_of_lowerAlnum (d :: rest) (fun x hx => h x (List.mem_cons_of_mem _ hx))]

theorem stripDashEnds_of_lowerAlnum (s : JSString) (h : ∀ c ∈ s, isLowerAlnum c = true) :
    stripDashEnds s = s := by
  have hlast : dropTrailingDash s = s := by
    unfold dropTrailingDash
    rw [if_neg]
    intro hl
    exact lowerAlnum_ne_dash 45 (h 45 (List.mem_of_getLast?_eq_some hl)) rfl
  cases s with
  | nil => rfl
  | cons c rest =>
    have hc := lowerAlnum_ne_dash c (h c (List.mem_cons_self _ _))
    unfold stripDashEnds
    split
    · rename_i heq
      exact absurd (List.cons.inj heq).1 hc
    · exact hlast

end BaseGenerator

/-- C30: for a country whose `iso2` is a non-empty string of ASCII letters and
digits only, the three generators name its file alike: the paths of
`countries/{k}.json`, `states/country/{k}.json` and `cities/country/{k}.json`
all carry the lower-cased `iso2` as `k`. -/
theorem country_file_key (u : List Nat → Nat → List Nat → List Nat) (country : Country)
    (iso : JSString) (hiso : country.iso2 = Field.str iso) (hne : iso ≠ [])
    (halnum : ∀ c ∈ iso, isAsciiAlnum c = true) :
    toLowerCase u iso = iso.map asciiLower
      ∧ CountriesGenerator.individualPath u country
        = lit "countries/" ++ toLowerCase u iso ++ lit ".json"
      ∧ (∀ (first : State) (rest : List State),
          (StatesGenerator.processCountryStates u country (first :: rest)).map Prod.fst
            = some (lit "states/country/" ++ toLowerCase u iso ++ lit ".json"))
      ∧ (∀ countryId : JSString,
          CitiesGenerator.countryPath u (some country) countryId
            = lit "cities/country/" ++ toLowerCase u iso ++ lit ".json") := by
  have hlow : toLowerCase u iso = iso.map asciiLower :=
    toLowerCaseFrom_ascii u iso [] (fun c hc => (BaseGenerator.asciiAlnum_lower c (halnum c hc)).1)
  have hall : ∀ c ∈ toLowerCase u iso, isLowerAlnum c = true := by
    rw [hlow]
    intro c hc
    obtain ⟨x, hx, rfl⟩ := List.mem_map.mp hc
    exact (BaseGenerator.asciiAlnum_lower x (halnum x hx)).2
  have hne2 : toLowerCase u iso ≠ [] := by
    rw [hlow]; simpa using hne
  obtain ⟨c, cs, rfl⟩ := List.exists_cons_of_ne_nil hne
  have hcode : ∀ fallback, codeFileName u country.iso2 fallback = toLowerCase u (c :: cs) := by
    intro fallback
    rw [hiso]
    simp only [codeFileName, BaseGenerator.replaceUnsafe_of_lowerAlnum _ hall, if_neg hne2]
  refine ⟨hlow, ?_, ?_, ?_⟩
  · rw [CountriesGenerator.individualPath, hcode]
  · intro first rest
    simp only [StatesGenerator.processCountryStates, Option.map_some', hiso, Field.toValue,
      BaseGenerator.generateSafeFilename, BaseGenerator.replaceUnsafe_of_lowerAlnum _ hall,
      BaseGenerator.collapseDashes_of_lowerAlnum _ hall,
      BaseGenerator.stripDashEnds_of_lowerAlnum _ hall]
  · intro countryId
    simp only [CitiesGenerator.countryPath, Option.map_some', Option.getD_some, hcode]

/-- The example country: its three files are `countries/af.json`,
`states/country/af.json` and `cities/country/af.json`. -/
theorem country_file_key_witness :
    exampleCountry.iso2 = Field.str (lit "AF") ∧ lit "AF" ≠ []
      ∧ (∀ c ∈ lit "AF", isAsciiAlnum c = true)
      ∧ toLowerCase noCaseTables (lit "AF") = lit "af"
      ∧ CountriesGenerator.individualPath noCaseTables exampleCountry
        = lit "countries/" ++ toLowerCase noCaseTables (lit "AF") ++ lit ".json"
      ∧ (StatesGenerator.processCountryStates noCaseTables exampleCountry
          [completeState]).map Prod.fst
        = some (lit "states/country/" ++ toLowerCase noCaseTables (lit "AF") ++ lit ".json")
      ∧ CitiesGenerator.countryPath noCaseTables (some exampleCountry) (lit "1")
        = lit "cities/country/" ++ toLowerCase noCaseTables (lit "AF") ++ lit ".json" :=
  ⟨rfl, by decide, by decide, by decide,
    (country_file_key noCaseTables exampleCountry (lit "AF") rfl (by decide) (by decide)).2.1,
    (country_file_key noCaseTables exampleCountry (lit "AF") rfl (by decide)
      (by decide)).2.2.1 completeState [],
    (country_file_key noCaseTables exampleCountry (lit "AF") rfl (by decide)
      (by decide)).2.2.2 (lit "1")⟩

/-! ## Validation in the states generator -/

/-- Leaving out the properties whose value is `undefined` does not change what
a property read gives. -/
theorem getProperty_filter_defined : ∀ (l : List (JSString × Json)) (k : JSString),
    (l.map Prod.fst).Nodup →
    (getProperty (l.filter (fun e => !e.2.isUndefined)) k).getD Json.undefined
      = (getProperty l k).getD Json.undefined
  | [], _, _ => rfl
  | (k1, v1) :: rest, k, hnd => by
    rw [List.map_cons, List.nodup_cons] at hnd
    have ih := getProperty_filter_defined rest k hnd.2
    cases hv : v1.isUndefined with
    | false =>
      rw [List.filter_cons, if_pos (by simp [hv])]
      by_cases hk : k1 = k
      · simp only [getProperty, if_pos hk]
      · simp only [getProperty, if_neg hk, ih]
    | true =>
      rw [List.filter_cons, if_neg (by simp [hv])]
      by_cases hk : k1 = k
      · have hv1 : v1 = Json.undefined := by cases v1 <;> simp_all [Json.isUndefined]
        rw [ih, getProperty, if_pos hk, hv1, ← hk,
          getProperty_none_of_not_mem rest k1 hnd.1]
        rfl
      · simp only [getProperty, if_neg hk, ih]

namespace BaseGenerator

theorem isMissing_toJson (f : Field) : isMissing (.value f.toJson) = !f.truthy := by
  cases f with
  | str s => cases s <;> rfl
  | _ => rfl

theorem batchesFrom_of_lt {α : Type} (items : List α) (i : Nat) (h : i < items.length) :
    batchesFrom items i
      = slice items i (i + Config.batchSize) :: batchesFrom items (i + Config.batchSize) := by
  rw [batchesFrom]
  simp [h]

theorem batchesFrom_of_ge {α : Type} (items : List α) (i : Nat) (h : items.length ≤ i) :
    batchesFrom items i = [] := by
  rw [batchesFrom]
  simp [Nat.not_lt.mpr h]

/-- The slices of `processInBatches` from index `i` on, concatenated, are the
items from index `i` on. -/
theorem batchesFrom_flatten {α : Type} (items : List α) :
    ∀ (n i : Nat), items.length - i = n → (batchesFrom items i).flatten = items.drop i := by
  intro n
  induction n using Nat.strong_induction_on with
  | _ n ih =>
    intro i hn
    by_cases h : i < items.length
    · rw [batchesFrom_of_lt items i h, List.flatten_cons,
        ih (items.length - (i + Config.batchSize))
          (by simp only [Config.batchSize]; omega) (i + Config.batchSize) rfl]
      simp only [slice, Nat.add_sub_cancel_left]
      rw [← List.drop_drop]
      exact List.take_append_drop _ _
    · rw [batchesFrom_of_ge items i (Nat.le_of_not_lt h)]
      simp [List.drop_eq_nil_of_le (Nat.le_of_not_lt h)]

/-- A callback that treats the items of a batch one by one treats, over all
batches, every item once and in order. -/
theorem processInBatches_map {α β : Type} (items : List α) (f : α → β) :
    processInBatches items (fun batch => batch.map f) = items.map f := by
  unfold processInBatches
  rw [← List.map_flatten, batchesFrom_flatten items _ 0 rfl, List.drop_zero]

end BaseGenerator

namespace StatesGenerator

theorem stateFields_keys_nodup (s : State) :
    (([(lit "country_code", s.country_code.toJson), (lit "country_name", s.country_name.toJson),
        (lit "iso2", s.iso2.toJson), (lit "iso3166_2", s.iso3166_2.toJson),
        (lit "type", s.type.toJson), (lit "latitude", s.latitude.toJson),
        (lit "longitude", s.longitude.toJson), (lit "timezone", s.timezone.toJson)]
      : List (JSString × Json)).map Prod.fst).Nodup := by
  show ([lit "country_code", lit "country_name", lit "iso2", lit "iso3166_2", lit "type",
    lit "latitude", lit "longitude", lit "timezone"] : List JSString).Nodup
  decide

/-- Reading a data field of a record whose optional fields are left out when
undefined: the value of the field. -/
theorem read_filter_defined (l0 l : List (JSString × Json)) (k : JSString) (v : Json)
    (hnd : (l.map Prod.fst).Nodup) (h0 : getProperty l0 k = none)
    (hk : k ∉ objectPrototypeMembers) (hv : (getProperty l k).getD Json.undefined = v) :
    (Json.obj (l0 ++ l.filter (fun e => !e.2.isUndefined))).read plainObjectMember k
      = .value v := by
  have happ : ∀ (a b : List (JSString × Json)), getProperty a k = none →
      getProperty (a ++ b) k = getProperty b k := by
    intro a
    induction a with
    | nil => intro b _; rfl
    | cons e rest ih =>
      intro b h
      obtain ⟨k1, v1⟩ := e
      by_cases hk1 : k1 = k
      · simp [getProperty, hk1] at h
      · simp only [getProperty, if_neg hk1] at h
        simp only [List.cons_append, getProperty, if_neg hk1]
        exact ih b h
  have hf := getProperty_filter_defined l k hnd
  rw [hv] at hf
  simp only [Json.read, Json.own, happ _ _ h0]
  cases hg : getProperty (l.filter (fun e => !e.2.isUndefined)) k with
  | some w =>
    rw [hg] at hf
    simp only [Option.getD_some] at hf
    rw [hf]
  | none =>
    rw [hg] at hf
    simp only [Option.getD_none] at hf
    simp only [plainObjectMember, hk, decide_False, Bool.false_eq_true, if_false, hf]

theorem readState_required (s : State) :
    readState s (lit "id") = .value (Json.num s.id)
      ∧ readState s (lit "name") = .value (Json.str s.name)
      ∧ readState s (lit "country_id") = .value (Json.num s.country_id)
      ∧ readState s (lit "country_code") = .value s.country_code.toJson
      ∧ readState s (lit "country_name") = .value s.country_name.toJson
      ∧ readState s (lit "iso2") = .value s.iso2.toJson
      ∧ readState s (lit "iso3166_2") = .value s.iso3166_2.toJson := by
  have h := fun k v h0 hk hv =>
    read_filter_defined
      [(lit "id", Json.num s.id), (lit "name", Json.str s.name),
        (lit "country_id", Json.num s.country_id)] _ k v (stateFields_keys_nodup s) h0 hk hv
  refine ⟨rfl, rfl, rfl, ?_, ?_, ?_, ?_⟩
  · exact h (lit "country_code") _ rfl (by decide) rfl
  · exact h (lit "country_name") _ rfl (by decide) rfl
  · exact h (lit "iso2") _ rfl (by decide) rfl
  · exact h (lit "iso3166_2") _ rfl (by decide) rfl

/-- A state passes the validation of `generate` exactly when it has the
required fields. -/
theorem missing_iff (s : State) :
    (!decide ((requiredFields.filter
        (fun field => BaseGenerator.isMissing (readState s field))).length > 0))
      = hasRequiredFields s := by
  obtain ⟨h1, h2, h3, h4, h5, h6, h7⟩ := readState_required s
  simp only [requiredFields, List.filter_cons, h1, h2, h3, h4, h5, h6, h7,
    BaseGenerator.isMissing_toJson, List.filter_nil, hasRequiredFields]
  cases hn : s.name <;> cases s.country_code.truthy <;> cases s.country_name.truthy
    <;> cases s.iso2.truthy <;> cases s.iso3166_2.truthy <;> rfl

/-- In the default mode the validation of `generate` keeps exactly the states
that have the required fields, in order. -/
theorem validateData_states (now : JSString) (states : List State) :
    ∃ warning, BaseGenerator.validateData readState Config.validationMode now states
        requiredFields = .ok (states.filter hasRequiredFields, warning) := by
  have hf : (fun item : State => !decide ((requiredFields.filter
      (fun field => BaseGenerator.isMissing (readState item field))).length > 0))
      = hasRequiredFields := funext missing_iff
  unfold BaseGenerator.validateData
  simp only [hf]
  split
  · rw [if_neg (by decide)]
    exact ⟨_, rfl⟩
  · exact ⟨_, rfl⟩

/-- The writes of `generate` in the default mode. -/
theorem generate_eq (u : List Nat → Nat → List Nat → List Nat)
    (localeLe : JSString → JSString → Bool) (now : JSString) (states : List State)
    (countries : List Country) :
    generate u localeLe Config.validationMode now states countries
      = .ok
        { byCountry := generateStatesByCountry u (states.filter hasRequiredFields) countries
          individual := (states.filter hasRequiredFields).map
            (generateSingleState u (countries.map (fun c => (c.id, c))))
          byType := generateStatesByType u (states.filter hasRequiredFields)
          byTimezone := generateStatesByTimezone localeLe (states.filter hasRequiredFields)
          all := generateAllStatesList (states.filter hasRequiredFields) } := by
  obtain ⟨warning, h⟩ := validateData_states now states
  simp only [generate, h, generateIndividualStates, BaseGenerator.processInBatches_map]

/-- C10, the failing input: one state of the country 10^21, which has the
required fields, and the country 1. The group of the state has the key
`1e+21`, which `parseInt` reads as 1, so the document of the country 1,
`states/country/af.json` with `meta.country_id` 1, holds the state of the
country 10^21, and no state of the country 1, of which there is none. -/
theorem generate_foreign_states_by_country :
    farState.country_id = 1000000000000000000000
      ∧ hasRequiredFields farState = true
      ∧ numberToString farState.country_id = lit "1e+21"
      ∧ parseInt (lit "1e+21") = some 1
      ∧ [farState].filter (fun s => decide (s.country_id = 1)) = []
      ∧ ∃ w, generate noCaseTables strLe Config.validationMode exampleNow [farState]
            [exampleCountry] = .ok w
          ∧ w.byCountry
            = [(lit "states/country/af.json",
                Document.byCountry [listItem farState]
                  { type := lit "states", count := 1, api_version := lit "v1", country_id := 1,
                    country_name := Field.str (lit "Afneq"),
                    country_iso2 := Field.str (lit "AF"), country_iso3 := Field.undefined,
                    country_code := Field.str (lit "AF"), total_states := 1 })] :=
  ⟨rfl, rfl, by decide, by decide, by decide, _, generate_eq _ _ _ _ _, by decide⟩

/-- C23, as stated, fails: the state of the example has no `iso3166_2`, and
`generate` writes no individual document for it, neither at `states/10.json`
nor elsewhere: validation has dropped the state. -/
theorem generate_no_document_without_code :
    exampleState ∈ [exampleState] ∧ exampleState.iso3166_2 = Field.undefined
      ∧ ∃ w, generate noCaseTables strLe Config.validationMode exampleNow [exampleState]
            [exampleCountry] = .ok w
          ∧ w.individual = [] ∧ lit "states/10.json" ∉ w.paths :=
  ⟨List.mem_singleton.mpr rfl, rfl, _, generate_eq _ _ _ _ _, rfl, by decide⟩

/-- C23, amended: in the default mode `generate` writes one individual document
for every state of the input that has the required fields, in input order, at
`states/{k}.json` with `k` the sanitized `iso3166_2` of the state; a state that
lacks a required field, among them `iso3166_2`, is dropped by validation and is
the payload of no individual document. `generateSingleState` by itself names
the file after the id of the state when `iso3166_2` is missing or empty. -/
theorem individual_state_documents (u : List Nat → Nat → List Nat → List Nat)
    (localeLe : JSString → JSString → Bool) (now : JSString) (states : List State)
    (countries : List Country) :
    ∃ w, generate u localeLe Config.validationMode now states countries = .ok w
      ∧ w.individual = (states.filter hasRequiredFields).map
          (generateSingleState u (countries.map (fun c => (c.id, c))))
      ∧ (∀ s ∈ states, hasRequiredFields s = true →
          ∃ code m, s.iso3166_2 = Field.str code ∧ code ≠ []
            ∧ (lit "states/"
                ++ BaseGenerator.stripDashEnds (BaseGenerator.collapseDashes
                    (BaseGenerator.replaceUnsafe (toLowerCase u code)))
                ++ lit ".json", s, m) ∈ w.individual)
      ∧ (∀ s ∈ states, hasRequiredFields s = false → ∀ e ∈ w.individual, e.2.1 ≠ s)
      ∧ ∀ s : State, s.iso3166_2.truthy = false →
          (generateSingleState u (countries.map (fun c => (c.id, c))) s).1
            = lit "states/" ++ numberToString s.id ++ lit ".json" := by
  refine ⟨_, generate_eq u localeLe now states countries, rfl, ?_, ?_, ?_⟩
  · intro s hs hv
    have hmem : generateSingleState u (countries.map (fun c => (c.id, c))) s
        ∈ (states.filter hasRequiredFields).map
          (generateSingleState u (countries.map (fun c => (c.id, c)))) :=
      List.mem_map_of_mem _ (List.mem_filter.mpr ⟨hs, hv⟩)
    have htr : s.iso3166_2.truthy = true := by
      simp only [hasRequiredFields, Bool.and_eq_true] at hv
      exact hv.2
    cases hc : s.iso3166_2 with
    | undefined => rw [hc] at htr; cases htr
    | null => rw [hc] at htr; cases htr
    | str code =>
      cases code with
      | nil => rw [hc] at htr; cases htr
      | cons c cs =>
        refine ⟨c :: cs, (generateSingleState u (countries.map (fun c => (c.id, c))) s).2.2,
          rfl, List.cons_ne_nil _ _, ?_⟩
        simp only [generateSingleState, hc, Field.toValue,
          BaseGenerator.generateSafeFilename] at hmem
        exact hmem
  · intro s _ hv e he heq
    obtain ⟨x, hx, rfl⟩ := List.mem_map.mp he
    have hx2 := (List.mem_filter.mp hx).2
    have : x = s := heq
    rw [this, hv] at hx2
    cases hx2
  · intro s hs
    cases hc : s.iso3166_2 with
    | undefined => simp only [generateSingleState, hc, Field.toValue,
        BaseGenerator.generateSafeFilename, Option.getD_some]
    | null => simp only [generateSingleState, hc, Field.toValue,
        BaseGenerator.generateSafeFilename, Option.getD_some]
    | str code =>
      cases code with
      | nil => simp only [generateSingleState, hc, Field.toValue,
          BaseGenerator.generateSafeFilename, Option.getD_some]
      | cons c cs => rw [hc] at hs; cases hs

/-- C24, as stated, fails: on the example `generate` writes neither
`states/country/af.json` nor `states/type/province.json`. The state lacks the
required fields `country_code`, `country_name`, `iso2` and `iso3166_2`, and
validation drops it before the groups are formed. -/
theorem generate_example_writes_no_group :
    hasRequiredFields exampleState = false
      ∧ ∃ w, generate noCaseTables strLe Config.validationMode exampleNow [exampleState]
            [exampleCountry] = .ok w
          ∧ lit "states/country/af.json" ∉ w.paths
          ∧ lit "states/type/province.json" ∉ w.paths
          ∧ w.paths = [lit "states/types.json", lit "states/timezones.json",
              lit "states/all.json"] :=
  ⟨rfl, _, generate_eq _ _ _ _ _, by decide, by decide, by decide⟩

/-- C24, amended: on the example with the state completed by the four fields
that validation requires, `generate` writes `states/country/af.json`, whose
`data` holds exactly one entry, the state with id 10, and
`states/type/province.json`, whose `data` holds that same state. -/
theorem generate_example_groups (u : List Nat → Nat → List Nat → List Nat)
    (localeLe : JSString → JSString → Bool) (now : JSString) :
    ∃ w, generate u localeLe Config.validationMode now [completeState] [exampleCountry]
          = .ok w
      ∧ w.byCountry
        = [(lit "states/country/af.json",
            Document.byCountry [listItem completeState]
              { type := lit "states", count := 1, api_version := lit "v1", country_id := 1,
                country_name := Field.str (lit "Afneq"), country_iso2 := Field.str (lit "AF"),
                country_iso3 := Field.undefined, country_code := Field.str (lit "AF"),
                total_states := 1 })]
      ∧ (listItem completeState).id = 10
      ∧ readFile w.byType (lit "states/type/province.json")
        = some (Document.byType [ofType completeState]
            { type := lit "province", count := 1, api_version := lit "v1",
              key := lit "province", total_states := 1 })
      ∧ (ofType completeState).id = 10 := by
  refine ⟨_, generate_eq u localeLe now [completeState] [exampleCountry], ?_, rfl, ?_, rfl⟩
  · rfl
  · rfl

end StatesGenerator

/-! ## Validation in the cities generator -/

namespace CitiesGenerator

theorem iterations_completeCity :
    iterations [completeCity] [exampleState] [exampleCountry]
      = [iteration [(10, exampleState)] [(1, exampleCountry)] [completeCity]
          (List.cons_ne_nil _ _)] := by
  show batchLoop [(10, exampleState)] [(1, exampleCountry)] [completeCity] 0 = _
  rw [batchLoop_of_lt _ _ _ 0 (by simp), batchLoop_of_ge _ _ _ _ (by simp [CITIES_PER_BATCH])]
  rfl

theorem iterations_lostCity :
    iterations [completeCity, lostCity] [exampleState] [exampleCountry]
      = [iteration [(10, exampleState)] [(1, exampleCountry)] [completeCity, lostCity]
          (List.cons_ne_nil _ _)] := by
  show batchLoop [(10, exampleState)] [(1, exampleCountry)] [completeCity, lostCity] 0 = _
  rw [batchLoop_of_lt _ _ _ 0 (by simp), batchLoop_of_ge _ _ _ _ (by simp [CITIES_PER_BATCH])]
  rfl

/-- When the validation does not throw, `generate` runs every step on the
cities of the generator. -/
theorem generate_of_ok (u : List Nat → Nat → List Nat → List Nat) (cities : List City)
    (states : List State) (countries : List Country) (v : DataUtils.Validated)
    (h : DataUtils.validateData plainObjectMember
      (Json.arr (cities.map (fun c => Json.obj (cityFields c)))) requiredFields {} = .ok v) :
    generate u cities states countries
      = .ok
        { byCountry := generateCitiesByCountry u cities countries
          byState := generateCitiesByState u cities states
          byTimezone := generateCitiesByTimezone cities
          batches := generateCityBatches cities states countries } := by
  simp only [generate, h]

/-- C21, the failing input: two cities, of which the second,
`{id: 101, name: "Lost", state_id: 10, country_id: 1}`, has neither `state_name`
nor `country_name`. `DataUtils.validateData` returns the first city alone, but
`generate` does not use what it returns: the batch file
`cities/batch/batch-100-101.json` holds a record for the city 101. -/
theorem generate_keeps_invalid_city (u : List Nat → Nat → List Nat → List Nat) :
    DataUtils.validateData plainObjectMember
        (Json.arr ([completeCity, lostCity].map (fun c => Json.obj (cityFields c))))
        requiredFields {}
        = .ok (.records [Json.obj (cityFields completeCity)])
      ∧ ∃ w, generate u [completeCity, lostCity] [exampleState] [exampleCountry] = .ok w
          ∧ readFile w.batches (lit "cities/batch/batch-100-101.json")
            = some (Document.batchFile
                [(100, enhance [(10, exampleState)] [(1, exampleCountry)] completeCity),
                 (101, enhance [(10, exampleState)] [(1, exampleCountry)] lostCity)]
                { type := lit "cities_batch", batch_range := lit "100-101", cities_count := 2,
                  usage := lit "Access city by ID: data[city_id]", api_version := lit "v1" })
          ∧ (enhance [(10, exampleState)] [(1, exampleCountry)] lostCity).id = 101 := by
  have hv : DataUtils.validateData plainObjectMember
      (Json.arr ([completeCity, lostCity].map (fun c => Json.obj (cityFields c))))
      requiredFields {} = .ok (.records [Json.obj (cityFields completeCity)]) := rfl
  refine ⟨hv, _, generate_of_ok u _ _ _ _ hv, ?_, rfl⟩
  show readFile (generateCityBatches [completeCity, lostCity] [exampleState] [exampleCountry])
    _ = _
  simp only [generateCityBatches, iterations_lostCity, List.map_cons, List.map_nil,
    List.singleton_append]
  rfl

/-- C25, the failing input: on the example `generate` throws and writes no
file. The only city lacks `state_name` and `country_name`, so no record is
valid and `DataUtils.validateData` throws "All records are invalid" instead of
falling back to the original array, as the comment on its last line says. The
step `generateCityBatches` on the same cities writes the two files of the claim:
a run that got past the validation would emit them. -/
theorem generate_example_throws :
    generate noCaseTables [exampleCity] [exampleState] [exampleCountry]
        = .error DataUtils.ValidationError.allInvalid
      ∧ generateCityBatches [exampleCity] [exampleState] [exampleCountry]
        = [(lit "cities/batch/batch-100-100.json",
            Document.batchFile
              [(100, enhance [(10, exampleState)] [(1, exampleCountry)] exampleCity)]
              { type := lit "cities_batch", batch_range := lit "100-100", cities_count := 1,
                usage := lit "Access city by ID: data[city_id]", api_version := lit "v1" }),
           (lit "cities/batches.json",
            Document.batchIndex
              [{ filename := lit "cities/batch/batch-100-100.json", start_id := 100,
                 end_id := 100, count := 1 }]
              { type := lit "batch_index", total_batches := 1, cities_per_batch := 100,
                total_cities := 1,
                usage := lit "Use start_id/end_id to find which batch contains a specific city ID",
                api_version := lit "v1" })] := by
  refine ⟨rfl, ?_⟩
  have h : iterations [exampleCity] [exampleState] [exampleCountry] = [exampleIteration] := by
    show batchLoop [(10, exampleState)] [(1, exampleCountry)] [exampleCity] 0 = _
    rw [batchLoop_of_lt _ _ _ 0 (by simp), batchLoop_of_ge _ _ _ _ (by simp [CITIES_PER_BATCH])]
    rfl
  simp only [generateCityBatches, h, List.map_cons, List.map_nil, List.singleton_append]
  rfl

/-- The example with the city completed by the two fields that validation
requires: `generate` writes `cities/batch/batch-100-100.json`, whose `data` has
the single key 100 mapped to the denormalized city, and `cities/batches.json`,
whose `data` is the one entry with `start_id` 100, `end_id` 100 and `count`
1. -/
theorem generate_example_batches (u : List Nat → Nat → List Nat → List Nat) :
    ∃ w, generate u [completeCity] [exampleState] [exampleCountry] = .ok w
      ∧ w.batches
        = [(lit "cities/batch/batch-100-100.json",
            Document.batchFile
              [(100, enhance [(10, exampleState)] [(1, exampleCountry)] completeCity)]
              { type := lit "cities_batch", batch_range := lit "100-100", cities_count := 1,
                usage := lit "Access city by ID: data[city_id]", api_version := lit "v1" }),
           (lit "cities/batches.json",
            Document.batchIndex
              [{ filename := lit "cities/batch/batch-100-100.json", start_id := 100,
                 end_id := 100, count := 1 }]
              { type := lit "batch_index", total_batches := 1, cities_per_batch := 100,
                total_cities := 1,
                usage := lit "Use start_id/end_id to find which batch contains a specific city ID",
                api_version := lit "v1" })]
      ∧ enhance [(10, exampleState)] [(1, exampleCountry)] completeCity
        = { id := 100, name := lit "Town", state_id := 10, country_id := 1,
            state_name := Field.str (lit "Prov"), country_name := Field.str (lit "Afneq"),
            state_code := Field.undefined, country_code := Field.undefined,
            latitude := Field.undefined, longitude := Field.undefined,
            wikiDataId := Field.undefined, timezone := Field.undefined,
            state_type := Field.str (lit "province"), country_iso2 := Field.str (lit "AF"),
            country_iso3 := Field.undefined, has_coordinates := false, has_wikidata := false,
            has_timezone := false } := by
  have hv : DataUtils.validateData plainObjectMember
      (Json.arr ([completeCity].map (fun c => Json.obj (cityFields c))))
      requiredFields {} = .ok (.records [Json.obj (cityFields completeCity)]) := rfl
  refine ⟨_, generate_of_ok u _ _ _ _ hv, ?_, rfl⟩
  show generateCityBatches [completeCity] [exampleState] [exampleCountry] = _
  simp only [generateCityBatches, iterations_completeCity, List.map_cons, List.map_nil,
    List.singleton_append]
  rfl

end CitiesGenerator

/-! ## Ids from 10^21 on -/

/-- The rendering of an id from 10^21 on is in exponent notation, in a file
name as in a group key: the batch file of the one city 10^21 is
`cities/batch/batch-1e+21-1e+21.json`, and the individual file of a state 10^21
without `iso3166_2` is `states/1e+21.json`. -/
theorem exponent_renderings :
    numberToString 999999999999999999999 = lit "999999999999999999999"
      ∧ numberToString 1000000000000000000000 = lit "1e+21"
      ∧ numberToString 1500000000000000000000 = lit "1.5e+21"
      ∧ numberToString (-1000000000000000000000) = lit "-1e+21"
      ∧ numberToString 12000000000000000000000 = lit "1.2e+22"
      ∧ (CitiesGenerator.iteration [] [] [{ exampleCity with id := 1000000000000000000000 }]
          (List.cons_ne_nil _ _)).filePath = lit "cities/batch/batch-1e+21-1e+21.json"
      ∧ (StatesGenerator.generateSingleState noCaseTables []
          { exampleState with id := 1000000000000000000000 }).1 = lit "states/1e+21.json" := by
  refine ⟨by decide, by decide, by decide, by decide, by decide, by decide, by decide⟩

end GeoData
